import Mathlib

/-!
CallPilotReceptionist: call lifecycle and webhook signature check.

A shallow embedding of

* `internal/domain/errors/errors.go` (the `DomainError` constructors),
* `internal/domain/entities/call.go` (`NewCall`, `Call.UpdateStatus`, ...),
* `internal/infrastructure/providers/vapi/vapi_provider.go`
  (`VapiProvider.ValidateWebhookSignature`),
* `internal/application/services/call_service.go` and `interaction_service.go`
  with the interfaces and the SQL repositories they call,

followed by the properties of the call state machine, of the signature check
and of the services.

Conventions of the embedding.

* A Go method with a pointer receiver that mutates its receiver and returns an
  `error` becomes a function returning the receiver's final value paired with
  `Option DomainError` (`none` is Go's `nil` error).
* `time.Now()` is an input: every function that reads the clock takes the
  reading as an argument `now`.
* A `time.Time` is an instant counted in nanoseconds on one clock, a
  `time.Duration` a signed number of nanoseconds kept in an int64.
* A `float64` that the code computes with (`Duration.Seconds`) is a pair of a
  mantissa and a binary exponent; every operation returns the `float64` nearest
  to the exact result, ties to the even mantissa, as IEEE 754 prescribes.
* A Go `string` whose content is only compared is a Lean `String`; a Go string
  that is converted to `[]byte` (webhook secret and signature) is the list of
  its bytes.
-/

namespace errors

/-- The struct `DomainError`; `Err` keeps the text of the wrapped error. -/
structure DomainError where
  Code : String
  Message : String
  Err : Option String
deriving DecidableEq, Repr

def ErrCodeNotFound : String := "NOT_FOUND"
def ErrCodeAlreadyExists : String := "ALREADY_EXISTS"
def ErrCodeInvalidInput : String := "INVALID_INPUT"
def ErrCodeUnauthorized : String := "UNAUTHORIZED"
def ErrCodeForbidden : String := "FORBIDDEN"
def ErrCodeInternal : String := "INTERNAL_ERROR"
def ErrCodeProviderError : String := "PROVIDER_ERROR"
def ErrCodeDatabaseError : String := "DATABASE_ERROR"
def ErrCodeValidationError : String := "VALIDATION_ERROR"

def NewInvalidInputError (message : String) : DomainError :=
  { Code := ErrCodeInvalidInput, Message := message, Err := none }

def NewValidationError (message : String) : DomainError :=
  { Code := ErrCodeValidationError, Message := message, Err := none }

def NewUnauthorizedError (message : String) : DomainError :=
  { Code := ErrCodeUnauthorized, Message := message, Err := none }

def NewForbiddenError (message : String) : DomainError :=
  { Code := ErrCodeForbidden, Message := message, Err := none }

end errors

namespace float64

/-- A finite `float64`, the number `m * 2 ^ e`. The infinities and NaN are not
represented, nor is the sign of zero: no modelled computation reaches them. -/
structure Float64 where
  m : Int
  e : Int
deriving DecidableEq, Repr

/-- The number of binary digits of `n`; `fuel` bounds the recursion, and `n` is
enough. -/
def bitsAux : Nat → Nat → Nat
  | 0, _ => 0
  | fuel + 1, n => if n = 0 then 0 else bitsAux fuel (n / 2) + 1

def bitLength (n : Nat) : Nat :=
  bitsAux n n

/-- The integer part of the binary logarithm of `n / d`, for `n` and `d` not
zero. -/
def floorLog2 (n d : Nat) : Int :=
  if d * 2 ^ ((bitLength n : Int) - (bitLength d : Int)).toNat
      ≤ n * 2 ^ ((bitLength d : Int) - (bitLength n : Int)).toNat then
    (bitLength n : Int) - (bitLength d : Int)
  else (bitLength n : Int) - (bitLength d : Int) - 1

/-- The integer nearest to `n / d`, the even one of two that are equally
near. -/
def roundHalfEven (n d : Nat) : Nat :=
  if 2 * (n % d) < d then n / d
  else if d < 2 * (n % d) then n / d + 1
  else if (n / d) % 2 = 0 then n / d
  else n / d + 1

/-- The exponent of the `float64` nearest to `n / d`: 52 below the binary
logarithm for a normal number, `-1074` for a subnormal one. -/
def exponent (n d : Nat) : Int :=
  max (floorLog2 n d - 52) (-1074)

/-- The `float64` nearest to `n / d` under the rounding of IEEE 754 (to
nearest, ties to even), for `d` not zero and `n / d` below `2 ^ 1024`. -/
def nearest (n d : Nat) : Float64 :=
  if n = 0 then { m := 0, e := 0 }
  else
    { m := roundHalfEven (n * 2 ^ (-(exponent n d)).toNat) (d * 2 ^ (exponent n d).toNat)
      e := exponent n d }

/-- The `float64` nearest to `num / den`. -/
def round (num : Int) (den : Nat) : Float64 :=
  if num < 0 then { m := -(nearest num.natAbs den).m, e := (nearest num.natAbs den).e }
  else nearest num.natAbs den

/-- The `float64` nearest to `m * 2 ^ e`. -/
def roundScaled (m e : Int) : Float64 :=
  if 0 ≤ e then round (m * 2 ^ e.toNat) 1 else round m (2 ^ (-e).toNat)

/-- The conversion `float64(n)` of an integer. -/
def ofInt (n : Int) : Float64 :=
  round n 1

/-- The sum `a + b` of two `float64`: the exact sum, rounded. -/
def add (a b : Float64) : Float64 :=
  roundScaled (a.m * 2 ^ (a.e - min a.e b.e).toNat + b.m * 2 ^ (b.e - min a.e b.e).toNat)
    (min a.e b.e)

/-- The quotient `a / b` of two `float64`, for `b` not zero: the exact
quotient, rounded. -/
def div (a b : Float64) : Float64 :=
  round (a.m * b.m.sign * 2 ^ (a.e - b.e).toNat) (b.m.natAbs * 2 ^ (b.e - a.e).toNat)

/-- The conversion `int(a)` of a `float64` within the range of `int`: the
fraction is discarded. -/
def toInt (a : Float64) : Int :=
  if 0 ≤ a.e then a.m * 2 ^ a.e.toNat else a.m.tdiv (2 ^ (-a.e).toNat)

end float64

namespace time

/-- An instant, in nanoseconds. -/
abbrev Time := Int

/-- A `time.Duration`: nanoseconds, within the int64 range. -/
abbrev Duration := Int

/-- The constant `time.Second`, in nanoseconds. -/
def Second : Duration := 1000000000

def minDuration : Duration := -9223372036854775808

def maxDuration : Duration := 9223372036854775807

/-- The method `Time.Sub`: the duration `t - u`, and the smallest or largest
duration when the difference does not fit in an int64. -/
def Sub (t u : Time) : Duration :=
  if t - u < minDuration then minDuration
  else if maxDuration < t - u then maxDuration
  else t - u

/-- The method `Duration.Seconds`, whose body is
`sec := d / Second; nsec := d % Second; return float64(sec) + float64(nsec)/1e9`
(Go's `/` and `%` on integers truncate toward zero). The two conversions, the
division and the addition are the `float64` operations, each rounded to
nearest. -/
def Seconds (d : Duration) : float64.Float64 :=
  float64.add (float64.ofInt (d.tdiv Second))
    (float64.div (float64.ofInt (d.tmod Second)) (float64.ofInt 1000000000))

end time

namespace entities

open errors

abbrev CallStatus := String

def CallStatusInitiated : CallStatus := "initiated"
def CallStatusRinging : CallStatus := "ringing"
def CallStatusInProgress : CallStatus := "in_progress"
def CallStatusCompleted : CallStatus := "completed"
def CallStatusFailed : CallStatus := "failed"
def CallStatusNoAnswer : CallStatus := "no_answer"
def CallStatusBusy : CallStatus := "busy"

/-- The struct `Call`. `Cost` is a float64 in the source; no modelled operation
computes with it. The pointers `StartedAt` and `EndedAt` are `none` when nil. -/
structure Call where
  ID : String
  BusinessID : String
  ProviderCallID : String
  CallerPhone : String
  Duration : Int
  Status : CallStatus
  Cost : Rat
  StartedAt : Option time.Time
  EndedAt : Option time.Time
  CreatedAt : time.Time
deriving DecidableEq, Repr

/-- The constructor `NewCall`; the fields that the struct literal leaves out
hold Go's zero values. -/
def NewCall (businessID callerPhone : String) (now : time.Time) :
    Except DomainError Call :=
  if businessID = "" then
    .error (NewValidationError "business_id is required")
  else if callerPhone = "" then
    .error (NewValidationError "caller_phone is required")
  else
    .ok { ID := "", BusinessID := businessID, ProviderCallID := "",
          CallerPhone := callerPhone, Duration := 0,
          Status := CallStatusInitiated, Cost := 0,
          StartedAt := none, EndedAt := none, CreatedAt := now }

/-- The map literal `validStatuses` of `UpdateStatus`, as its list of
entries. -/
def validStatusesEntries : List (CallStatus × Bool) :=
  [ (CallStatusInitiated, true),
    (CallStatusRinging, true),
    (CallStatusInProgress, true),
    (CallStatusCompleted, true),
    (CallStatusFailed, true),
    (CallStatusNoAnswer, true),
    (CallStatusBusy, true) ]

/-- The lookup `validStatuses[status]`: a missing key yields `false`. -/
def validStatuses (status : CallStatus) : Bool :=
  (validStatusesEntries.lookup status).getD false

/-- The condition `status == CallStatusCompleted || status == CallStatusFailed ||
status == CallStatusNoAnswer || status == CallStatusBusy` of `UpdateStatus`. -/
def isTerminalStatus (status : CallStatus) : Bool :=
  status == CallStatusCompleted || status == CallStatusFailed ||
    status == CallStatusNoAnswer || status == CallStatusBusy

/-- The expression `int(c.EndedAt.Sub(*c.StartedAt).Seconds())`. -/
def durationSeconds (endedAt startedAt : time.Time) : Int :=
  float64.toInt (time.Seconds (time.Sub endedAt startedAt))

/-- The method `Call.UpdateStatus`. The two `time.Now()` calls sit in branches of which at
most one runs (no status is both `in_progress` and terminal), so one clock
reading `now` is taken. -/
def UpdateStatus (c : Call) (status : CallStatus) (now : time.Time) :
    Call × Option DomainError :=
  if !validStatuses status then
    (c, some (NewValidationError "invalid call status"))
  else
    let c1 : Call := { c with Status := status }
    let c2 : Call :=
      if status = CallStatusInProgress ∧ c1.StartedAt = none then
        { c1 with StartedAt := some now }
      else c1
    let c3 : Call :=
      if isTerminalStatus status = true ∧ c2.EndedAt = none then
        let c4 : Call := { c2 with EndedAt := some now }
        match c4.StartedAt with
        | some startedAt => { c4 with Duration := durationSeconds now startedAt }
        | none => c4
      else c2
    (c3, none)

def SetProviderCallID (c : Call) (providerCallID : String) : Call :=
  { c with ProviderCallID := providerCallID }

def IsCompleted (c : Call) : Bool :=
  c.Status == CallStatusCompleted || c.Status == CallStatusFailed ||
    c.Status == CallStatusNoAnswer || c.Status == CallStatusBusy

/-- The seven statuses declared as `CallStatus` constants. -/
def knownStatuses : List CallStatus :=
  [CallStatusInitiated, CallStatusRinging, CallStatusInProgress,
   CallStatusCompleted, CallStatusFailed, CallStatusNoAnswer, CallStatusBusy]

/-- The four terminal statuses. -/
def terminalStatuses : List CallStatus :=
  [CallStatusCompleted, CallStatusFailed, CallStatusNoAnswer, CallStatusBusy]

/-- A run of `UpdateStatus` calls on one `Call`, each with its status argument
and the clock reading at the call; `none` as soon as one call returns an
error. -/
def applyUpdates (c : Call) : List (CallStatus × time.Time) → Option Call
  | [] => some c
  | (status, now) :: rest =>
    match UpdateStatus c status now with
    | (c', none) => applyUpdates c' rest
    | (_, some _) => none

/-- The clock readings `t₀, t₁, ...` of a run never go back. -/
def clockNonDecreasing : time.Time → List (CallStatus × time.Time) → Prop
  | _, [] => True
  | t, (_, now) :: rest => t ≤ now ∧ clockNonDecreasing now rest

instance clockNonDecreasingDecidable :
    (t : time.Time) → (steps : List (CallStatus × time.Time)) →
      Decidable (clockNonDecreasing t steps)
  | _, [] => isTrue trivial
  | _, (_, now) :: rest =>
    @instDecidableAnd _ _ _ (clockNonDecreasingDecidable now rest)

/-- The facts about the timestamps and the duration of a call that every
successful `UpdateStatus` keeps when the clock stands at `t` or later: both
timestamps are readings no later than `t`, the duration is `0` as long as the
start is unset or lies after the end, and it is the value that `UpdateStatus`
computes from the two timestamps when the start is not after the end. -/
def durationInv (t : time.Time) (c : Call) : Prop :=
  (∀ s, c.StartedAt = some s → s ≤ t) ∧
  (∀ e, c.EndedAt = some e → e ≤ t) ∧
  (c.StartedAt = none → c.Duration = 0) ∧
  (∀ s e, c.StartedAt = some s → c.EndedAt = some e → s ≤ e →
    c.Duration = durationSeconds e s) ∧
  (∀ s e, c.StartedAt = some s → c.EndedAt = some e → e < s → c.Duration = 0)

/-- The call used by the examples: a completed call of business `biz-1`. -/
def sampleCompleted : Call :=
  { ID := "c-1", BusinessID := "biz-1", ProviderCallID := "v-99",
    CallerPhone := "+15551234567", Duration := 2, Status := CallStatusCompleted,
    Cost := 0, StartedAt := some 1000000000, EndedAt := some 3500000000,
    CreatedAt := 0 }

/-- A call whose provider session was accepted and that has not started yet. -/
def sampleInitiated : Call :=
  { ID := "c-2", BusinessID := "biz-1", ProviderCallID := "v-100",
    CallerPhone := "+15551234567", Duration := 0, Status := CallStatusInitiated,
    Cost := 0, StartedAt := none, EndedAt := none, CreatedAt := 0 }

/-- A call in progress since the instant `1s`. -/
def sampleInProgress : Call :=
  { ID := "c-3", BusinessID := "biz-1", ProviderCallID := "v-101",
    CallerPhone := "+15551234567", Duration := 0, Status := CallStatusInProgress,
    Cost := 0, StartedAt := some 1000000000, EndedAt := none, CreatedAt := 0 }

end entities


/-!
The Go standard library functions that `ValidateWebhookSignature` calls:
`sha256.New` (FIPS 180-4), `hmac.New`, `Write`, `Sum` (RFC 2104),
`hex.EncodeToString` and `hmac.Equal` (`subtle.ConstantTimeCompare`).
A 32-bit word is a natural number below `2^32`; sums are reduced modulo `2^32`.
-/

namespace sha256

/-- The digest size in bytes, `sha256.Size`. -/
def Size : Nat := 32

/-- The block size in bytes, `sha256.BlockSize`. -/
def BlockSize : Nat := 64

def add32 (x y : Nat) : Nat := (x + y) % 4294967296

def not32 (x : Nat) : Nat := 4294967295 - x % 4294967296

/-- Rotation of a 32-bit word to the right by `n` bits, `0 < n < 32`. -/
def rotr (x n : Nat) : Nat :=
  (x >>> n) ||| ((x <<< (32 - n)) % 4294967296)

def ch (x y z : Nat) : Nat := (x &&& y) ^^^ (not32 x &&& z)

def maj (x y z : Nat) : Nat := (x &&& y) ^^^ (x &&& z) ^^^ (y &&& z)

def bigSigma0 (x : Nat) : Nat := rotr x 2 ^^^ rotr x 13 ^^^ rotr x 22

def bigSigma1 (x : Nat) : Nat := rotr x 6 ^^^ rotr x 11 ^^^ rotr x 25

def smallSigma0 (x : Nat) : Nat := rotr x 7 ^^^ rotr x 18 ^^^ (x >>> 3)

def smallSigma1 (x : Nat) : Nat := rotr x 17 ^^^ rotr x 19 ^^^ (x >>> 10)

/-- The sixty-four round constants. -/
def K : List Nat :=
  [0x428a2f98, 0x71374491, 0xb5c0fbcf, 0xe9b5dba5, 0x3956c25b, 0x59f111f1, 0x923f82a4, 0xab1c5ed5,
   0xd807aa98, 0x12835b01, 0x243185be, 0x550c7dc3, 0x72be5d74, 0x80deb1fe, 0x9bdc06a7, 0xc19bf174,
   0xe49b69c1, 0xefbe4786, 0x0fc19dc6, 0x240ca1cc, 0x2de92c6f, 0x4a7484aa, 0x5cb0a9dc, 0x76f988da,
   0x983e5152, 0xa831c66d, 0xb00327c8, 0xbf597fc7, 0xc6e00bf3, 0xd5a79147, 0x06ca6351, 0x14292967,
   0x27b70a85, 0x2e1b2138, 0x4d2c6dfc, 0x53380d13, 0x650a7354, 0x766a0abb, 0x81c2c92e, 0x92722c85,
   0xa2bfe8a1, 0xa81a664b, 0xc24b8b70, 0xc76c51a3, 0xd192e819, 0xd6990624, 0xf40e3585, 0x106aa070,
   0x19a4c116, 0x1e376c08, 0x2748774c, 0x34b0bcb5, 0x391c0cb3, 0x4ed8aa4a, 0x5b9cca4f, 0x682e6ff3,
   0x748f82ee, 0x78a5636f, 0x84c87814, 0x8cc70208, 0x90befffa, 0xa4506ceb, 0xbef9a3f7, 0xc67178f2]

/-- The initial hash value. -/
def init : List Nat :=
  [0x6a09e667, 0xbb67ae85, 0x3c6ef372, 0xa54ff53a,
   0x510e527f, 0x9b05688c, 0x1f83d9ab, 0x5be0cd19]

/-- The `n` low bytes of `x`, most significant first. -/
def bigEndian : Nat → Nat → List UInt8
  | 0, _ => []
  | n + 1, x => UInt8.ofNat ((x >>> (8 * n)) % 256) :: bigEndian n x

/-- The padding: the byte `0x80`, zero bytes up to 56 modulo 64, and the length
of the message in bits as a 64-bit big-endian number. -/
def pad (msg : List UInt8) : List UInt8 :=
  msg ++ [0x80] ++ List.replicate ((119 - msg.length % 64) % 64) 0 ++
    bigEndian 8 ((8 * msg.length) % 18446744073709551616)

/-- Big-endian words of a byte sequence, four bytes per word. -/
def toWords : List UInt8 → List Nat
  | b0 :: b1 :: b2 :: b3 :: rest =>
    (b0.toNat * 16777216 + b1.toNat * 65536 + b2.toNat * 256 + b3.toNat) :: toWords rest
  | _ => []

/-- The message schedule, newest word first: `extend n ws` adds `n` words to
`ws`, each from the words 2, 7, 15 and 16 places before it. -/
def extend : Nat → List Nat → List Nat
  | 0, ws => ws
  | n + 1, ws =>
    let w := add32 (add32 (smallSigma1 (ws.getD 1 0)) (ws.getD 6 0))
      (add32 (smallSigma0 (ws.getD 14 0)) (ws.getD 15 0))
    extend n (w :: ws)

/-- The eight working variables. -/
structure Vars where
  a : Nat
  b : Nat
  c : Nat
  d : Nat
  e : Nat
  f : Nat
  g : Nat
  h : Nat
deriving DecidableEq, Repr

def round (v : Vars) (kw : Nat × Nat) : Vars :=
  let t1 := add32 (add32 (add32 (add32 v.h (bigSigma1 v.e)) (ch v.e v.f v.g)) kw.1) kw.2
  let t2 := add32 (bigSigma0 v.a) (maj v.a v.b v.c)
  { a := add32 t1 t2, b := v.a, c := v.b, d := v.c,
    e := add32 v.d t1, f := v.e, g := v.f, h := v.g }

/-- The compression of one block of sixteen words into the hash value. -/
def compress (hs : List Nat) (block : List Nat) : List Nat :=
  let ws := (extend 48 block.reverse).reverse
  let v0 : Vars :=
    { a := hs.getD 0 0, b := hs.getD 1 0, c := hs.getD 2 0, d := hs.getD 3 0,
      e := hs.getD 4 0, f := hs.getD 5 0, g := hs.getD 6 0, h := hs.getD 7 0 }
  let v := (K.zip ws).foldl round v0
  List.zipWith add32 hs [v.a, v.b, v.c, v.d, v.e, v.f, v.g, v.h]

/-- The hash value after all the blocks of a padded message, given as words;
`n` bounds the number of blocks. -/
def blocks : Nat → List Nat → List Nat → List Nat
  | 0, hs, _ => hs
  | n + 1, hs, ws =>
    if ws.length < 16 then hs
    else blocks n (compress hs (ws.take 16)) (ws.drop 16)

/-- The function `sha256.Sum256`: the 32-byte digest of a message. -/
def Sum256 (msg : List UInt8) : List UInt8 :=
  let ws := toWords (pad msg)
  ((blocks ws.length init ws).map (bigEndian 4)).flatten

end sha256

namespace hmac

/-- The key of block size that `hmac.New` derives: a key longer than a block is
hashed first, then the key is filled with zero bytes. -/
def blockKey (key : List UInt8) : List UInt8 :=
  let k := if sha256.BlockSize < key.length then sha256.Sum256 key else key
  k ++ List.replicate (sha256.BlockSize - k.length) 0

/-- The MAC produced by `mac := hmac.New(sha256.New, key); mac.Write(msg);
mac.Sum(nil)`. -/
def SumSHA256 (key msg : List UInt8) : List UInt8 :=
  let k := blockKey key
  let ipad := k.map (fun b => b ^^^ 0x36)
  let opad := k.map (fun b => b ^^^ 0x5c)
  sha256.Sum256 (opad ++ sha256.Sum256 (ipad ++ msg))

/-- The function `subtle.ConstantTimeByteEq` on bytes given as numbers below
256: `int((uint32(x^y) - 1) >> 31)`. -/
def ConstantTimeByteEq (x y : Nat) : Nat :=
  (((x ^^^ y) + 4294967296 - 1) % 4294967296) >>> 31

/-- The loop `for i := 0; i < len(x); i++ { v |= x[i] ^ y[i] }` of
`subtle.ConstantTimeCompare`, on slices of one length. -/
def xorFold : Nat → List UInt8 → List UInt8 → Nat
  | v, a :: x, b :: y => xorFold (v ||| (a.toNat ^^^ b.toNat)) x y
  | v, _, _ => v

/-- The function `subtle.ConstantTimeCompare`. -/
def ConstantTimeCompare (x y : List UInt8) : Nat :=
  if x.length ≠ y.length then 0
  else ConstantTimeByteEq (xorFold 0 x y) 0

/-- The function `hmac.Equal`: `subtle.ConstantTimeCompare(mac1, mac2) == 1`. -/
def Equal (mac1 mac2 : List UInt8) : Bool :=
  ConstantTimeCompare mac1 mac2 == 1

end hmac

namespace hex

/-- The digits `hextable = "0123456789abcdef"`, as bytes. -/
def hextable : List UInt8 :=
  [0x30, 0x31, 0x32, 0x33, 0x34, 0x35, 0x36, 0x37, 0x38, 0x39,
   0x61, 0x62, 0x63, 0x64, 0x65, 0x66]

/-- The function `hex.EncodeToString`: two digits per byte, `hextable[b >> 4]`
then `hextable[b & 0x0f]`. -/
def EncodeToString : List UInt8 → List UInt8
  | [] => []
  | b :: rest =>
    hextable.getD (b.toNat >>> 4) 0 :: hextable.getD (b.toNat &&& 15) 0 ::
      EncodeToString rest

end hex

/-- The bytes of a string of ASCII characters. -/
def asciiBytes (s : String) : List UInt8 :=
  s.data.map (fun ch => UInt8.ofNat ch.toNat)

namespace vapi

/-- The struct `VapiProvider`, without its `httpClient`. The secret is kept as
the bytes of the Go string. -/
structure VapiProvider where
  apiKey : String
  baseURL : String
  webhookSecret : List UInt8
deriving DecidableEq, Repr

def NewVapiProvider (apiKey baseURL : String) (webhookSecret : List UInt8) :
    VapiProvider :=
  { apiKey := apiKey, baseURL := baseURL, webhookSecret := webhookSecret }

/-- The method `VapiProvider.ValidateWebhookSignature`; `signature` is the Go
string given as its bytes, so that `[]byte(signature)` is `signature`. -/
def ValidateWebhookSignature (v : VapiProvider) (payload : List UInt8)
    (signature : List UInt8) : Bool :=
  if v.webhookSecret = [] then
    true
  else
    let expectedMAC := hex.EncodeToString (hmac.SumSHA256 v.webhookSecret payload)
    hmac.Equal signature expectedMAC

/-- A provider whose secret is the key `Jefe` of the second test case of
RFC 4231. -/
def sampleProvider : VapiProvider :=
  NewVapiProvider "api-key" "https://api.vapi.ai" (asciiBytes "Jefe")

/-- A provider built without a webhook secret. -/
def unsecuredProvider : VapiProvider :=
  NewVapiProvider "api-key" "https://api.vapi.ai" []

end vapi

/-!
The services of `internal/application/services` and what they call: the
remaining entities, the provider interface of `internal/domain/providers`, the
repository interfaces of `internal/infrastructure/database` with the SQL-backed
call and transcript repositories, and the response types of
`internal/application/dto`.

Conventions of this part.

* A Go interface is a structure of functions over the state of the collaborator
  behind it (`σ` for the store, `π` for the voice provider); every method takes
  the state and returns the next one with its result.
* A value of Go's type `error` is an `errors.Error`; a result `(x, error)` is an
  `Except errors.Error`.
* The services run in a `World`: the two states and the list `ops` of the calls
  made on the collaborators so far, in order. The list is kept by the model
  only; a goroutine started with `go` is an entry of it and runs when the
  function that models its body is applied.
* The `context.Context` arguments and the logger are left out: no result
  depends on them.
* A `map[string]interface{}` is a list of keys with their values.
* A time formatted with `Format(time.RFC3339)` is kept as the instant.
-/

namespace errors

/-- A value of Go's interface type `error`: a `*DomainError`, or an error of
another type (of a store or provider implementation), kept as its text. -/
inductive Error where
  | domain (e : DomainError)
  | other (text : String)
deriving DecidableEq, Repr

/-- Equality of results `(x, error)` is decidable. -/
instance exceptDecidableEq {ε α : Type} [DecidableEq ε] [DecidableEq α] :
    DecidableEq (Except ε α)
  | .ok a, .ok b =>
    if h : a = b then isTrue (congrArg Except.ok h)
    else isFalse (fun h' => h (Except.ok.inj h'))
  | .error a, .error b =>
    if h : a = b then isTrue (congrArg Except.error h)
    else isFalse (fun h' => h (Except.error.inj h'))
  | .ok _, .error _ => isFalse (fun h => Except.noConfusion h)
  | .error _, .ok _ => isFalse (fun h => Except.noConfusion h)

/-- The constructor `NewNotFoundError`, with
`fmt.Sprintf("%s with id %s not found", entity, id)`. -/
def NewNotFoundError (entity id : String) : DomainError :=
  { Code := ErrCodeNotFound, Message := entity ++ " with id " ++ id ++ " not found",
    Err := none }

def NewProviderError (err : String) (message : String) : DomainError :=
  { Code := ErrCodeProviderError, Message := message, Err := some err }

def NewDatabaseError (err : String) (message : String) : DomainError :=
  { Code := ErrCodeDatabaseError, Message := message, Err := some err }

end errors

/-- A value held in a `map[string]interface{}`: a string, a number, a boolean,
nil, or a nested value kept as its JSON text. A `float64` that was decoded from
JSON is kept as the decimal literal it was read from. -/
inductive Any where
  | str (s : String)
  | num (n : Int)
  | bool (b : Bool)
  | null
  | nested (json : String)
  | float (literal : String)
deriving DecidableEq, Repr

namespace entities

open errors

abbrev TranscriptRole := String

def TranscriptRoleAssistant : TranscriptRole := "assistant"
def TranscriptRoleUser : TranscriptRole := "user"
def TranscriptRoleSystem : TranscriptRole := "system"

/-- The struct `Transcript`. -/
structure Transcript where
  ID : String
  CallID : String
  Role : TranscriptRole
  Message : String
  Timestamp : time.Time
  CreatedAt : time.Time
deriving DecidableEq, Repr

/-- The constructor `NewTranscript`; `now` is the reading of `time.Now()`. -/
def NewTranscript (callID : String) (role : TranscriptRole) (message : String)
    (timestamp : time.Time) (now : time.Time) : Transcript :=
  { ID := "", CallID := callID, Role := role, Message := message,
    Timestamp := timestamp, CreatedAt := now }

abbrev InteractionType := String

/-- The struct `Interaction`; its field `Type` is `Type_` here. -/
structure Interaction where
  ID : String
  CallID : String
  Type_ : InteractionType
  Content : List (String × Any)
  Timestamp : time.Time
  CreatedAt : time.Time
deriving DecidableEq, Repr

abbrev AppointmentStatus := String

def AppointmentStatusPending : AppointmentStatus := "pending"
def AppointmentStatusConfirmed : AppointmentStatus := "confirmed"
def AppointmentStatusCancelled : AppointmentStatus := "cancelled"
def AppointmentStatusCompleted : AppointmentStatus := "completed"

/-- The struct `AppointmentRequest`. -/
structure AppointmentRequest where
  ID : String
  CallID : String
  BusinessID : String
  CustomerName : String
  CustomerPhone : String
  RequestedDate : Option time.Time
  RequestedTime : String
  ServiceType : String
  Notes : String
  Status : AppointmentStatus
  ExtractedAt : time.Time
  ConfirmedAt : Option time.Time
  CreatedAt : time.Time
deriving DecidableEq, Repr

/-- The method `AppointmentRequest.Confirm`. -/
def AppointmentRequest.Confirm (a : AppointmentRequest) (now : time.Time) :
    AppointmentRequest × Option DomainError :=
  if a.Status ≠ AppointmentStatusPending then
    (a, some (NewValidationError "only pending appointments can be confirmed"))
  else
    ({ a with Status := AppointmentStatusConfirmed, ConfirmedAt := some now }, none)

/-- The method `AppointmentRequest.Cancel`. -/
def AppointmentRequest.Cancel (a : AppointmentRequest) :
    AppointmentRequest × Option DomainError :=
  if a.Status = AppointmentStatusCompleted then
    (a, some (NewValidationError "cannot cancel completed appointment"))
  else
    ({ a with Status := AppointmentStatusCancelled }, none)

/-- The method `AppointmentRequest.Complete`. -/
def AppointmentRequest.Complete (a : AppointmentRequest) :
    AppointmentRequest × Option DomainError :=
  if a.Status ≠ AppointmentStatusConfirmed then
    (a, some (NewValidationError "only confirmed appointments can be completed"))
  else
    ({ a with Status := AppointmentStatusCompleted }, none)

end entities

namespace providers

/-- The struct `CallRequest`. Its pointer `AssistantConfig`, which the services
leave nil, is not represented. -/
structure CallRequest where
  PhoneNumber : String
  AssistantID : String
  Metadata : List (String × Any)
deriving DecidableEq, Repr

/-- The struct `CallSession`. -/
structure CallSession where
  ID : String
  Status : String
  PhoneNumber : String
  StartedAt : Option time.Time
  Metadata : List (String × Any)
deriving DecidableEq, Repr

/-- The struct `CallEvent`; its field `Type` is `Type_` here. -/
structure CallEvent where
  Type_ : String
  CallID : String
  Status : String
  Timestamp : time.Time
  Data : List (String × Any)
deriving DecidableEq, Repr

/-- The struct `TranscriptMessage`. -/
structure TranscriptMessage where
  Role : String
  Message : String
  Timestamp : time.Time
deriving DecidableEq, Repr

/-- The struct `Transcript` of the provider package. -/
structure Transcript where
  CallID : String
  Messages : List TranscriptMessage
deriving DecidableEq, Repr

/-- The interface `VoiceProvider`, with the methods that the call service
uses. The signature is the Go string given as its bytes. -/
structure VoiceProvider (π : Type) where
  InitiateCall : π → CallRequest → π × Except errors.Error CallSession
  HandleWebhook : π → List UInt8 → List UInt8 → π × Except errors.Error CallEvent
  GetTranscript : π → String → π × Except errors.Error Transcript

end providers

namespace database

open errors

/-- The interface `CallRepository`, with the methods that the services use.
`Create` receives a pointer and writes the identifier of the new record into
its field `ID` (the implementations in the sources write no other field), so it
returns that identifier; `Update` only reads its argument. -/
structure CallRepository (σ : Type) where
  Create : σ → entities.Call → σ × String × Option Error
  GetByID : σ → String → σ × Except Error entities.Call
  GetByProviderCallID : σ → String → σ × Except Error entities.Call
  Update : σ → entities.Call → σ × Option Error

/-- The interface `TranscriptRepository`, with the methods that the services
use. -/
structure TranscriptRepository (σ : Type) where
  CreateBatch : σ → List entities.Transcript → σ × Option Error
  GetByCallID : σ → String → σ × Except Error (List entities.Transcript)

/-- The interface `InteractionRepository`, with the method that the services
use. -/
structure InteractionRepository (σ : Type) where
  GetByCallID : σ → String → σ × Except Error (List entities.Interaction)

/-- The interface `AppointmentRepository`, with the methods that
`UpdateAppointmentStatus` uses. -/
structure AppointmentRepository (σ : Type) where
  GetByID : σ → String → σ × Except Error entities.AppointmentRequest
  Update : σ → entities.AppointmentRequest → σ × Option Error

/-- Modelled from the spec: the Call Store that persists the call, transcript,
interaction and appointment records, here the database behind `*sql.DB`, whose
schema is not among the sources. A table is the list of its rows in insertion
order, a row holding the columns named by the `INSERT` statements; values are
stored as given (the content of an interaction without its passage through
JSON); no constraint rejects a row; every statement succeeds. `uuids` counts
the identifiers drawn from `uuid.New()`. -/
structure DB where
  calls : List entities.Call
  transcripts : List entities.Transcript
  interactions : List entities.Interaction
  appointments : List entities.AppointmentRequest
  uuids : Nat
deriving DecidableEq, Repr

/-- The statement `UPDATE calls SET provider_call_id = $2, caller_phone = $3,
duration = $4, status = $5, cost = $6, started_at = $7, ended_at = $8
WHERE id = $1`, on one row. -/
def updateRow (call row : entities.Call) : entities.Call :=
  if row.ID = call.ID then
    { row with
      ProviderCallID := call.ProviderCallID
      CallerPhone := call.CallerPhone
      Duration := call.Duration
      Status := call.Status
      Cost := call.Cost
      StartedAt := call.StartedAt
      EndedAt := call.EndedAt }
  else row

/-- The methods of `CallRepositoryImpl`; `uuid n` is the text of the `n`-th
identifier drawn from `uuid.New()`. -/
def CallRepositoryImpl (uuid : Nat → String) : CallRepository DB where
  Create := fun db call =>
    let id := uuid db.uuids
    ({ db with calls := db.calls ++ [{ call with ID := id }], uuids := db.uuids + 1 },
      id, none)
  GetByID := fun db id =>
    match db.calls.find? (fun row => row.ID == id) with
    | some row => (db, .ok row)
    | none => (db, .error (.domain (NewNotFoundError "call" id)))
  GetByProviderCallID := fun db providerCallID =>
    match db.calls.find? (fun row => row.ProviderCallID == providerCallID) with
    | some row => (db, .ok row)
    | none => (db, .error (.domain (NewNotFoundError "call" providerCallID)))
  Update := fun db call =>
    let rowsAffected := db.calls.countP (fun row => row.ID == call.ID)
    let db' := { db with calls := db.calls.map (updateRow call) }
    if rowsAffected = 0 then
      (db', some (.domain (NewNotFoundError "call" call.ID)))
    else (db', none)

/-- The loop of `CreateBatch`: each transcript receives a fresh identifier and
is inserted. -/
def insertTranscripts (uuid : Nat → String) (db : DB) : List entities.Transcript → DB
  | [] => db
  | t :: rest =>
    insertTranscripts uuid
      { db with transcripts := db.transcripts ++ [{ t with ID := uuid db.uuids }],
                uuids := db.uuids + 1 }
      rest

/-- The rows that `insertTranscripts` adds: the transcripts with the
identifiers `uuid n`, `uuid (n + 1)`, ... in place of their `ID`. -/
def withFreshIDs (uuid : Nat → String) : Nat → List entities.Transcript →
    List entities.Transcript
  | _, [] => []
  | n, t :: rest => { t with ID := uuid n } :: withFreshIDs uuid (n + 1) rest

/-- The message held by a row of the table `transcripts`: its role, text and
timestamp. -/
def messageOf (row : entities.Transcript) : providers.TranscriptMessage :=
  { Role := row.Role, Message := row.Message, Timestamp := row.Timestamp }

/-- The messages stored for a call, in the order of the table. -/
def storedMessages (db : DB) (callID : String) : List providers.TranscriptMessage :=
  (db.transcripts.filter (fun row => row.CallID == callID)).map messageOf

/-- The methods of `TranscriptRepositoryImpl`. `GetByCallID` selects the rows of
the call `ORDER BY timestamp ASC`; rows of one timestamp keep their insertion
order. -/
def TranscriptRepositoryImpl (uuid : Nat → String) : TranscriptRepository DB where
  CreateBatch := fun db transcripts =>
    if transcripts.length = 0 then (db, none)
    else (insertTranscripts uuid db transcripts, none)
  GetByCallID := fun db callID =>
    (db, .ok ((db.transcripts.filter (fun row => row.CallID == callID)).insertionSort
      (fun a b => a.Timestamp ≤ b.Timestamp)))

/-- The method `GetByCallID` of `InteractionRepositoryImpl`, which selects the
rows of the call `ORDER BY timestamp ASC`. -/
def InteractionRepositoryImpl : InteractionRepository DB where
  GetByCallID := fun db callID =>
    (db, .ok ((db.interactions.filter (fun row => row.CallID == callID)).insertionSort
      (fun a b => a.Timestamp ≤ b.Timestamp)))

/-- The statement `UPDATE appointments SET customer_name = $2,
customer_phone = $3, requested_date = $4, requested_time = $5,
service_type = $6, notes = $7, status = $8, confirmed_at = $9 WHERE id = $1`, on
one row. -/
def updateAppointmentRow (apt row : entities.AppointmentRequest) :
    entities.AppointmentRequest :=
  if row.ID = apt.ID then
    { row with
      CustomerName := apt.CustomerName
      CustomerPhone := apt.CustomerPhone
      RequestedDate := apt.RequestedDate
      RequestedTime := apt.RequestedTime
      ServiceType := apt.ServiceType
      Notes := apt.Notes
      Status := apt.Status
      ConfirmedAt := apt.ConfirmedAt }
  else row

/-- The methods `GetByID` and `Update` of `AppointmentRepositoryImpl`. -/
def AppointmentRepositoryImpl : AppointmentRepository DB where
  GetByID := fun db id =>
    match db.appointments.find? (fun row => row.ID == id) with
    | some row => (db, .ok row)
    | none => (db, .error (.domain (NewNotFoundError "appointment" id)))
  Update := fun db apt =>
    let rowsAffected := db.appointments.countP (fun row => row.ID == apt.ID)
    let db' := { db with appointments := db.appointments.map (updateAppointmentRow apt) }
    if rowsAffected = 0 then
      (db', some (.domain (NewNotFoundError "appointment" apt.ID)))
    else (db', none)

end database

namespace dto

/-- The struct `InitiateCallRequest`. -/
structure InitiateCallRequest where
  PhoneNumber : String
  AssistantID : String
  Metadata : List (String × Any)
deriving DecidableEq, Repr

/-- The struct `CallResponse`; its field `Metadata`, which `mapCallToResponse`
never sets, is not represented. -/
structure CallResponse where
  ID : String
  BusinessID : String
  ProviderCallID : String
  CallerPhone : String
  Duration : Int
  Status : String
  Cost : Rat
  StartedAt : Option time.Time
  EndedAt : Option time.Time
  CreatedAt : time.Time
deriving DecidableEq, Repr

/-- The struct `TranscriptMessageResponse`. -/
structure TranscriptMessageResponse where
  Role : String
  Message : String
  Timestamp : time.Time
deriving DecidableEq, Repr

/-- The struct `TranscriptResponse`. -/
structure TranscriptResponse where
  CallID : String
  Messages : List TranscriptMessageResponse
deriving DecidableEq, Repr

/-- The struct `InteractionResponse`; its field `Type` is `Type_` here. -/
structure InteractionResponse where
  ID : String
  CallID : String
  Type_ : String
  Content : List (String × Any)
  Timestamp : time.Time
  CreatedAt : time.Time
deriving DecidableEq, Repr

/-- The struct `AppointmentResponse`. -/
structure AppointmentResponse where
  ID : String
  CallID : String
  BusinessID : String
  CustomerName : String
  CustomerPhone : String
  RequestedDate : Option time.Time
  RequestedTime : String
  ServiceType : String
  Notes : String
  Status : String
  ExtractedAt : time.Time
  ConfirmedAt : Option time.Time
  CreatedAt : time.Time
deriving DecidableEq, Repr

/-- The struct `UpdateAppointmentRequest`. -/
structure UpdateAppointmentRequest where
  Status : String
deriving DecidableEq, Repr

end dto

namespace services

open errors entities

/-- A call made by a service on one of its collaborators, with its arguments,
or the start of a goroutine. -/
inductive Op where
  | callCreate (call : Call)
  | callGetByID (id : String)
  | callGetByProviderCallID (providerCallID : String)
  | callUpdate (call : Call)
  | transcriptCreateBatch (transcripts : List Transcript)
  | transcriptGetByCallID (callID : String)
  | interactionGetByCallID (callID : String)
  | appointmentGetByID (id : String)
  | appointmentUpdate (appointment : AppointmentRequest)
  | providerInitiateCall (request : providers.CallRequest)
  | providerHandleWebhook (payload : List UInt8) (signature : List UInt8)
  | providerGetTranscript (callID : String)
  | goFetchAndStoreTranscript (callID providerCallID : String)
deriving DecidableEq, Repr

/-- The state in which a service runs: the store, the provider, and the calls
made on them so far, oldest first. -/
structure World (σ π : Type) where
  store : σ
  provider : π
  ops : List Op

/-- The struct `CallService`, without its logger. -/
structure CallService (σ π : Type) where
  callRepo : database.CallRepository σ
  transcriptRepo : database.TranscriptRepository σ
  interactionRepo : database.InteractionRepository σ
  voiceProvider : providers.VoiceProvider π

/-- The struct `InteractionService`, without its logger. -/
structure InteractionService (σ : Type) where
  interactionRepo : database.InteractionRepository σ
  appointmentRepo : database.AppointmentRepository σ
  callRepo : database.CallRepository σ

/-- The method `CallService.mapCallToResponse`. -/
def mapCallToResponse (call : Call) : dto.CallResponse :=
  { ID := call.ID, BusinessID := call.BusinessID,
    ProviderCallID := call.ProviderCallID, CallerPhone := call.CallerPhone,
    Duration := call.Duration, Status := call.Status, Cost := call.Cost,
    StartedAt := call.StartedAt, EndedAt := call.EndedAt,
    CreatedAt := call.CreatedAt }

/-- The literal `providers.CallRequest` built by `InitiateCall`; `callID` is the
`ID` that `Create` gave to the call. -/
def providerRequest (businessID : String) (req : dto.InitiateCallRequest)
    (callID : String) : providers.CallRequest :=
  { PhoneNumber := req.PhoneNumber
    AssistantID := req.AssistantID
    Metadata := [("call_id", Any.str callID), ("business_id", Any.str businessID)] }

/-- The method `CallService.InitiateCall`. `now` is the clock reading taken by
`NewCall`, `nowFailed` the one taken by `UpdateStatus` when the provider has
failed. The errors that the source only logs (of `UpdateStatus` and of the two
`Update` calls) are dropped. -/
def CallService.InitiateCall {σ π : Type} (s : CallService σ π) (w : World σ π)
    (businessID : String) (req : dto.InitiateCallRequest)
    (now nowFailed : time.Time) : World σ π × Except Error dto.CallResponse :=
  if req.PhoneNumber = "" then
    (w, .error (.domain (NewValidationError "phone_number is required")))
  else
    match NewCall businessID req.PhoneNumber now with
    | .error err => (w, .error (.domain err))
    | .ok newCall =>
      let created := s.callRepo.Create w.store newCall
      let call : Call := { newCall with ID := created.2.1 }
      let w1 : World σ π :=
        { w with store := created.1, ops := w.ops ++ [Op.callCreate newCall] }
      match created.2.2 with
      | some err => (w1, .error err)
      | none =>
        let providerReq := providerRequest businessID req call.ID
        let initiated := s.voiceProvider.InitiateCall w1.provider providerReq
        let w2 : World σ π :=
          { w1 with provider := initiated.1,
                    ops := w1.ops ++ [Op.providerInitiateCall providerReq] }
        match initiated.2 with
        | .error err =>
          let failedCall := (UpdateStatus call CallStatusFailed nowFailed).1
          let updated := s.callRepo.Update w2.store failedCall
          ({ w2 with store := updated.1, ops := w2.ops ++ [Op.callUpdate failedCall] },
            .error err)
        | .ok session =>
          let call2 := SetProviderCallID call session.ID
          let updated := s.callRepo.Update w2.store call2
          ({ w2 with store := updated.1, ops := w2.ops ++ [Op.callUpdate call2] },
            .ok (mapCallToResponse call2))

/-- The `switch event.Type` of `HandleWebhook`: the call after the status
update, and the goroutines started. -/
def applyEvent (call : Call) (event : providers.CallEvent) (now : time.Time) :
    Call × List Op :=
  if event.Type_ = "call.started" then
    ((UpdateStatus call CallStatusInProgress now).1, [])
  else if event.Type_ = "call.ended" ∨ event.Type_ = "call.completed" then
    ((UpdateStatus call CallStatusCompleted now).1,
      [Op.goFetchAndStoreTranscript call.ID event.CallID])
  else if event.Type_ = "call.failed" then
    ((UpdateStatus call CallStatusFailed now).1, [])
  else (call, [])

/-- The method `CallService.HandleWebhook`; `now` is the clock reading taken by
`UpdateStatus`. -/
def CallService.HandleWebhook {σ π : Type} (s : CallService σ π) (w : World σ π)
    (payload signature : List UInt8) (now : time.Time) :
    World σ π × Option Error :=
  let handled := s.voiceProvider.HandleWebhook w.provider payload signature
  let w1 : World σ π :=
    { w with provider := handled.1,
             ops := w.ops ++ [Op.providerHandleWebhook payload signature] }
  match handled.2 with
  | .error err => (w1, some err)
  | .ok event =>
    let found := s.callRepo.GetByProviderCallID w1.store event.CallID
    let w2 : World σ π :=
      { w1 with store := found.1,
                ops := w1.ops ++ [Op.callGetByProviderCallID event.CallID] }
    match found.2 with
    | .error err => (w2, some err)
    | .ok call =>
      let applied := applyEvent call event now
      let updated := s.callRepo.Update w2.store applied.1
      ({ w2 with store := updated.1,
                 ops := w2.ops ++ applied.2 ++ [Op.callUpdate applied.1] },
        updated.2)

/-- The method `CallService.GetCall`. -/
def CallService.GetCall {σ π : Type} (s : CallService σ π) (w : World σ π)
    (businessID callID : String) : World σ π × Except Error dto.CallResponse :=
  let found := s.callRepo.GetByID w.store callID
  let w1 : World σ π :=
    { w with store := found.1, ops := w.ops ++ [Op.callGetByID callID] }
  match found.2 with
  | .error err => (w1, .error err)
  | .ok call =>
    if call.BusinessID ≠ businessID then
      (w1, .error (.domain (NewForbiddenError "access denied to this call")))
    else (w1, .ok (mapCallToResponse call))

/-- The method `CallService.GetTranscript`. -/
def CallService.GetTranscript {σ π : Type} (s : CallService σ π) (w : World σ π)
    (businessID callID : String) :
    World σ π × Except Error dto.TranscriptResponse :=
  let found := s.callRepo.GetByID w.store callID
  let w1 : World σ π :=
    { w with store := found.1, ops := w.ops ++ [Op.callGetByID callID] }
  match found.2 with
  | .error err => (w1, .error err)
  | .ok call =>
    if call.BusinessID ≠ businessID then
      (w1, .error (.domain (NewForbiddenError "access denied to this call")))
    else
      let read := s.transcriptRepo.GetByCallID w1.store callID
      let w2 : World σ π :=
        { w1 with store := read.1, ops := w1.ops ++ [Op.transcriptGetByCallID callID] }
      match read.2 with
      | .error err => (w2, .error err)
      | .ok transcripts =>
        (w2, .ok
          { CallID := callID
            Messages := transcripts.map (fun t =>
              { Role := t.Role, Message := t.Message, Timestamp := t.Timestamp }) })

/-- The loop of `fetchAndStoreTranscript` that builds the entities; `clock i` is
the reading of `time.Now()` taken by `NewTranscript` for the message of
index `i`. -/
def transcriptEntities (callID : String) (clock : Nat → time.Time) :
    Nat → List providers.TranscriptMessage → List Transcript
  | _, [] => []
  | i, msg :: rest =>
    NewTranscript callID msg.Role msg.Message msg.Timestamp (clock i) ::
      transcriptEntities callID clock (i + 1) rest

/-- The method `CallService.fetchAndStoreTranscript`, the body of the goroutine
started by `HandleWebhook`. -/
def CallService.fetchAndStoreTranscript {σ π : Type} (s : CallService σ π)
    (w : World σ π) (callID providerCallID : String) (clock : Nat → time.Time) :
    World σ π :=
  let fetched := s.voiceProvider.GetTranscript w.provider providerCallID
  let w1 : World σ π :=
    { w with provider := fetched.1,
             ops := w.ops ++ [Op.providerGetTranscript providerCallID] }
  match fetched.2 with
  | .error _ => w1
  | .ok transcript =>
    let batch := transcriptEntities callID clock 0 transcript.Messages
    let stored := s.transcriptRepo.CreateBatch w1.store batch
    { w1 with store := stored.1, ops := w1.ops ++ [Op.transcriptCreateBatch batch] }

/-- The method `InteractionService.GetCallInteractions`; the state of the
provider plays no part and is `Unit`. -/
def InteractionService.GetCallInteractions {σ : Type} (s : InteractionService σ)
    (w : World σ Unit) (businessID callID : String) :
    World σ Unit × Except Error (List dto.InteractionResponse) :=
  let found := s.callRepo.GetByID w.store callID
  let w1 : World σ Unit :=
    { w with store := found.1, ops := w.ops ++ [Op.callGetByID callID] }
  match found.2 with
  | .error err => (w1, .error err)
  | .ok call =>
    if call.BusinessID ≠ businessID then
      (w1, .error (.domain (NewForbiddenError "access denied to this call")))
    else
      let read := s.interactionRepo.GetByCallID w1.store callID
      let w2 : World σ Unit :=
        { w1 with store := read.1, ops := w1.ops ++ [Op.interactionGetByCallID callID] }
      match read.2 with
      | .error err => (w2, .error err)
      | .ok interactions =>
        (w2, .ok (interactions.map (fun i =>
          { ID := i.ID, CallID := i.CallID, Type_ := i.Type_, Content := i.Content,
            Timestamp := i.Timestamp, CreatedAt := i.CreatedAt })))

/-- The response built at the end of `UpdateAppointmentStatus`. -/
def appointmentResponse (apt : AppointmentRequest) : dto.AppointmentResponse :=
  { ID := apt.ID, CallID := apt.CallID, BusinessID := apt.BusinessID,
    CustomerName := apt.CustomerName, CustomerPhone := apt.CustomerPhone,
    RequestedDate := apt.RequestedDate, RequestedTime := apt.RequestedTime,
    ServiceType := apt.ServiceType, Notes := apt.Notes, Status := apt.Status,
    ExtractedAt := apt.ExtractedAt, ConfirmedAt := apt.ConfirmedAt,
    CreatedAt := apt.CreatedAt }

/-- The `switch entities.AppointmentStatus(req.Status)` of
`UpdateAppointmentStatus`; `now` is the clock reading taken by `Confirm`. -/
def applyAppointmentStatus (apt : AppointmentRequest) (status : String)
    (now : time.Time) : AppointmentRequest × Option DomainError :=
  if status = AppointmentStatusConfirmed then apt.Confirm now
  else if status = AppointmentStatusCancelled then apt.Cancel
  else if status = AppointmentStatusCompleted then apt.Complete
  else (apt, some (NewValidationError "invalid appointment status"))

/-- The method `InteractionService.UpdateAppointmentStatus`. -/
def InteractionService.UpdateAppointmentStatus {σ : Type} (s : InteractionService σ)
    (w : World σ Unit) (businessID appointmentID : String)
    (req : dto.UpdateAppointmentRequest) (now : time.Time) :
    World σ Unit × Except Error dto.AppointmentResponse :=
  let found := s.appointmentRepo.GetByID w.store appointmentID
  let w1 : World σ Unit :=
    { w with store := found.1, ops := w.ops ++ [Op.appointmentGetByID appointmentID] }
  match found.2 with
  | .error err => (w1, .error err)
  | .ok apt =>
    if apt.BusinessID ≠ businessID then
      (w1, .error (.domain (NewForbiddenError "access denied to this appointment")))
    else
      match applyAppointmentStatus apt req.Status now with
      | (_, some err) => (w1, .error (.domain err))
      | (apt', none) =>
        let updated := s.appointmentRepo.Update w1.store apt'
        let w2 : World σ Unit :=
          { w1 with store := updated.1, ops := w1.ops ++ [Op.appointmentUpdate apt'] }
        match updated.2 with
        | some err => (w2, .error err)
        | none => (w2, .ok (appointmentResponse apt'))

/-- The call service over the database. -/
def sqlCallService {π : Type} (uuid : Nat → String)
    (voiceProvider : providers.VoiceProvider π) : CallService database.DB π :=
  { callRepo := database.CallRepositoryImpl uuid
    transcriptRepo := database.TranscriptRepositoryImpl uuid
    interactionRepo := database.InteractionRepositoryImpl
    voiceProvider := voiceProvider }

/-- The interaction service over the database. -/
def sqlInteractionService (uuid : Nat → String) : InteractionService database.DB :=
  { interactionRepo := database.InteractionRepositoryImpl
    appointmentRepo := database.AppointmentRepositoryImpl
    callRepo := database.CallRepositoryImpl uuid }

/-- A provider for the examples, in the manner of the `testVoiceProvider` of the
tests: each method returns the result it was built with, and the state counts
the calls received. -/
def scriptedProvider (session : Except Error providers.CallSession)
    (event : Except Error providers.CallEvent)
    (transcript : Except Error providers.Transcript) : providers.VoiceProvider Nat :=
  { InitiateCall := fun n _ => (n + 1, session)
    HandleWebhook := fun n _ _ => (n + 1, event)
    GetTranscript := fun n _ => (n + 1, transcript) }

/-- A call repository whose `Update` fails and writes nothing, in the manner of
the `updateFunc` of the tests. -/
def failingUpdateRepository (uuid : Nat → String) : database.CallRepository database.DB :=
  { database.CallRepositoryImpl uuid with
    Update := fun db _ => (db, some (.other "database connection failed")) }

/-- A call repository whose `Create` fails and writes nothing, as in the test
case `database error on create`. -/
def failingCreateRepository (uuid : Nat → String) : database.CallRepository database.DB :=
  { database.CallRepositoryImpl uuid with
    Create := fun db _ => (db, "", some (.other "database connection failed")) }

/-- Identifiers for the examples: `uuid-0`, `uuid-1`, ... -/
def sampleUuid (n : Nat) : String := "uuid-" ++ toString n

/-- A call of business `biz-1`, in progress since `1s`, with the vendor session
id `v-99`. -/
def sampleCallA : Call :=
  { ID := "c-1", BusinessID := "biz-1", ProviderCallID := "v-99",
    CallerPhone := "+15551234567", Duration := 0, Status := CallStatusInProgress,
    Cost := 0, StartedAt := some 1000000000, EndedAt := none, CreatedAt := 0 }

/-- A call of business `biz-2`. -/
def sampleCallB : Call :=
  { ID := "c-2", BusinessID := "biz-2", ProviderCallID := "v-200",
    CallerPhone := "+15557654321", Duration := 0, Status := CallStatusInitiated,
    Cost := 0, StartedAt := none, EndedAt := none, CreatedAt := 0 }

/-- A pending appointment of business `biz-2`. -/
def sampleAppointmentB : AppointmentRequest :=
  { ID := "a-1", CallID := "c-2", BusinessID := "biz-2", CustomerName := "Ada",
    CustomerPhone := "+15557654321", RequestedDate := none, RequestedTime := "10:00",
    ServiceType := "", Notes := "", Status := AppointmentStatusPending,
    ExtractedAt := 0, ConfirmedAt := none, CreatedAt := 0 }

/-- A database with the two calls and the appointment. -/
def sampleDB : database.DB :=
  { calls := [sampleCallA, sampleCallB], transcripts := [], interactions := [],
    appointments := [sampleAppointmentB], uuids := 0 }

/-- The session returned by the provider in the examples. -/
def sampleSession : providers.CallSession :=
  { ID := "v-99", Status := "queued", PhoneNumber := "+15551234567",
    StartedAt := none, Metadata := [] }

/-- The event `call.completed` for the vendor session `v-99`. -/
def sampleCompletedEvent : providers.CallEvent :=
  { Type_ := "call.completed", CallID := "v-99", Status := "ended",
    Timestamp := 3500000000, Data := [] }

/-- A transcript of two messages for the vendor session `v-99`. -/
def sampleTranscript : providers.Transcript :=
  { CallID := "v-99",
    Messages := [{ Role := "assistant", Message := "Hello", Timestamp := 1100000000 },
                 { Role := "user", Message := "Hi", Timestamp := 1200000000 }] }

/-- A provider that accepts calls, reports `call.completed` for `v-99` and
returns the transcript of two messages. -/
def sampleVoiceProvider : providers.VoiceProvider Nat :=
  scriptedProvider (.ok sampleSession) (.ok sampleCompletedEvent) (.ok sampleTranscript)

/-- A provider whose every method fails. -/
def failingVoiceProvider : providers.VoiceProvider Nat :=
  scriptedProvider (.error (.other "provider API unavailable"))
    (.error (.other "invalid signature")) (.error (.other "provider API unavailable"))

/-- The request of the examples: a call to `+15551234567`. -/
def sampleRequest : dto.InitiateCallRequest :=
  { PhoneNumber := "+15551234567", AssistantID := "assistant-1",
    Metadata := [("customer", Any.str "John Doe")] }

/-- The call that `NewCall` builds for the sample request at the instant `5`. -/
def sampleNewCall : Call :=
  { ID := "", BusinessID := "biz-1", ProviderCallID := "",
    CallerPhone := "+15551234567", Duration := 0, Status := CallStatusInitiated,
    Cost := 0, StartedAt := none, EndedAt := none, CreatedAt := 5 }

/-- The world of the examples: the sample database, a provider that has
received no call, and no operation made. -/
def sampleWorld : World database.DB Nat :=
  { store := sampleDB, provider := 0, ops := [] }

/-- The world of the examples for the interaction service. -/
def sampleWorldUnit : World database.DB Unit :=
  { store := sampleDB, provider := (), ops := [] }

/-- The clock of the examples for the creation times of transcripts. -/
def sampleClock (i : Nat) : time.Time := 10000000000 + i

/-- The sample world after the event `call.completed` was delivered at `3.5s`. -/
def sampleDeliveredOnce : World database.DB Nat :=
  ((sqlCallService sampleUuid sampleVoiceProvider).HandleWebhook sampleWorld
    [] [] 3500000000).1

/-- The sample world after the same event was delivered again at `9s`. -/
def sampleDeliveredTwice : World database.DB Nat :=
  ((sqlCallService sampleUuid sampleVoiceProvider).HandleWebhook sampleDeliveredOnce
    [] [] 9000000000).1

/-- The sample world after the two deliveries and after the two transcript
fetches that they started have run. -/
def sampleFetchedTwice : World database.DB Nat :=
  (sqlCallService sampleUuid sampleVoiceProvider).fetchAndStoreTranscript
    ((sqlCallService sampleUuid sampleVoiceProvider).fetchAndStoreTranscript
      sampleDeliveredTwice "c-1" "v-99" sampleClock)
    "c-1" "v-99" sampleClock

end services

/-!
Further parts of the program: the entity `Business`
(`internal/domain/entities/business.go`), the configuration
(`pkg/config/config.go`), the provider factory
(`internal/infrastructure/providers/factory.go`) and the webhook decoding of
the Vapi provider (`VapiProvider.HandleWebhook`, `getString`) with the part of
Go's `encoding/json` and `unicode/utf8` that it runs.
-/

/-- The conversion `[]byte(s)` of a Go string held as a `String`: its UTF-8
bytes. -/
def stringBytes (s : String) : List UInt8 :=
  s.toUTF8.data.toList

namespace entities

open errors

/-- The struct `Business`. The field `Type` is named `Type_`; the map
`Settings` may be nil, which is `none`. -/
structure Business where
  ID : String
  Name : String
  Type_ : String
  Phone : String
  Settings : Option (List (String × Any))
  CreatedAt : time.Time
  UpdatedAt : time.Time
deriving DecidableEq, Repr

/-- The constructor `NewBusiness`. -/
def NewBusiness (name businessType phone : String)
    (settings : Option (List (String × Any))) (now : time.Time) :
    Except DomainError Business :=
  if name = "" then
    .error (NewValidationError "business name is required")
  else if phone = "" then
    .error (NewValidationError "business phone is required")
  else
    .ok { ID := "", Name := name, Type_ := businessType, Phone := phone,
          Settings := settings, CreatedAt := now, UpdatedAt := now }

/-- The method `Business.Update`: the four conditional assignments in the order
of the source, then the assignment of `UpdatedAt`; the error returned is always
nil. -/
def Business.Update (b : Business) (name businessType phone : String)
    (settings : Option (List (String × Any))) (now : time.Time) :
    Business × Option DomainError :=
  let b1 := if name ≠ "" then { b with Name := name } else b
  let b2 := if businessType ≠ "" then { b1 with Type_ := businessType } else b1
  let b3 := if phone ≠ "" then { b2 with Phone := phone } else b2
  let b4 := if settings ≠ none then { b3 with Settings := settings } else b3
  ({ b4 with UpdatedAt := now }, none)

/-- The method `Business.Validate`. -/
def Business.Validate (b : Business) : Option DomainError :=
  if b.Name = "" then
    some (NewValidationError "business name is required")
  else if b.Phone = "" then
    some (NewValidationError "business phone is required")
  else none

/-- A business for the examples. -/
def sampleBusiness : Business :=
  { ID := "biz-1", Name := "Original", Type_ := "dentist", Phone := "+1234567890",
    Settings := none, CreatedAt := 0, UpdatedAt := 0 }

/-- A pending appointment for the examples. -/
def samplePending : AppointmentRequest :=
  { ID := "a-1", CallID := "call-123", BusinessID := "business-123",
    CustomerName := "John Doe", CustomerPhone := "+1234567890",
    RequestedDate := none, RequestedTime := "10:00 AM", ServiceType := "cleaning",
    Notes := "", Status := AppointmentStatusPending, ExtractedAt := 0,
    ConfirmedAt := none, CreatedAt := 0 }

end entities

namespace time

/-- The constants `time.Minute` and `time.Hour`. -/
def Minute : Duration := 60 * Second

def Hour : Duration := 60 * Minute

end time

namespace config

/-- The struct `ServerConfig`. -/
structure ServerConfig where
  Port : String
  Environment : String
  ReadTimeout : time.Duration
  WriteTimeout : time.Duration
  ShutdownTimeout : time.Duration
deriving DecidableEq, Repr

/-- The struct `DatabaseConfig`. -/
structure DatabaseConfig where
  URL : String
  MaxOpenConns : Int
  MaxIdleConns : Int
  ConnMaxLifetime : time.Duration
deriving DecidableEq, Repr

/-- The struct `JWTConfig`. -/
structure JWTConfig where
  SecretKey : String
  AccessTokenDuration : time.Duration
  RefreshTokenDuration : time.Duration
deriving DecidableEq, Repr

/-- The struct `VapiConfig`. -/
structure VapiConfig where
  APIKey : String
  WebhookURL : String
  APIBaseURL : String
deriving DecidableEq, Repr

/-- The struct `LoggerConfig`. -/
structure LoggerConfig where
  Level : String
  Format : String
deriving DecidableEq, Repr

/-- The struct `Config`. -/
structure Config where
  Server : ServerConfig
  Database : DatabaseConfig
  JWT : JWTConfig
  Vapi : VapiConfig
  Logger : LoggerConfig
deriving DecidableEq, Repr

/-- What `Load` reads from its surroundings: `getenv` is `os.Getenv`, which
yields the empty string for a variable that is not set; `atoi` and
`parseDuration` are `strconv.Atoi` and `time.ParseDuration`, `none` where they
return an error. -/
structure Environment where
  getenv : String → String
  atoi : String → Option Int
  parseDuration : String → Option time.Duration

/-- The function `getEnv`. -/
def getEnv (env : Environment) (key defaultValue : String) : String :=
  if env.getenv key ≠ "" then env.getenv key else defaultValue

/-- The function `getIntEnv`. -/
def getIntEnv (env : Environment) (key : String) (defaultValue : Int) : Int :=
  if env.getenv key ≠ "" then
    match env.atoi (env.getenv key) with
    | some intVal => intVal
    | none => defaultValue
  else defaultValue

/-- The function `getDurationEnv`. -/
def getDurationEnv (env : Environment) (key : String) (defaultValue : time.Duration) :
    time.Duration :=
  if env.getenv key ≠ "" then
    match env.parseDuration (env.getenv key) with
    | some duration => duration
    | none => defaultValue
  else defaultValue

/-- The method `Config.Validate`; the result is the text of the error, `none`
for nil. -/
def Config.Validate (c : Config) : Option String :=
  if c.Database.URL = "" then
    some "DATABASE_URL is required"
  else if c.JWT.SecretKey = "" then
    some "JWT_SECRET_KEY is required"
  else if c.Vapi.APIKey = "" then
    some "VAPI_API_KEY is required"
  else none

/-- The function `Load`. -/
def Load (env : Environment) : Except String Config :=
  let cfg : Config :=
    { Server :=
        { Port := getEnv env "SERVER_PORT" "8080"
          Environment := getEnv env "ENVIRONMENT" "development"
          ReadTimeout := getDurationEnv env "SERVER_READ_TIMEOUT" (10 * time.Second)
          WriteTimeout := getDurationEnv env "SERVER_WRITE_TIMEOUT" (10 * time.Second)
          ShutdownTimeout := getDurationEnv env "SERVER_SHUTDOWN_TIMEOUT" (30 * time.Second) }
      Database :=
        { URL := getEnv env "DATABASE_URL" ""
          MaxOpenConns := getIntEnv env "DB_MAX_OPEN_CONNS" 25
          MaxIdleConns := getIntEnv env "DB_MAX_IDLE_CONNS" 5
          ConnMaxLifetime := getDurationEnv env "DB_CONN_MAX_LIFETIME" (5 * time.Minute) }
      JWT :=
        { SecretKey := getEnv env "JWT_SECRET_KEY" ""
          AccessTokenDuration :=
            getDurationEnv env "JWT_ACCESS_TOKEN_DURATION" (15 * time.Minute)
          RefreshTokenDuration :=
            getDurationEnv env "JWT_REFRESH_TOKEN_DURATION" (7 * 24 * time.Hour) }
      Vapi :=
        { APIKey := getEnv env "VAPI_API_KEY" ""
          WebhookURL := getEnv env "VAPI_WEBHOOK_URL" ""
          APIBaseURL := getEnv env "VAPI_API_BASE_URL" "https://api.vapi.ai" }
      Logger :=
        { Level := getEnv env "LOG_LEVEL" "info"
          Format := getEnv env "LOG_FORMAT" "json" } }
  match cfg.Validate with
  | some err => .error err
  | none => .ok cfg

/-- An environment that sets the three required variables and nothing else; as
no variable holding a number or a duration is set, the two parsers are not
reached, and accept nothing. -/
def sampleEnv : Environment :=
  { getenv := fun key =>
      if key = "DATABASE_URL" then "postgres://localhost/callpilot"
      else if key = "JWT_SECRET_KEY" then "jwt-secret"
      else if key = "VAPI_API_KEY" then "vapi-key"
      else ""
    atoi := fun _ => none
    parseDuration := fun _ => none }

/-- The configuration that `Load` builds from the sample environment. -/
def sampleConfig : Config :=
  { Server :=
      { Port := "8080", Environment := "development", ReadTimeout := 10000000000,
        WriteTimeout := 10000000000, ShutdownTimeout := 30000000000 }
    Database :=
      { URL := "postgres://localhost/callpilot", MaxOpenConns := 25, MaxIdleConns := 5,
        ConnMaxLifetime := 300000000000 }
    JWT :=
      { SecretKey := "jwt-secret", AccessTokenDuration := 900000000000,
        RefreshTokenDuration := 604800000000000 }
    Vapi := { APIKey := "vapi-key", WebhookURL := "", APIBaseURL := "https://api.vapi.ai" }
    Logger := { Level := "info", Format := "json" } }

/-- The sample environment with `VAPI_WEBHOOK_URL` set as well. -/
def sampleEnvWithWebhookURL : Environment :=
  { sampleEnv with
    getenv := fun key => if key = "VAPI_WEBHOOK_URL" then "Jefe" else sampleEnv.getenv key }

end config

namespace providers

/-- The constant `ProviderTypeVapi` of the package `providers` of
`internal/infrastructure`. -/
def ProviderTypeVapi : String := "vapi"

/-- The struct `ProviderFactory`. -/
structure ProviderFactory where
  config : config.Config
deriving DecidableEq, Repr

def NewProviderFactory (cfg : config.Config) : ProviderFactory :=
  { config := cfg }

/-- The method `ProviderFactory.CreateProvider`. The one provider it can build
is the `VapiProvider`; the third argument of `NewVapiProvider` is its
`webhookSecret`. -/
def ProviderFactory.CreateProvider (f : ProviderFactory) (providerType : String) :
    Except errors.Error vapi.VapiProvider :=
  if providerType = ProviderTypeVapi then
    .ok (vapi.NewVapiProvider f.config.Vapi.APIKey f.config.Vapi.APIBaseURL
      (stringBytes f.config.Vapi.WebhookURL))
  else
    .error (.other ("unsupported provider type: " ++ providerType))

/-- The method `ProviderFactory.GetDefaultProvider`. -/
def ProviderFactory.GetDefaultProvider (f : ProviderFactory) :
    Except errors.Error vapi.VapiProvider :=
  f.CreateProvider ProviderTypeVapi

end providers

namespace utf8

/-- The constant `utf8.RuneError`, U+FFFD. -/
def RuneError : Char := Char.ofNat 0xFFFD

/-- A continuation byte, `0x80` to `0xBF`. -/
def isCont (b : UInt8) : Bool :=
  decide (0x80 ≤ b.toNat) && decide (b.toNat ≤ 0xBF)

/-- The function `utf8.DecodeRune` of Go's standard library: the first rune of
`p` and its width in bytes. An encoding that is not valid (a stray or missing
continuation byte, an overlong form, a surrogate, a value above U+10FFFF)
yields `(RuneError, 1)`, the empty input `(RuneError, 0)`. -/
def DecodeRune (p : List UInt8) : Char × Nat :=
  match p with
  | [] => (RuneError, 0)
  | b0 :: rest =>
    let x := b0.toNat
    if x < 0x80 then (Char.ofNat x, 1)
    else if x < 0xC2 then (RuneError, 1)
    else if x < 0xE0 then
      match rest with
      | b1 :: _ =>
        if isCont b1 then (Char.ofNat ((x - 0xC0) * 64 + (b1.toNat - 0x80)), 2)
        else (RuneError, 1)
      | [] => (RuneError, 1)
    else if x < 0xF0 then
      match rest with
      | b1 :: b2 :: _ =>
        let lo := if x = 0xE0 then 0xA0 else 0x80
        let hi := if x = 0xED then 0x9F else 0xBF
        if lo ≤ b1.toNat ∧ b1.toNat ≤ hi ∧ isCont b2 = true then
          (Char.ofNat ((x - 0xE0) * 4096 + (b1.toNat - 0x80) * 64 + (b2.toNat - 0x80)), 3)
        else (RuneError, 1)
      | _ => (RuneError, 1)
    else if x < 0xF5 then
      match rest with
      | b1 :: b2 :: b3 :: _ =>
        let lo := if x = 0xF0 then 0x90 else 0x80
        let hi := if x = 0xF4 then 0x8F else 0xBF
        if lo ≤ b1.toNat ∧ b1.toNat ≤ hi ∧ isCont b2 = true ∧ isCont b3 = true then
          (Char.ofNat ((x - 0xF0) * 262144 + (b1.toNat - 0x80) * 4096 +
            (b2.toNat - 0x80) * 64 + (b3.toNat - 0x80)), 4)
        else (RuneError, 1)
      | _ => (RuneError, 1)
    else (RuneError, 1)

/-- The runes of a byte string, read with `DecodeRune`; `fuel` bounds the
number of runes. -/
def runes : Nat → List UInt8 → List Char
  | 0, _ => []
  | _, [] => []
  | fuel + 1, b :: rest =>
    (DecodeRune (b :: rest)).1 :: runes fuel ((b :: rest).drop (DecodeRune (b :: rest)).2)

/-- The text of a byte string: its runes, an invalid byte read as U+FFFD. -/
def text (p : List UInt8) : String :=
  String.mk (runes p.length p)

end utf8

namespace json

/-- The white space of JSON: space, tab, carriage return, line feed. -/
def isSpace (c : UInt8) : Bool :=
  c = 0x20 || c = 0x09 || c = 0x0D || c = 0x0A

def skipSpace (data : List UInt8) : List UInt8 :=
  data.dropWhile isSpace

def isDigit (c : UInt8) : Bool :=
  decide (0x30 ≤ c.toNat) && decide (c.toNat ≤ 0x39)

/-- The value of a hexadecimal digit, in either case. -/
def hexValue (c : UInt8) : Option Nat :=
  if 0x30 ≤ c.toNat ∧ c.toNat ≤ 0x39 then some (c.toNat - 0x30)
  else if 0x61 ≤ c.toNat ∧ c.toNat ≤ 0x66 then some (c.toNat - 0x61 + 10)
  else if 0x41 ≤ c.toNat ∧ c.toNat ≤ 0x46 then some (c.toNat - 0x41 + 10)
  else none

/-- The function `getu4`: the code unit of an escape `\uXXXX` at the head of
`s`, `none` where Go returns `-1`. -/
def getu4 (s : List UInt8) : Option Nat :=
  match s with
  | b :: u :: h1 :: h2 :: h3 :: h4 :: _ =>
    if b = 0x5C ∧ u = 0x75 then
      match hexValue h1, hexValue h2, hexValue h3, hexValue h4 with
      | some d1, some d2, some d3, some d4 => some (((d1 * 16 + d2) * 16 + d3) * 16 + d4)
      | _, _, _, _ => none
    else none
  | _ => none

/-- The character of a one-letter escape of a JSON string. -/
def escape (c : UInt8) : Option Char :=
  if c = 0x22 then some (Char.ofNat 0x22)
  else if c = 0x5C then some (Char.ofNat 0x5C)
  else if c = 0x2F then some (Char.ofNat 0x2F)
  else if c = 0x62 then some (Char.ofNat 0x08)
  else if c = 0x66 then some (Char.ofNat 0x0C)
  else if c = 0x6E then some (Char.ofNat 0x0A)
  else if c = 0x72 then some (Char.ofNat 0x0D)
  else if c = 0x74 then some (Char.ofNat 0x09)
  else none

/-- One rune of a JSON string, which starts with the byte `c` (not the closing
quote) followed by `rest`, as the scanner accepts it and `unquote` decodes it:
the rune and the input after it. An escape is `\` with one of the letters of
`escape`, or `\u` with four hexadecimal digits; an escape that is the first
half of a surrogate pair takes the second half with it when that follows, and
is U+FFFD otherwise, as is an escape that is a second half. A control byte and
an unknown escape are errors; other bytes are read with `utf8.DecodeRune`. -/
def stringRune (c : UInt8) (rest : List UInt8) : Option (Char × List UInt8) :=
  if c = 0x5C then
    match rest with
    | [] => none
    | e :: rest1 =>
      if e = 0x75 then
        match getu4 (c :: rest) with
        | none => none
        | some rr =>
          if 0xD800 ≤ rr ∧ rr < 0xE000 then
            match getu4 (rest1.drop 4) with
            | some rr1 =>
              if rr < 0xDC00 ∧ 0xDC00 ≤ rr1 ∧ rr1 < 0xE000 then
                some (Char.ofNat ((rr - 0xD800) * 1024 + (rr1 - 0xDC00) + 0x10000),
                  rest1.drop 10)
              else some (utf8.RuneError, rest1.drop 4)
            | none => some (utf8.RuneError, rest1.drop 4)
          else some (Char.ofNat rr, rest1.drop 4)
      else
        match escape e with
        | some ch => some (ch, rest1)
        | none => none
  else if c.toNat < 0x20 then none
  else if c.toNat < 0x80 then some (Char.ofNat c.toNat, rest)
  else
    some ((utf8.DecodeRune (c :: rest)).1, rest.drop ((utf8.DecodeRune (c :: rest)).2 - 1))

/-- A JSON string literal after its opening quote: the decoded string and the
input after the closing quote. `acc` holds the runes decoded so far, last
first; `fuel` bounds the number of runes, and the length of the input is
enough. The end of the input before the closing quote is an error. -/
def stringBody : Nat → List UInt8 → List Char → Option (String × List UInt8)
  | 0, _, _ => none
  | _, [], _ => none
  | fuel + 1, c :: rest, acc =>
    if c = 0x22 then some (String.mk acc.reverse, rest)
    else
      match stringRune c rest with
      | none => none
      | some (ch, rest1) => stringBody fuel rest1 (ch :: acc)

/-- The number written by a string of decimal digits. -/
def natOfDigits (ds : List UInt8) : Nat :=
  ds.foldl (fun n d => 10 * n + (d.toNat - 0x30)) 0

/-- The number `2 ^ 1024 - 2 ^ 970`, half a unit in the last place above the
largest `float64`. -/
def float64Overflow : Nat :=
  179769313486231580793728971405303415079934132710037826936173778980444968292764750946649017977587207096330286416692887910946555547851940402630657488671505820681908902000708383676273854845817711531764475730270069855571366959622842914819860834936475292719074168444365510704342711559699508093042880177904174497792

/-- Whether `strconv.ParseFloat(s, 64)` reports a range error for the literal
of magnitude `m * 10 ^ e`: it does when the magnitude rounds above the largest
`float64`, that is from `2 ^ 1024 - 2 ^ 970` on. -/
def overflows (m : Nat) (e : Int) : Bool :=
  if m = 0 then false
  else if 0 ≤ e then decide (float64Overflow ≤ m * 10 ^ e.toNat)
  else decide (float64Overflow * 10 ^ (-e).toNat ≤ m)

/-- The integer part of a number: a single `0`, or the digits that follow a
digit from `1` to `9`. -/
def intDigits (data : List UInt8) : List UInt8 × List UInt8 :=
  match data with
  | d :: rest => if d = 0x30 then ([d], rest) else data.span isDigit
  | [] => ([], [])

/-- The fraction of a number: the digits after a `.`, of which there must be
one at least; no digits when there is no `.`. -/
def fracDigits (data : List UInt8) : Option (List UInt8 × List UInt8) :=
  match data with
  | c :: rest =>
    if c = 0x2E then
      if (rest.span isDigit).1 = [] then none else some (rest.span isDigit)
    else some ([], data)
  | [] => some ([], [])

/-- The exponent of a number: after `e` or `E` an optional sign and one digit
at least; `0` when there is no exponent. -/
def exponent (data : List UInt8) : Option (Int × List UInt8) :=
  match data with
  | c :: rest =>
    if c = 0x65 ∨ c = 0x45 then
      let negative := rest.head? = some 0x2D
      let unsigned :=
        if rest.head? = some 0x2D ∨ rest.head? = some 0x2B then rest.drop 1 else rest
      if (unsigned.span isDigit).1 = [] then none
      else
        some (if negative then - (natOfDigits (unsigned.span isDigit).1 : Int)
              else (natOfDigits (unsigned.span isDigit).1 : Int),
          (unsigned.span isDigit).2)
    else some (0, data)
  | [] => some (0, [])

/-- A JSON number at the head of `data`, decoded for a target of type
`interface{}`: the value is a `float64`, kept as its literal, and a literal out
of the range of `float64` is an error. -/
def number (data : List UInt8) : Option (Any × List UInt8) :=
  let unsigned := if data.head? = some 0x2D then data.drop 1 else data
  if (intDigits unsigned).1 = [] then none
  else
    match fracDigits (intDigits unsigned).2 with
    | none => none
    | some (frac, rest1) =>
      match exponent rest1 with
      | none => none
      | some (e, rest2) =>
        if overflows (natOfDigits ((intDigits unsigned).1 ++ frac)) (e - frac.length) then
          none
        else
          some (Any.float (utf8.text (data.take (data.length - rest2.length))), rest2)

/-- The bytes of `true`, `false` and `null`. -/
def literalTrue : List UInt8 := [0x74, 0x72, 0x75, 0x65]

def literalFalse : List UInt8 := [0x66, 0x61, 0x6C, 0x73, 0x65]

def literalNull : List UInt8 := [0x6E, 0x75, 0x6C, 0x6C]

/-- The constant `maxNestingDepth` of the scanner. -/
def maxNestingDepth : Nat := 10000

/-- What one JSON value decodes to: a string, number, boolean or null, an
array, or an object with its members. -/
inductive Decoded where
  | scalar (v : Any)
  | array
  | object (members : List (String × Any))
deriving DecidableEq, Repr

/-- The assignment `m[key] = v` on a map kept as the list of its entries. -/
def mapSet (m : List (String × Any)) (key : String) (v : Any) : List (String × Any) :=
  if m.any (fun e => e.1 == key) then
    m.map (fun e => if e.1 == key then (key, v) else e)
  else m ++ [(key, v)]

/-- The three places of the grammar: a value, the rest of an array after `[` or
`,`, and the rest of an object after its opening brace or `,` with the members
read so far. -/
inductive Mode where
  | value
  | elements
  | members (acc : List (String × Any))

/-- The value stored for a member: a scalar as it is, an array or an object as
the text it was read from. -/
def memberValue (d : Decoded) (input rest : List UInt8) : Any :=
  match d with
  | .scalar v => v
  | _ => Any.nested (utf8.text (input.take (input.length - rest.length)))

/-- A value that is not an array or an object, which starts with the byte `c`
followed by `rest`: a string, a number, `true`, `false` or `null`. -/
def scalar (c : UInt8) (rest : List UInt8) : Option (Any × List UInt8) :=
  if c = 0x22 then
    match stringBody (rest.length + 1) rest [] with
    | some (s, rest1) => some (Any.str s, rest1)
    | none => none
  else if c = 0x2D ∨ isDigit c = true then number (c :: rest)
  else if literalTrue.isPrefixOf (c :: rest) = true then
    some (Any.bool true, (c :: rest).drop 4)
  else if literalFalse.isPrefixOf (c :: rest) = true then
    some (Any.bool false, (c :: rest).drop 5)
  else if literalNull.isPrefixOf (c :: rest) = true then
    some (Any.null, (c :: rest).drop 4)
  else none

/-- The key of a member and the colon after it: the key and the input after
the colon. -/
def memberKey (data : List UInt8) : Option (String × List UInt8) :=
  match skipSpace data with
  | q :: rest =>
    if q = 0x22 then
      match stringBody (rest.length + 1) rest [] with
      | none => none
      | some (key, rest1) =>
        match skipSpace rest1 with
        | colon :: rest2 => if colon = 0x3A then some (key, rest2) else none
        | [] => none
    else none
  | [] => none

/-- The scanner and decoder of `encoding/json` for a target of type
`interface{}`: reads at the head of `data` what `mode` asks for and returns it
with the rest of the input, `none` on an error (a syntax error, more than
`maxNestingDepth` open arrays and objects, a number out of range). `depth` is
the number of arrays and objects open; `fuel` bounds the recursion, and twice
the length of the input and two is enough. -/
def decode : Nat → Mode → Nat → List UInt8 → Option (Decoded × List UInt8)
  | 0, _, _, _ => none
  | fuel + 1, .value, depth, data =>
    match skipSpace data with
    | [] => none
    | c :: rest =>
      if c = 0x7B then
        if maxNestingDepth < depth + 1 then none
        else if (skipSpace rest).head? = some 0x7D then
          some (.object [], (skipSpace rest).drop 1)
        else decode fuel (.members []) (depth + 1) rest
      else if c = 0x5B then
        if maxNestingDepth < depth + 1 then none
        else if (skipSpace rest).head? = some 0x5D then
          some (.array, (skipSpace rest).drop 1)
        else decode fuel .elements (depth + 1) rest
      else
        match scalar c rest with
        | some (v, rest1) => some (.scalar v, rest1)
        | none => none
  | fuel + 1, .elements, depth, data =>
    match decode fuel .value depth data with
    | none => none
    | some (_, rest) =>
      match skipSpace rest with
      | c :: rest1 =>
        if c = 0x2C then decode fuel .elements depth rest1
        else if c = 0x5D then some (.array, rest1)
        else none
      | [] => none
  | fuel + 1, .members acc, depth, data =>
    match memberKey data with
    | none => none
    | some (key, rest2) =>
      match decode fuel .value depth rest2 with
      | none => none
      | some (d, rest3) =>
        match skipSpace rest3 with
        | c :: rest4 =>
          if c = 0x2C then
            decode fuel (.members (mapSet acc key (memberValue d (skipSpace rest2) rest3)))
              depth rest4
          else if c = 0x7D then
            some (.object (mapSet acc key (memberValue d (skipSpace rest2) rest3)), rest4)
          else none
        | [] => none

/-- A fuel that is enough for `decode` on an input of `n` bytes: `2 * n + 1`
for a value, one more for the rest of an array or an object. -/
def enoughFuel : Mode → Nat → Nat
  | .value, n => 2 * n + 1
  | _, n => 2 * n + 2

/-- What `Unmarshal` leaves in a nil `map[string]interface{}` for a decoded
value: an object gives the map of its members (of two members with one key the
later wins), the literal `null` leaves the map nil, which is the empty map
here, and every other value is an `UnmarshalTypeError`. -/
def storeInMap : Decoded → Except String (List (String × Any))
  | .object members => .ok members
  | .scalar Any.null => .ok []
  | _ => .error "json: cannot unmarshal value into Go value of type map[string]interface \x7b\x7d"

/-- The function `json.Unmarshal(data, &m)` for `m` a nil
`map[string]interface{}`: the map left in `m`, or the text of the error. The
input must hold one value, with white space around it at most. -/
def Unmarshal (data : List UInt8) : Except String (List (String × Any)) :=
  match decode (2 * data.length + 2) .value 0 data with
  | none => .error "invalid JSON"
  | some (d, rest) =>
    if skipSpace rest ≠ [] then .error "invalid character after top-level value"
    else storeInMap d

end json

namespace vapi

open errors

/-- The helper `getString` as `HandleWebhook` calls it, with one key: the loop
over `keys` runs once, with `i == len(keys)-1`, and returns the entry of the
key when that is a string, the empty string otherwise. -/
def getString (data : List (String × Any)) (key : String) : String :=
  match data.lookup key with
  | some (Any.str val) => val
  | _ => ""

/-- The method `VapiProvider.HandleWebhook`. `now` is the reading of
`time.Now()` and `parseRFC3339 s` the result of `time.Parse(time.RFC3339, s)`,
`none` when that fails. -/
def HandleWebhook (v : VapiProvider) (parseRFC3339 : String → Option time.Time)
    (payload : List UInt8) (signature : List UInt8) (now : time.Time) :
    Except Error providers.CallEvent :=
  if ValidateWebhookSignature v payload signature = false then
    .error (.domain (NewUnauthorizedError "invalid webhook signature"))
  else
    match json.Unmarshal payload with
    | .error _ => .error (.domain (NewInvalidInputError "invalid webhook payload"))
    | .ok webhookData =>
      let event : providers.CallEvent :=
        { Type_ := getString webhookData "type"
          CallID := getString webhookData "callId"
          Status := getString webhookData "status"
          Timestamp := now
          Data := webhookData }
      if getString webhookData "timestamp" ≠ "" then
        match parseRFC3339 (getString webhookData "timestamp") with
        | some t => .ok { event with Timestamp := t }
        | none => .ok event
      else .ok event

/-- The payload of a webhook `call.started` for the vendor session `v-99`. -/
def startedPayload : List UInt8 :=
  asciiBytes "\x7b\"type\":\"call.started\",\"callId\":\"v-99\"\x7d"

/-- The payload of a webhook `call.ended` for the vendor session `v-99`. -/
def endedPayload : List UInt8 :=
  asciiBytes "\x7b\"type\":\"call.ended\",\"callId\":\"v-99\"\x7d"

/-- A payload cut short. -/
def truncatedPayload : List UInt8 :=
  asciiBytes "\x7b\"type\":\"call.ended\""

/-- The signatures of the sample payloads and of the payload `null` under the
key `Jefe`. -/
def startedSignature : List UInt8 :=
  asciiBytes "67531809c1c3af1abacb674ece571cd913acd21f6481d0536909f6c5be323fb9"

def endedSignature : List UInt8 :=
  asciiBytes "9d757d763702aedfe4c46ce81596162f870789a53746a11d5ad354c4253a6524"

def nullSignature : List UInt8 :=
  asciiBytes "b09e6f1855dfd1a631cb713e575c5a26f385f16e2f7c014867205f423f1e9fe9"

def truncatedSignature : List UInt8 :=
  asciiBytes "3defd3294716e1f60fa41e4d3e8a5c376f5da58cdf291c922aff802be43a07d1"

/-- A `time.Parse` for the examples, whose payloads carry no timestamp: it is
not reached, and accepts nothing. -/
def noTimestamp (_ : String) : Option time.Time := none

end vapi

namespace entities

/-- One of the three transitions of an appointment. -/
inductive AppointmentOp where
  | confirm (now : time.Time)
  | cancel
  | complete
deriving DecidableEq, Repr

/-- The appointment after a call of the method named by `op`. -/
def AppointmentRequest.apply (a : AppointmentRequest) : AppointmentOp → AppointmentRequest
  | .confirm now => (a.Confirm now).1
  | .cancel => a.Cancel.1
  | .complete => a.Complete.1

/-- The appointment after a sequence of calls of the three methods. -/
def AppointmentRequest.applyAll (a : AppointmentRequest) (ops : List AppointmentOp) :
    AppointmentRequest :=
  ops.foldl AppointmentRequest.apply a

end entities

namespace services

open errors entities

/-- Whether an operation of the trace is the start of a transcript fetch. -/
def Op.isFetch : Op → Bool
  | .goFetchAndStoreTranscript _ _ => true
  | _ => false

/-- Whether an operation of the trace writes to the table of calls. -/
def Op.writesCall : Op → Bool
  | .callCreate _ => true
  | .callUpdate _ => true
  | _ => false

/-- Whether an operation of the trace writes to the table of transcripts. -/
def Op.writesTranscript : Op → Bool
  | .transcriptCreateBatch _ => true
  | _ => false

/-- A voice provider that decodes webhooks as the `VapiProvider` `v` does and
answers the two calls to the vendor's API from a script. The state counts the
calls made and is the clock that `HandleWebhook` reads. -/
def vapiScriptedProvider (v : vapi.VapiProvider)
    (session : Except Error providers.CallSession)
    (transcript : Except Error providers.Transcript) : providers.VoiceProvider Nat :=
  { InitiateCall := fun n _ => (n + 1, session)
    HandleWebhook := fun n payload signature =>
      (n + 1, vapi.HandleWebhook v vapi.noTimestamp payload signature (n : Int))
    GetTranscript := fun n _ => (n + 1, transcript) }

/-- The provider of the end-to-end example: webhooks signed with the key
`Jefe`, the session `v-99`, the transcript of two messages. -/
def sampleVapiVoiceProvider : providers.VoiceProvider Nat :=
  vapiScriptedProvider vapi.sampleProvider (.ok sampleSession) (.ok sampleTranscript)

/-- The goroutines started by the operations `ops` of a trace, run one after
the other in the order in which they were started: each
`go s.fetchAndStoreTranscript(ctx, callID, providerCallID)` runs
`fetchAndStoreTranscript` with those arguments. -/
def CallService.runFetches {σ π : Type} (s : CallService σ π) (clock : Nat → time.Time) :
    World σ π → List Op → World σ π
  | w, [] => w
  | w, Op.goFetchAndStoreTranscript callID providerCallID :: rest =>
    s.runFetches clock (s.fetchAndStoreTranscript w callID providerCallID clock) rest
  | w, _ :: rest => s.runFetches clock w rest

/-- The response entry that `GetTranscript` builds for a message. -/
def messageResponse (m : providers.TranscriptMessage) : dto.TranscriptMessageResponse :=
  { Role := m.Role, Message := m.Message, Timestamp := m.Timestamp }

/-- The inputs of the end-to-end scenario: the service over the database with
the identifiers `uuid` and the provider `voiceProvider`, the world in which it
starts, the assistant of the request, the payloads and signatures of the two
webhooks, and the clock readings taken at each step. -/
structure Scenario (π : Type) where
  uuid : Nat → String
  voiceProvider : providers.VoiceProvider π
  world : World database.DB π
  assistantID : String
  createdAt : time.Time
  failedAt : time.Time
  startedPayload : List UInt8
  startedSignature : List UInt8
  startedAt : time.Time
  endedPayload : List UInt8
  endedSignature : List UInt8
  endedAt : time.Time
  clock : Nat → time.Time

def Scenario.service {π : Type} (e : Scenario π) : CallService database.DB π :=
  sqlCallService e.uuid e.voiceProvider

/-- The request of the scenario: a call to `+15551234567`. -/
def Scenario.request {π : Type} (e : Scenario π) : dto.InitiateCallRequest :=
  { PhoneNumber := "+15551234567", AssistantID := e.assistantID, Metadata := [] }

/-- Step 1: `InitiateCall` for the business `biz-1`. -/
def Scenario.initiated {π : Type} (e : Scenario π) :
    World database.DB π × Except Error dto.CallResponse :=
  e.service.InitiateCall e.world "biz-1" e.request e.createdAt e.failedAt

/-- Step 2: the first webhook is handled. -/
def Scenario.started {π : Type} (e : Scenario π) : World database.DB π × Option Error :=
  e.service.HandleWebhook e.initiated.1 e.startedPayload e.startedSignature e.startedAt

/-- Step 3: the second webhook is handled. -/
def Scenario.ended {π : Type} (e : Scenario π) : World database.DB π × Option Error :=
  e.service.HandleWebhook e.started.1 e.endedPayload e.endedSignature e.endedAt

/-- The transcript fetches that step 3 has started: those among the operations
that it added to the trace. -/
def Scenario.scheduled {π : Type} (e : Scenario π) : List Op :=
  (e.ended.1.ops.drop e.started.1.ops.length).filter Op.isFetch

/-- Step 4: the fetches started by step 3 have run. -/
def Scenario.fetched {π : Type} (e : Scenario π) : World database.DB π :=
  e.service.runFetches e.clock e.ended.1 e.scheduled

/-- Step 5: `GetTranscript` for the business `biz-1` and the call `callID`. -/
def Scenario.transcript {π : Type} (e : Scenario π) (callID : String) :
    World database.DB π × Except Error dto.TranscriptResponse :=
  e.service.GetTranscript e.fetched "biz-1" callID

/-- The row with the identifier `id` in the table of calls. -/
def storedCall {π : Type} (w : World database.DB π) (id : String) : Option Call :=
  w.store.calls.find? (fun row => row.ID == id)

/-- An empty database. -/
def emptyDB : database.DB :=
  { calls := [], transcripts := [], interactions := [], appointments := [], uuids := 0 }

/-- The world in which the end-to-end example starts. -/
def emptyWorld : World database.DB Nat :=
  { store := emptyDB, provider := 0, ops := [] }

end services

namespace services

/-- The scenario of the examples: the empty database, webhooks signed under the
key `Jefe`, the call created at `5ns`, started at `1s` and ended at `3.5s`. -/
def sampleScenario : Scenario Nat :=
  { uuid := sampleUuid
    voiceProvider := sampleVapiVoiceProvider
    world := emptyWorld
    assistantID := "assistant-1"
    createdAt := 5
    failedAt := 6
    startedPayload := vapi.startedPayload
    startedSignature := vapi.startedSignature
    startedAt := 1000000000
    endedPayload := vapi.endedPayload
    endedSignature := vapi.endedSignature
    endedAt := 3500000000
    clock := sampleClock }

/-- The scenario of the examples with a call that ends `16777216.999999999`
seconds after it started. -/
def longScenario : Scenario Nat :=
  { sampleScenario with endedAt := 16777217999999999 }

end services
namespace float64

theorem bitsAux_zero (fuel : Nat) : bitsAux fuel 0 = 0 := by
  cases fuel <;> simp [bitsAux]

theorem bitsAux_spec : ∀ (fuel n : Nat), n ≤ fuel → n ≠ 0 →
    2 ^ bitsAux fuel n ≤ 2 * n ∧ n < 2 ^ bitsAux fuel n
  | 0, n, hle, hn => absurd (Nat.le_zero.mp hle) hn
  | fuel + 1, n, hle, hn => by
    rw [bitsAux, if_neg hn]
    by_cases h2 : n / 2 = 0
    · have h1 : n = 1 := by omega
      rw [h2, bitsAux_zero, h1]
      decide
    · have hle2 : n / 2 ≤ fuel := by omega
      obtain ⟨ih1, ih2⟩ := bitsAux_spec fuel (n / 2) hle2 h2
      rw [Nat.pow_succ]
      constructor <;> omega

theorem bitLength_spec (n : Nat) (hn : n ≠ 0) :
    2 ^ bitLength n ≤ 2 * n ∧ n < 2 ^ bitLength n :=
  bitsAux_spec n n (Nat.le_refl n) hn

/-- The integer part of the logarithm is below `j` when `n / d` is below
`2 ^ j`. -/
theorem floorLog2_lt (n d j : Nat) (hn : n ≠ 0) (hd : d ≠ 0) (h : n < d * 2 ^ j) :
    floorLog2 n d < (j : Int) := by
  obtain ⟨hn1, hn2⟩ := bitLength_spec n hn
  obtain ⟨hd1, hd2⟩ := bitLength_spec d hd
  unfold floorLog2
  split_ifs with ht
  · by_contra hk
    have hk' : (j : Int) ≤ (bitLength n : Int) - (bitLength d : Int) := not_lt.mp hk
    have hge : bitLength d + j ≤ bitLength n := by omega
    have e1 : ((bitLength n : Int) - (bitLength d : Int)).toNat = bitLength n - bitLength d := by
      omega
    have e2 : ((bitLength d : Int) - (bitLength n : Int)).toNat = 0 := by omega
    rw [e1, e2, pow_zero, Nat.mul_one] at ht
    have hpow : 2 ^ j ≤ 2 ^ (bitLength n - bitLength d) :=
      Nat.pow_le_pow_right (by decide) (by omega)
    have : d * 2 ^ j ≤ d * 2 ^ (bitLength n - bitLength d) := Nat.mul_le_mul_left d hpow
    omega
  · have hlt : 2 ^ bitLength n < 2 ^ (bitLength d + j + 1) := by
      have h1 : 2 ^ (bitLength d + j + 1) = 2 * (2 ^ bitLength d * 2 ^ j) := by
        rw [Nat.pow_succ, Nat.pow_add]
        ring
      have h2 : d * 2 ^ j < 2 ^ bitLength d * 2 ^ j :=
        Nat.mul_lt_mul_of_pos_right hd2 (Nat.pow_pos (by decide))
      rw [h1]
      omega
    have hb : bitLength n < bitLength d + j + 1 :=
      (Nat.pow_lt_pow_iff_right (by decide)).mp hlt
    omega

theorem exponent_le (n d j : Nat) (hn : n ≠ 0) (hd : d ≠ 0) (h : n < d * 2 ^ j)
    (hj : j ≤ 53) : exponent n d ≤ (j : Int) - 53 := by
  have := floorLog2_lt n d j hn hd h
  unfold exponent
  omega

/-- The float nearest to `n / d` when that is below `2 ^ j`, for `j` up to 53:
its exponent is `-p` with `p` from `53 - j` on, and its mantissa is the integer
nearest to `n * 2 ^ p / d`. -/
theorem nearest_small (n d j : Nat) (hn : n ≠ 0) (hd : d ≠ 0) (h : n < d * 2 ^ j)
    (hj : j ≤ 53) :
    ∃ p : Nat, 53 ≤ p + j ∧
      nearest n d = { m := (roundHalfEven (n * 2 ^ p) d : Int), e := -(p : Int) } := by
  have he := exponent_le n d j hn hd h hj
  refine ⟨(-(exponent n d)).toNat, by omega, ?_⟩
  have e1 : (exponent n d).toNat = 0 := by omega
  have e2 : -(((-(exponent n d)).toNat : Nat) : Int) = exponent n d := by omega
  unfold nearest
  rw [if_neg hn, e1, pow_zero, Nat.mul_one, e2]

theorem roundHalfEven_ge (n d N : Nat) (hd : 0 < d) (h : N * d ≤ n) :
    N ≤ roundHalfEven n d := by
  have hq : N ≤ n / d := (Nat.le_div_iff_mul_le hd).mpr h
  unfold roundHalfEven
  split_ifs <;> omega

theorem roundHalfEven_le (n d T : Nat) (hd : 0 < d) (h : n ≤ T * d) :
    roundHalfEven n d ≤ T := by
  have hdm := Nat.div_add_mod n d
  have hq : n / d ≤ T := by
    calc n / d ≤ T * d / d := Nat.div_le_div_right h
      _ = T := Nat.mul_div_cancel T hd
  unfold roundHalfEven
  split_ifs with h1 h2 h3
  · exact hq
  · -- the remainder is not zero, so the quotient is below T
    by_contra hc
    have hT : n / d = T := by omega
    rw [hT] at hdm
    have : d * T = T * d := Nat.mul_comm d T
    omega
  · exact hq
  · by_contra hc
    have hT : n / d = T := by omega
    rw [hT] at hdm
    have : d * T = T * d := Nat.mul_comm d T
    omega

theorem roundHalfEven_half (n d : Nat) :
    2 * (d * roundHalfEven n d) ≤ 2 * n + d := by
  have hdm := Nat.div_add_mod n d
  unfold roundHalfEven
  split_ifs with h1 h2 h3
  · omega
  · rw [Nat.mul_add]
    omega
  · omega
  · rw [Nat.mul_add]
    omega

theorem roundHalfEven_one (n : Nat) : roundHalfEven n 1 = n := by
  unfold roundHalfEven
  simp [Nat.mod_one]

theorem round_natCast (n d : Nat) : round (n : Int) d = nearest n d := by
  unfold round
  rw [if_neg (by omega), Int.natAbs_ofNat]

/-- The conversion of a natural number below `2 ^ 53` is exact. -/
theorem ofInt_natCast (s : Nat) (hs : s < 2 ^ 53) :
    ∃ p : Nat, ofInt (s : Int) = { m := ((s * 2 ^ p : Nat) : Int), e := -(p : Int) } := by
  unfold ofInt
  rw [round_natCast]
  by_cases h0 : s = 0
  · refine ⟨0, ?_⟩
    rw [h0]
    rfl
  · obtain ⟨p, _, hp⟩ := nearest_small s 1 53 h0 (by decide) (by omega) (by decide)
    exact ⟨p, by rw [hp, roundHalfEven_one]⟩

theorem ofInt_billion : ofInt 1000000000 = { m := 8388608000000000, e := -23 } := by
  decide

/-- The quotient `1 / 10` is the `float64` written `0.1`, whose bits are
`0x3FB999999999999A`. -/
theorem div_one_ten :
    div (ofInt 1) (ofInt 10) = { m := 7205759403792794, e := -56 } := by
  decide

/-- The quotient of a number of nanoseconds below one second by `1e9`: a float
below one by more than `2 ^ -30`. -/
theorem div_nanoseconds (ns : Nat) (hns : ns < 1000000000) :
    ∃ m p : Nat, div (ofInt (ns : Int)) (ofInt 1000000000)
        = { m := (m : Int), e := -(p : Int) } ∧
      2 ^ 30 * m + 2 ^ p < 2 ^ 30 * 2 ^ p := by
  obtain ⟨p2, hp2⟩ := ofInt_natCast ns (by omega)
  rw [hp2, ofInt_billion]
  unfold div
  simp only
  have hsign : Int.sign (8388608000000000 : Int) = 1 := by decide
  have habs : Int.natAbs (8388608000000000 : Int) = 1000000000 * 2 ^ 23 := by decide
  have e1 : (-(p2 : Int) - (-23 : Int)).toNat = 23 - p2 := by omega
  have e2 : ((-23 : Int) - -(p2 : Int)).toNat = p2 - 23 := by omega
  rw [hsign, habs, e1, e2, Int.mul_one]
  have hnum : ((ns * 2 ^ p2 : Nat) : Int) * 2 ^ (23 - p2)
      = ((ns * 2 ^ (p2 + (23 - p2)) : Nat) : Int) := by
    push_cast
    rw [pow_add]
    ring
  have hden : 1000000000 * 2 ^ 23 * 2 ^ (p2 - 23)
      = 1000000000 * 2 ^ (p2 + (23 - p2)) := by
    have : p2 + (23 - p2) = 23 + (p2 - 23) := by omega
    rw [this, pow_add]
    ring
  rw [hnum, hden, round_natCast]
  generalize p2 + (23 - p2) = K
  by_cases h0 : ns = 0
  · refine ⟨0, 0, ?_, by decide⟩
    rw [h0]
    simp [nearest]
  · have hK : 0 < 2 ^ K := Nat.pow_pos (by decide)
    have hn : ns * 2 ^ K ≠ 0 := Nat.mul_ne_zero h0 (Nat.ne_of_gt hK)
    have hd : 1000000000 * 2 ^ K ≠ 0 := Nat.mul_ne_zero (by decide) (Nat.ne_of_gt hK)
    have hlt : ns * 2 ^ K < 1000000000 * 2 ^ K * 2 ^ 0 := by
      rw [pow_zero, Nat.mul_one]
      exact Nat.mul_lt_mul_of_pos_right hns hK
    obtain ⟨p, hp53, hp⟩ := nearest_small _ _ 0 hn hd hlt (by decide)
    refine ⟨_, p, hp, ?_⟩
    have hhalf := roundHalfEven_half (ns * 2 ^ K * 2 ^ p) (1000000000 * 2 ^ K)
    generalize roundHalfEven (ns * 2 ^ K * 2 ^ p) (1000000000 * 2 ^ K) = m at hhalf ⊢
    -- cancel 2 ^ K
    have hc : 2 * (1000000000 * m) ≤ 2 * (ns * 2 ^ p) + 1000000000 := by
      have h1 : 2 * (1000000000 * 2 ^ K * m) = 2 ^ K * (2 * (1000000000 * m)) := by ring
      have h2 : 2 * (ns * 2 ^ K * 2 ^ p) + 1000000000 * 2 ^ K
          = 2 ^ K * (2 * (ns * 2 ^ p) + 1000000000) := by ring
      rw [h1, h2] at hhalf
      exact Nat.le_of_mul_le_mul_left hhalf hK
    have hX : 2 ^ 53 ≤ 2 ^ p := Nat.pow_le_pow_right (by decide) (by omega)
    have hnsX : ns * 2 ^ p ≤ 999999999 * 2 ^ p := Nat.mul_le_mul_right _ (by omega)
    generalize 2 ^ p = X at hc hX hnsX ⊢
    generalize ns * X = Y at hc hnsX
    norm_num at hX ⊢
    omega

theorem toInt_natCast (m p : Nat) (hp : 0 < p) :
    toInt { m := (m : Int), e := -(p : Int) } = ((m / 2 ^ p : Nat) : Int) := by
  unfold toInt
  simp only
  have e1 : (-(-(p : Int))).toNat = p := by omega
  rw [if_neg (by omega), e1]
  have h2 : (2 : Int) ^ p = ((2 ^ p : Nat) : Int) := by push_cast; rfl
  rw [h2]
  exact (Int.ofNat_tdiv m (2 ^ p)).symm

theorem roundScaled_natCast (M P : Nat) :
    roundScaled (M : Int) (-(P : Int)) = nearest M (2 ^ P) := by
  unfold roundScaled
  by_cases h0 : P = 0
  · subst h0
    simp only [Nat.cast_zero, neg_zero, le_refl, if_true, Int.toNat_zero, pow_zero, mul_one]
    exact round_natCast M 1
  · have e1 : (-(-(P : Int))).toNat = P := by omega
    rw [if_neg (by omega), e1]
    exact round_natCast M (2 ^ P)

/-- The integer part of the float nearest to `M / 2 ^ P`, when that number lies
from `s` to `s + 1` and below `2 ^ j`: it is `s` or `s + 1`, and it is `s` when
`j` is at most 24 and the number is at least `2 ^ -30` below `s + 1`. -/
theorem toInt_nearest_between (s M P j : Nat) (hlow : s * 2 ^ P ≤ M)
    (hup : M ≤ (s + 1) * 2 ^ P) (hj : M < 2 ^ P * 2 ^ j) (hj52 : j ≤ 52) :
    (s : Int) ≤ toInt (nearest M (2 ^ P)) ∧
      toInt (nearest M (2 ^ P)) ≤ (s : Int) + 1 ∧
      (j ≤ 24 → 2 ^ 30 * M + 2 ^ P < 2 ^ 30 * ((s + 1) * 2 ^ P) →
        toInt (nearest M (2 ^ P)) = (s : Int)) := by
  have hA : 0 < 2 ^ P := Nat.pow_pos (by decide)
  by_cases h0 : M = 0
  · have hs : s = 0 := by
      rw [h0] at hlow
      rcases Nat.eq_zero_or_pos s with h | h
      · exact h
      · exact absurd (Nat.le_zero.mp hlow) (Nat.ne_of_gt (Nat.mul_pos h hA))
    subst h0
    subst hs
    have : toInt (nearest 0 (2 ^ P)) = 0 := by
      simp [nearest, toInt]
    rw [this]
    exact ⟨by simp, by simp, fun _ _ => by simp⟩
  · obtain ⟨p, hp, hnear⟩ := nearest_small M (2 ^ P) j h0 (Nat.ne_of_gt hA) hj (by omega)
    have hp0 : 0 < p := by omega
    have hB : 0 < 2 ^ p := Nat.pow_pos (by decide)
    rw [hnear, toInt_natCast _ _ hp0]
    have hge := roundHalfEven_ge (M * 2 ^ p) (2 ^ P) (s * 2 ^ p) hA (by
      calc s * 2 ^ p * 2 ^ P = s * 2 ^ P * 2 ^ p := by ring
        _ ≤ M * 2 ^ p := Nat.mul_le_mul_right _ hlow)
    have hle := roundHalfEven_le (M * 2 ^ p) (2 ^ P) ((s + 1) * 2 ^ p) hA (by
      calc M * 2 ^ p ≤ (s + 1) * 2 ^ P * 2 ^ p := Nat.mul_le_mul_right _ hup
        _ = (s + 1) * 2 ^ p * 2 ^ P := by ring)
    have hhalf := roundHalfEven_half (M * 2 ^ p) (2 ^ P)
    generalize roundHalfEven (M * 2 ^ p) (2 ^ P) = m at hge hle hhalf ⊢
    have h1 : s ≤ m / 2 ^ p := (Nat.le_div_iff_mul_le hB).mpr hge
    have h2 : m / 2 ^ p ≤ s + 1 := by
      calc m / 2 ^ p ≤ (s + 1) * 2 ^ p / 2 ^ p := Nat.div_le_div_right hle
        _ = s + 1 := Nat.mul_div_cancel _ hB
    refine ⟨by exact_mod_cast h1, by exact_mod_cast h2, ?_⟩
    intro hj24 hstrict
    have hlt : m < (s + 1) * 2 ^ p := by
      by_contra hc
      have hc' : (s + 1) * 2 ^ p ≤ m := not_lt.mp hc
      obtain ⟨G, hG⟩ := Nat.exists_eq_add_of_le hup
      have hAG : 2 ^ P < 2 ^ 30 * G := by
        rw [hG] at hstrict
        omega
      have h30 : 2 ^ 30 ≤ 2 * 2 ^ p := by
        have : 2 ^ 29 ≤ 2 ^ p := Nat.pow_le_pow_right (by decide) (by omega)
        omega
      have hGB : 2 ^ 30 * G ≤ 2 * 2 ^ p * G := Nat.mul_le_mul_right _ h30
      have hm : 2 ^ P * ((s + 1) * 2 ^ p) ≤ 2 ^ P * m := Nat.mul_le_mul_left _ hc'
      have hexp : 2 ^ P * ((s + 1) * 2 ^ p) = M * 2 ^ p + G * 2 ^ p := by
        calc 2 ^ P * ((s + 1) * 2 ^ p) = (s + 1) * 2 ^ P * 2 ^ p := by ring
          _ = (M + G) * 2 ^ p := by rw [hG]
          _ = M * 2 ^ p + G * 2 ^ p := by ring
      have hGB' : 2 * 2 ^ p * G = 2 * (G * 2 ^ p) := by ring
      rw [hexp] at hm
      rw [hGB'] at hGB
      omega
    have h3 : m / 2 ^ p < s + 1 := (Nat.div_lt_iff_lt_mul hB).mpr hlt
    have : m / 2 ^ p = s := by omega
    exact_mod_cast this

/-- The integer part of `float64(s) + float64(ns)/1e9` for `ns` below one
second: `s` or `s + 1`, and `s` when `s` is below `2 ^ 24`. -/
theorem toInt_add_seconds (s ns : Nat) (hns : ns < 1000000000) (hs : s + 1 < 2 ^ 35) :
    (s : Int) ≤ toInt (add (ofInt (s : Int)) (div (ofInt (ns : Int)) (ofInt 1000000000))) ∧
      toInt (add (ofInt (s : Int)) (div (ofInt (ns : Int)) (ofInt 1000000000)))
        ≤ (s : Int) + 1 ∧
      (s < 2 ^ 24 →
        toInt (add (ofInt (s : Int)) (div (ofInt (ns : Int)) (ofInt 1000000000)))
          = (s : Int)) := by
  obtain ⟨p1, hp1⟩ := ofInt_natCast s (by omega)
  obtain ⟨m4, p4, hq, hqb⟩ := div_nanoseconds ns hns
  have hsum : add (ofInt (s : Int)) (div (ofInt (ns : Int)) (ofInt 1000000000))
      = nearest (s * 2 ^ max p1 p4 + m4 * 2 ^ (max p1 p4 - p4)) (2 ^ max p1 p4) := by
    rw [hp1, hq]
    unfold add
    simp only
    have hmin : min (-(p1 : Int)) (-(p4 : Int)) = -((max p1 p4 : Nat) : Int) := by
      rcases le_total p1 p4 with h | h
      · rw [max_eq_right h, min_eq_right (by omega)]
      · rw [max_eq_left h, min_eq_left (by omega)]
    rw [hmin]
    have e1 : (-(p1 : Int) - -((max p1 p4 : Nat) : Int)).toNat = max p1 p4 - p1 := by
      have := le_max_left p1 p4
      omega
    have e2 : (-(p4 : Int) - -((max p1 p4 : Nat) : Int)).toNat = max p1 p4 - p4 := by
      have := le_max_right p1 p4
      omega
    rw [e1, e2]
    have hM : ((s * 2 ^ p1 : Nat) : Int) * 2 ^ (max p1 p4 - p1)
          + (m4 : Int) * 2 ^ (max p1 p4 - p4)
        = ((s * 2 ^ max p1 p4 + m4 * 2 ^ (max p1 p4 - p4) : Nat) : Int) := by
      have hpow : (2 : Int) ^ p1 * 2 ^ (max p1 p4 - p1) = 2 ^ max p1 p4 := by
        rw [← pow_add]
        congr 1
        have := le_max_left p1 p4
        omega
      push_cast
      rw [mul_assoc, hpow]
    rw [hM]
    exact roundScaled_natCast _ _
  rw [hsum]
  have hP4 : max p1 p4 = p4 + (max p1 p4 - p4) := by
    have := le_max_right p1 p4
    omega
  have hXZ : 2 ^ max p1 p4 = 2 ^ p4 * 2 ^ (max p1 p4 - p4) := by
    rw [← pow_add, ← hP4]
  generalize max p1 p4 = P at hXZ ⊢
  generalize hZ : 2 ^ (P - p4) = Z at hXZ ⊢
  have hZpos : 0 < Z := by
    rw [← hZ]
    exact Nat.pow_pos (by decide)
  -- the fraction is below one by more than 2 ^ -30
  have hfrac : 2 ^ 30 * (m4 * Z) + 2 ^ P < 2 ^ 30 * 2 ^ P := by
    have h := Nat.mul_lt_mul_of_pos_right hqb hZpos
    calc 2 ^ 30 * (m4 * Z) + 2 ^ P = (2 ^ 30 * m4 + 2 ^ p4) * Z := by rw [hXZ]; ring
      _ < 2 ^ 30 * 2 ^ p4 * Z := h
      _ = 2 ^ 30 * 2 ^ P := by rw [hXZ]; ring
  have hlt : m4 * Z < 2 ^ P := by omega
  have hlow : s * 2 ^ P ≤ s * 2 ^ P + m4 * Z := Nat.le_add_right _ _
  have hup : s * 2 ^ P + m4 * Z ≤ (s + 1) * 2 ^ P := by
    rw [Nat.add_mul, Nat.one_mul]
    omega
  have hupS : s * 2 ^ P + m4 * Z < (s + 1) * 2 ^ P := by
    rw [Nat.add_mul, Nat.one_mul]
    omega
  have hj35 : s * 2 ^ P + m4 * Z < 2 ^ P * 2 ^ 35 := by
    calc s * 2 ^ P + m4 * Z < (s + 1) * 2 ^ P := hupS
      _ ≤ 2 ^ 35 * 2 ^ P := Nat.mul_le_mul_right _ (by omega)
      _ = 2 ^ P * 2 ^ 35 := Nat.mul_comm _ _
  obtain ⟨b1, b2, _⟩ := toInt_nearest_between s _ P 35 hlow hup hj35 (by decide)
  refine ⟨b1, b2, ?_⟩
  intro hs24
  have hj24 : s * 2 ^ P + m4 * Z < 2 ^ P * 2 ^ 24 := by
    calc s * 2 ^ P + m4 * Z < (s + 1) * 2 ^ P := hupS
      _ ≤ 2 ^ 24 * 2 ^ P := Nat.mul_le_mul_right _ (by omega)
      _ = 2 ^ P * 2 ^ 24 := Nat.mul_comm _ _
  have hstrict : 2 ^ 30 * (s * 2 ^ P + m4 * Z) + 2 ^ P < 2 ^ 30 * ((s + 1) * 2 ^ P) := by
    have h1 : 2 ^ 30 * (s * 2 ^ P + m4 * Z) + 2 ^ P
        = 2 ^ 30 * (s * 2 ^ P) + (2 ^ 30 * (m4 * Z) + 2 ^ P) := by ring
    have h2 : 2 ^ 30 * ((s + 1) * 2 ^ P) = 2 ^ 30 * (s * 2 ^ P) + 2 ^ 30 * 2 ^ P := by ring
    rw [h1, h2]
    omega
  exact (toInt_nearest_between s _ P 24 hlow hup hj24 (by decide)).2.2 (by decide) hstrict

theorem round_neg (num : Int) (den : Nat) :
    round (-num) den = { m := -(round num den).m, e := (round num den).e } := by
  unfold round
  rcases lt_trichotomy num 0 with h | h | h
  · rw [if_neg (by omega), if_pos h, Int.natAbs_neg]
    simp
  · subst h
    simp [nearest]
  · rw [if_pos (by omega), if_neg (by omega), Int.natAbs_neg]

theorem ofInt_neg (n : Int) :
    ofInt (-n) = { m := -(ofInt n).m, e := (ofInt n).e } :=
  round_neg n 1

theorem div_neg_left (a b : Float64) :
    div { m := -a.m, e := a.e } b = { m := -(div a b).m, e := (div a b).e } := by
  unfold div
  simp only
  rw [← round_neg]
  congr 1
  ring

theorem roundScaled_neg (m e : Int) :
    roundScaled (-m) e = { m := -(roundScaled m e).m, e := (roundScaled m e).e } := by
  unfold roundScaled
  split_ifs
  · rw [← round_neg]
    congr 1
    ring
  · exact round_neg m _

theorem add_neg (a b : Float64) :
    add { m := -a.m, e := a.e } { m := -b.m, e := b.e }
      = { m := -(add a b).m, e := (add a b).e } := by
  unfold add
  simp only
  rw [← roundScaled_neg]
  congr 1
  ring

theorem toInt_neg (a : Float64) : toInt { m := -a.m, e := a.e } = -toInt a := by
  unfold toInt
  simp only
  split_ifs
  · ring
  · exact Int.neg_tdiv _ _

end float64

namespace time

/-- Within the int64 range `Sub` is the plain difference. -/
theorem Sub_of_fits (t u : Time) (hlo : minDuration ≤ t - u)
    (hhi : t - u ≤ maxDuration) : Sub t u = t - u := by
  unfold Sub
  rw [if_neg (not_lt.mpr hlo), if_neg (not_lt.mpr hhi)]

/-- The result of `Sub` is within the int64 range. -/
theorem Sub_range (t u : Time) : minDuration ≤ Sub t u ∧ Sub t u ≤ maxDuration := by
  unfold Sub
  split_ifs with h1 h2
  · exact ⟨le_refl _, by decide⟩
  · exact ⟨by decide, le_refl _⟩
  · exact ⟨not_lt.mp h1, not_lt.mp h2⟩

/-- The seconds of the opposite duration are the opposite seconds. -/
theorem Seconds_neg (d : Int) :
    Seconds (-d) = { m := -(Seconds d).m, e := (Seconds d).e } := by
  have hmod : (-d).tmod Second = -(d.tmod Second) := by
    rw [Int.tmod_def, Int.tmod_def, Int.neg_tdiv]
    ring
  unfold Seconds
  rw [Int.neg_tdiv, hmod, float64.ofInt_neg, float64.ofInt_neg, float64.div_neg_left,
    float64.add_neg]

theorem toInt_Seconds_neg (d : Int) :
    float64.toInt (Seconds (-d)) = -float64.toInt (Seconds d) := by
  rw [Seconds_neg, float64.toInt_neg]

/-- The whole seconds that `int(d.Seconds())` yields for a duration that is not
negative: the integer quotient by `10 ^ 9` or one more, and the quotient when
the duration is below `2 ^ 24` seconds. -/
theorem toInt_Seconds_nonneg (d : Int) (h0 : 0 ≤ d) (hmax : d ≤ 9223372036854775808) :
    d.tdiv 1000000000 ≤ float64.toInt (Seconds d) ∧
      float64.toInt (Seconds d) ≤ d.tdiv 1000000000 + 1 ∧
      (d < 16777216000000000 → float64.toInt (Seconds d) = d.tdiv 1000000000) := by
  obtain ⟨n, hn⟩ := Int.eq_ofNat_of_zero_le h0
  subst hn
  have hq : (n : Int).tdiv 1000000000 = ((n / 1000000000 : Nat) : Int) :=
    (Int.ofNat_tdiv n 1000000000).symm
  have hr : (n : Int).tmod 1000000000 = ((n % 1000000000 : Nat) : Int) :=
    (Int.ofNat_tmod n 1000000000).symm
  unfold Seconds Second
  rw [hq, hr]
  have hns : n % 1000000000 < 1000000000 := Nat.mod_lt _ (by decide)
  have hs : n / 1000000000 + 1 < 2 ^ 35 := by
    have : n ≤ 9223372036854775808 := by exact_mod_cast hmax
    have : n / 1000000000 ≤ 9223372036854775808 / 1000000000 := Nat.div_le_div_right this
    norm_num at this ⊢
    omega
  obtain ⟨b1, b2, b3⟩ := float64.toInt_add_seconds (n / 1000000000) (n % 1000000000) hns hs
  refine ⟨b1, b2, fun hd => b3 ?_⟩
  have : n < 16777216000000000 := by exact_mod_cast hd
  have : n / 1000000000 < 16777216 := (Nat.div_lt_iff_lt_mul (by decide)).mpr (by omega)
  norm_num
  exact this

/-- The whole seconds that `int(d.Seconds())` yields for a duration that is not
positive: the integer quotient by `10 ^ 9` or one less. -/
theorem toInt_Seconds_nonpos (d : Int) (h0 : d ≤ 0) (hmin : -9223372036854775808 ≤ d) :
    d.tdiv 1000000000 - 1 ≤ float64.toInt (Seconds d) ∧
      float64.toInt (Seconds d) ≤ d.tdiv 1000000000 := by
  obtain ⟨b1, b2, _⟩ := toInt_Seconds_nonneg (-d) (by omega) (by omega)
  rw [toInt_Seconds_neg, Int.neg_tdiv] at b1 b2
  constructor <;> omega

/-- The bound of `2 ^ 24` seconds is the first second at which the sum rounds
up: one nanosecond below `2 ^ 24` seconds the fraction is dropped, and with a
fraction of `999999999ns` on `2 ^ 24` seconds the result is the next second. -/
theorem toInt_Seconds_rounds_up :
    float64.toInt (Seconds 16777215999999999) = 16777215 ∧
      float64.toInt (Seconds 16777216999999999) = 16777217 ∧
      float64.toInt (Seconds 33554432999999998) = 33554433 ∧
      float64.toInt (Seconds (-16777216999999999)) = -16777217 := by
  set_option maxRecDepth 100000 in decide

/-- The whole seconds that `int(d.Seconds())` yields for every duration within
`2 ^ 24` seconds either way: the integer quotient by `10 ^ 9`, truncated toward
zero. -/
theorem toInt_Seconds_exact (d : Int) (hlo : -16777216000000000 < d)
    (hhi : d < 16777216000000000) : float64.toInt (Seconds d) = d.tdiv 1000000000 := by
  rcases le_total 0 d with h | h
  · exact (toInt_Seconds_nonneg d h (by omega)).2.2 hhi
  · have hn := (toInt_Seconds_nonneg (-d) (by omega) (by omega)).2.2 (by omega)
    rw [toInt_Seconds_neg, Int.neg_tdiv] at hn
    omega

end time

namespace entities

open errors

theorem validStatuses_iff (s : CallStatus) :
    validStatuses s = true ↔ s ∈ knownStatuses := by
  constructor
  · intro h
    by_contra hn
    simp only [knownStatuses, List.mem_cons, List.mem_nil_iff, or_false,
      not_or] at hn
    obtain ⟨h1, h2, h3, h4, h5, h6, h7⟩ := hn
    have hf : validStatuses s = false := by
      simp only [validStatuses, validStatusesEntries, List.lookup,
        beq_false_of_ne h1, beq_false_of_ne h2, beq_false_of_ne h3,
        beq_false_of_ne h4, beq_false_of_ne h5, beq_false_of_ne h6,
        beq_false_of_ne h7]
      rfl
    rw [hf] at h
    exact Bool.false_ne_true h
  · intro h
    simp only [knownStatuses, List.mem_cons, List.mem_nil_iff, or_false] at h
    rcases h with h | h | h | h | h | h | h <;> subst h <;> decide

theorem isTerminalStatus_iff (s : CallStatus) :
    isTerminalStatus s = true ↔ s ∈ terminalStatuses := by
  simp [isTerminalStatus, terminalStatuses, or_assoc]

theorem terminal_known {s : CallStatus} (h : s ∈ terminalStatuses) :
    s ∈ knownStatuses := by
  simp only [terminalStatuses, knownStatuses, List.mem_cons, List.mem_nil_iff,
    or_false] at h ⊢
  tauto

theorem inProgress_not_terminal : isTerminalStatus CallStatusInProgress = false := by
  decide

/-- The duration that `UpdateStatus` computes, when the end is within `2 ^ 24`
seconds of the start: the whole seconds of the difference, truncated toward
zero. -/
theorem durationSeconds_exact (e s : time.Time) (hlo : -16777216000000000 < e - s)
    (hhi : e - s < 16777216000000000) :
    durationSeconds e s = (e - s).tdiv 1000000000 := by
  unfold durationSeconds
  rw [time.Sub_of_fits e s (le_trans (by decide) (le_of_lt hlo))
    (le_trans (le_of_lt hhi) (by decide))]
  exact time.toInt_Seconds_exact _ hlo hhi

/-- The duration that `UpdateStatus` computes, when the end is not before the
start: the whole seconds of `Sub`, or one more. -/
theorem durationSeconds_of_le (e s : time.Time) (h : s ≤ e) :
    (time.Sub e s).tdiv 1000000000 ≤ durationSeconds e s ∧
      durationSeconds e s ≤ (time.Sub e s).tdiv 1000000000 + 1 := by
  have h0 : 0 ≤ time.Sub e s := by
    unfold time.Sub
    split_ifs with h1 h2
    · exact absurd h1 (not_lt.mpr (le_trans (by decide) (sub_nonneg.mpr h)))
    · decide
    · exact sub_nonneg.mpr h
  have hr := (time.Sub_range e s).2
  obtain ⟨b1, b2, _⟩ := time.toInt_Seconds_nonneg (time.Sub e s) h0
    (le_trans hr (by decide))
  exact ⟨b1, b2⟩

/-- The duration that `UpdateStatus` computes, when the end is not after the
start: the whole seconds of `Sub` (not positive), or one less. -/
theorem durationSeconds_of_ge (e s : time.Time) (h : e ≤ s) :
    (time.Sub e s).tdiv 1000000000 - 1 ≤ durationSeconds e s ∧
      durationSeconds e s ≤ (time.Sub e s).tdiv 1000000000 := by
  have h0 : time.Sub e s ≤ 0 := by
    unfold time.Sub
    split_ifs with h1 h2
    · decide
    · exact absurd h2 (not_lt.mpr (le_trans (sub_nonpos.mpr h) (by decide)))
    · exact sub_nonpos.mpr h
  exact time.toInt_Seconds_nonpos (time.Sub e s) h0 (time.Sub_range e s).1

/-- An unknown status: the error is returned and the call is untouched. -/
theorem UpdateStatus_invalid (c : Call) (s : CallStatus) (now : time.Time)
    (h : validStatuses s = false) :
    UpdateStatus c s now = (c, some (NewValidationError "invalid call status")) := by
  simp [UpdateStatus, h]

theorem UpdateStatus_err_none (c : Call) (s : CallStatus) (now : time.Time)
    (h : validStatuses s = true) : (UpdateStatus c s now).2 = none := by
  simp [UpdateStatus, h]

/-- A known status: the call after `UpdateStatus`, field by field. -/
theorem UpdateStatus_valid (c : Call) (s : CallStatus) (now : time.Time)
    (h : validStatuses s = true) :
    (UpdateStatus c s now).1 =
      { c with
        Status := s
        StartedAt :=
          if s = CallStatusInProgress ∧ c.StartedAt = none then some now
          else c.StartedAt
        EndedAt :=
          if isTerminalStatus s = true ∧ c.EndedAt = none then some now
          else c.EndedAt
        Duration :=
          if isTerminalStatus s = true ∧ c.EndedAt = none then
            match c.StartedAt with
            | some startedAt => durationSeconds now startedAt
            | none => c.Duration
          else c.Duration } := by
  by_cases hp : s = CallStatusInProgress
  · subst hp
    cases hS : c.StartedAt <;>
      simp [UpdateStatus, h, inProgress_not_terminal, hS]
  · by_cases ht : isTerminalStatus s = true ∧ c.EndedAt = none
    · cases hS : c.StartedAt <;>
        simp [UpdateStatus, h, hp, ht, hS]
    · simp [UpdateStatus, h, hp, ht]

end entities

namespace entities

/-- A status other than `in_progress`, known or not, keeps `StartedAt`. -/
theorem UpdateStatus_keeps_StartedAt (c : Call) (s : CallStatus) (now : time.Time)
    (h : s ≠ CallStatusInProgress) :
    (UpdateStatus c s now).1.StartedAt = c.StartedAt := by
  cases hv : validStatuses s
  · rw [UpdateStatus_invalid c s now hv]
  · rw [UpdateStatus_valid c s now hv]
    simp [h]

theorem terminal_ne_inProgress {s : CallStatus} (h : s ∈ terminalStatuses) :
    s ≠ CallStatusInProgress := by
  intro hs
  rw [hs] at h
  exact absurd h (by decide)

/-- After a terminal status has been applied the end is set. -/
theorem UpdateStatus_terminal_EndedAt (c : Call) (s : CallStatus) (now : time.Time)
    (hs : s ∈ terminalStatuses) : (UpdateStatus c s now).1.EndedAt ≠ none := by
  have hv := (validStatuses_iff s).mpr (terminal_known hs)
  have ht := (isTerminalStatus_iff s).mpr hs
  rw [UpdateStatus_valid c s now hv]
  by_cases he : c.EndedAt = none <;> simp [ht, he]

/-- Applying to a call whose end is set the terminal status it already has
changes nothing. -/
theorem UpdateStatus_same_terminal (c : Call) (now : time.Time)
    (hs : c.Status ∈ terminalStatuses) (hEnd : c.EndedAt ≠ none) :
    UpdateStatus c c.Status now = (c, none) := by
  have hv := (validStatuses_iff c.Status).mpr (terminal_known hs)
  have h1 := UpdateStatus_valid c c.Status now hv
  have h2 := UpdateStatus_err_none c c.Status now hv
  have hne := terminal_ne_inProgress hs
  simp only [hne, hEnd, false_and, and_false, if_false] at h1
  exact Prod.ext h1 h2

theorem applyUpdates_cons (c : Call) (s : CallStatus) (now : time.Time)
    (rest : List (CallStatus × time.Time)) :
    applyUpdates c ((s, now) :: rest) =
      if validStatuses s = true then applyUpdates (UpdateStatus c s now).1 rest
      else none := by
  cases hv : validStatuses s
  · simp [applyUpdates, UpdateStatus_invalid c s now hv]
  · have h2 := UpdateStatus_err_none c s now hv
    have h : UpdateStatus c s now = ((UpdateStatus c s now).1, none) := by
      rw [← h2]
    rw [applyUpdates, h]
    simp

/-- A property kept by every successful `UpdateStatus` holds after a run. -/
theorem applyUpdates_preserves (P : Call → Prop)
    (hstep : ∀ c s now, P c → validStatuses s = true → P (UpdateStatus c s now).1) :
    ∀ (steps : List (CallStatus × time.Time)) (c0 c : Call),
      P c0 → applyUpdates c0 steps = some c → P c := by
  intro steps
  induction steps with
  | nil =>
    intro c0 c h0 hrun
    simp only [applyUpdates, Option.some.injEq] at hrun
    exact hrun ▸ h0
  | cons st rest ih =>
    intro c0 c h0 hrun
    obtain ⟨s, now⟩ := st
    rw [applyUpdates_cons] at hrun
    by_cases hv : validStatuses s = true
    · rw [if_pos hv] at hrun
      exact ih _ c (hstep c0 s now h0 hv) hrun
    · rw [if_neg hv] at hrun
      cases hrun

/-- A property of a call and of the latest clock reading, kept by every
successful `UpdateStatus` at a later reading, holds after a run on a clock that
never goes back. -/
theorem applyUpdates_preserves_clock (P : time.Time → Call → Prop)
    (hstep : ∀ t c s now, P t c → t ≤ now → validStatuses s = true →
      P now (UpdateStatus c s now).1) :
    ∀ (steps : List (CallStatus × time.Time)) (t : time.Time) (c0 c : Call),
      P t c0 → clockNonDecreasing t steps → applyUpdates c0 steps = some c →
        ∃ t', P t' c := by
  intro steps
  induction steps with
  | nil =>
    intro t c0 c h0 _ hrun
    simp only [applyUpdates, Option.some.injEq] at hrun
    exact ⟨t, hrun ▸ h0⟩
  | cons st rest ih =>
    intro t c0 c h0 hclock hrun
    obtain ⟨s, now⟩ := st
    rw [applyUpdates_cons] at hrun
    obtain ⟨hle, hrest⟩ := hclock
    by_cases hv : validStatuses s = true
    · rw [if_pos hv] at hrun
      exact ih now _ c (hstep t c0 s now h0 hle hv) hrest hrun
    · rw [if_neg hv] at hrun
      cases hrun

/-- After a run, `EndedAt` is set exactly when it was set before the run or one
of the statuses applied was terminal. -/
theorem applyUpdates_EndedAt_iff :
    ∀ (steps : List (CallStatus × time.Time)) (c0 c : Call),
      applyUpdates c0 steps = some c →
        (c.EndedAt ≠ none ↔
          c0.EndedAt ≠ none ∨ ∃ st ∈ steps, st.1 ∈ terminalStatuses) := by
  intro steps
  induction steps with
  | nil =>
    intro c0 c hrun
    simp only [applyUpdates, Option.some.injEq] at hrun
    subst hrun
    simp
  | cons st rest ih =>
    intro c0 c hrun
    obtain ⟨s, now⟩ := st
    rw [applyUpdates_cons] at hrun
    by_cases hv : validStatuses s = true
    · rw [if_pos hv] at hrun
      rw [ih _ c hrun, UpdateStatus_valid c0 s now hv]
      simp only [List.mem_cons, exists_eq_or_imp, ← isTerminalStatus_iff]
      by_cases ht : isTerminalStatus s = true
      · by_cases he : c0.EndedAt = none <;> simp [ht, he]
      · simp [ht]
    · rw [if_neg hv] at hrun
      cases hrun

theorem NewCall_ok {b p : String} {now : time.Time} {c0 : Call}
    (h : NewCall b p now = .ok c0) :
    c0.Status = CallStatusInitiated ∧ c0.StartedAt = none ∧ c0.EndedAt = none ∧
      c0.Duration = 0 ∧ c0.BusinessID = b ∧ c0.CallerPhone = p ∧
      c0.ProviderCallID = "" := by
  unfold NewCall at h
  split_ifs at h
  simp only [Except.ok.injEq] at h
  subst h
  exact ⟨rfl, rfl, rfl, rfl, rfl, rfl, rfl⟩

theorem durationSeconds_self (t : time.Time) : durationSeconds t t = 0 := by
  unfold durationSeconds
  rw [time.Sub_of_fits t t (by simp [time.minDuration]) (by simp [time.maxDuration]),
    sub_self]
  decide

end entities

namespace entities

theorem durationInv_NewCall {b p : String} {now : time.Time} {c0 : Call}
    (h : NewCall b p now = .ok c0) : durationInv now c0 := by
  obtain ⟨_, hS, hE, hD, _⟩ := NewCall_ok h
  refine ⟨?_, ?_, fun _ => hD, ?_, ?_⟩
  · intro s hs
    rw [hS] at hs
    cases hs
  · intro e he
    rw [hE] at he
    cases he
  · intro s e hs
    rw [hS] at hs
    cases hs
  · intro s e hs
    rw [hS] at hs
    cases hs

theorem durationInv_step (t : time.Time) (c : Call) (s : CallStatus)
    (now : time.Time) (hinv : durationInv t c) (hle : t ≤ now)
    (hv : validStatuses s = true) :
    durationInv now (UpdateStatus c s now).1 := by
  obtain ⟨h1, h2, h3, h4, h5⟩ := hinv
  rw [UpdateStatus_valid c s now hv]
  by_cases hp : s = CallStatusInProgress
  · -- the start may be written, the end and the duration are kept
    subst hp
    simp only [inProgress_not_terminal, Bool.false_eq_true, false_and, if_false, true_and]
    cases hS : c.StartedAt with
    | none =>
      simp only [if_true]
      refine ⟨?_, ?_, ?_, ?_, ?_⟩
      · intro s hs
        cases hs
        exact le_refl _
      · intro e he
        exact le_trans (h2 e he) hle
      · intro hn
        cases hn
      · intro s e hs he hse
        cases hs
        have hen : e ≤ now := le_trans (h2 e he) hle
        have heq : e = now := le_antisymm hen hse
        rw [heq, durationSeconds_self]
        exact h3 hS
      · intro s e _ _ _
        exact h3 hS
    | some st =>
      simp only [reduceCtorEq, if_false]
      refine ⟨?_, ?_, ?_, ?_, ?_⟩
      · intro s hs
        cases hs
        exact le_trans (h1 st hS) hle
      · intro e he
        exact le_trans (h2 e he) hle
      · intro hn
        cases hn
      · intro s e hs he hse
        cases hs
        exact h4 st e hS he hse
      · intro s e hs he hlt
        cases hs
        exact h5 st e hS he hlt
  · simp only [hp, false_and, if_false]
    by_cases ht : isTerminalStatus s = true ∧ c.EndedAt = none
    · -- the end is written, and the duration when the start is known
      simp only [ht, and_self, if_true]
      refine ⟨?_, ?_, ?_, ?_, ?_⟩
      · intro st hs
        exact le_trans (h1 st hs) hle
      · intro e he
        cases he
        exact le_refl _
      · intro hn
        have hn' : c.StartedAt = none := hn
        show (match c.StartedAt with
          | some startedAt => durationSeconds now startedAt
          | none => c.Duration) = (0 : Int)
        rw [hn']
        exact h3 hn'
      · intro st e hs he _
        cases he
        have hs' : c.StartedAt = some st := hs
        show (match c.StartedAt with
          | some startedAt => durationSeconds now startedAt
          | none => c.Duration) = durationSeconds now st
        rw [hs']
      · intro st e hs he hlt
        cases he
        exact absurd (le_trans (h1 st hs) hle) (not_le.mpr hlt)
    · -- neither timestamp nor the duration changes
      simp only [ht, if_false]
      refine ⟨?_, ?_, h3, h4, h5⟩
      · intro st hs
        exact le_trans (h1 st hs) hle
      · intro e he
        exact le_trans (h2 e he) hle

end entities

namespace entities

open errors

/-- C1: `UpdateStatus` returns an error exactly when the status is not one of
the seven known statuses; the error is then a validation error, and the call
keeps every field. -/
theorem UpdateStatus_error_iff_unknown (c : Call) (s : CallStatus)
    (now : time.Time) :
    ((∃ e, (UpdateStatus c s now).2 = some e ∧ e.Code = ErrCodeValidationError) ↔
        s ∉ knownStatuses) ∧
      ((UpdateStatus c s now).2 = none ↔ s ∈ knownStatuses) ∧
      ((UpdateStatus c s now).2 ≠ none → (UpdateStatus c s now).1 = c) := by
  by_cases hv : validStatuses s = true
  · have hk : s ∈ knownStatuses := (validStatuses_iff s).mp hv
    have hn : (UpdateStatus c s now).2 = none := UpdateStatus_err_none c s now hv
    refine ⟨⟨?_, fun h => absurd hk h⟩, ⟨fun _ => hk, fun _ => hn⟩, fun h => absurd hn h⟩
    rintro ⟨e, he, _⟩
    rw [hn] at he
    cases he
  · have hf : validStatuses s = false := by
      cases hb : validStatuses s
      · rfl
      · exact absurd hb hv
    have hk : s ∉ knownStatuses := fun h => hv ((validStatuses_iff s).mpr h)
    have hu := UpdateStatus_invalid c s now hf
    refine ⟨⟨fun _ => hk, fun _ => ⟨_, by rw [hu], rfl⟩⟩, ⟨?_, fun h => absurd h hk⟩,
      fun _ => by rw [hu]⟩
    intro h
    rw [hu] at h
    cases h

/-- C1 at the unknown status `invalid` of the unit test. -/
theorem UpdateStatus_error_iff_unknown_witness :
    (UpdateStatus sampleCompleted "invalid" 7).2 ≠ none ∧
      (UpdateStatus sampleCompleted "invalid" 7).1 = sampleCompleted :=
  ⟨by decide,
    (UpdateStatus_error_iff_unknown sampleCompleted "invalid" 7).2.2 (by decide)⟩

/-- C7: whatever the current status of the call, `UpdateStatus` with a known
status succeeds and leaves the call with that status. -/
theorem UpdateStatus_sets_Status (c : Call) (s : CallStatus) (now : time.Time)
    (hs : s ∈ knownStatuses) :
    (UpdateStatus c s now).2 = none ∧ (UpdateStatus c s now).1.Status = s := by
  have hv := (validStatuses_iff s).mpr hs
  exact ⟨UpdateStatus_err_none c s now hv, by rw [UpdateStatus_valid c s now hv]⟩

/-- C7 on a completed call sent back to `ringing`. -/
theorem UpdateStatus_sets_Status_witness :
    CallStatusRinging ∈ knownStatuses ∧
      (UpdateStatus sampleCompleted CallStatusRinging 9).2 = none ∧
      (UpdateStatus sampleCompleted CallStatusRinging 9).1.Status = CallStatusRinging :=
  ⟨by decide, UpdateStatus_sets_Status sampleCompleted CallStatusRinging 9 (by decide)⟩

/-- C8: `UpdateStatus(in_progress)` stores the clock reading in `StartedAt` when
it was unset and keeps `StartedAt` when it was set; with any other status,
known or not, `StartedAt` is kept. -/
theorem UpdateStatus_StartedAt (c : Call) (s : CallStatus) (now : time.Time) :
    (c.StartedAt = none →
        (UpdateStatus c CallStatusInProgress now).1.StartedAt = some now) ∧
      (c.StartedAt ≠ none →
        (UpdateStatus c CallStatusInProgress now).1.StartedAt = c.StartedAt) ∧
      (s ≠ CallStatusInProgress → (UpdateStatus c s now).1.StartedAt = c.StartedAt) := by
  have hp : validStatuses CallStatusInProgress = true := by decide
  refine ⟨fun h => ?_, fun h => ?_, fun h => ?_⟩
  · rw [UpdateStatus_valid c _ now hp]
    simp [h]
  · rw [UpdateStatus_valid c _ now hp]
    simp [h]
  · cases hv : validStatuses s
    · rw [UpdateStatus_invalid c s now hv]
    · rw [UpdateStatus_valid c s now hv]
      simp [h]

/-- C8 on a fresh call (start unset) and on a call already started. -/
theorem UpdateStatus_StartedAt_witness :
    (UpdateStatus { sampleCompleted with StartedAt := none } CallStatusInProgress 42).1.StartedAt
        = some 42 ∧
      (UpdateStatus sampleCompleted CallStatusInProgress 42).1.StartedAt
        = some 1000000000 ∧
      (UpdateStatus sampleCompleted CallStatusFailed 42).1.StartedAt
        = some 1000000000 :=
  ⟨(UpdateStatus_StartedAt { sampleCompleted with StartedAt := none } "" 42).1 rfl,
    (UpdateStatus_StartedAt sampleCompleted "" 42).2.1 (by decide),
    (UpdateStatus_StartedAt sampleCompleted CallStatusFailed 42).2.2 (by decide)⟩

/-- C5: once `EndedAt` is set, `UpdateStatus` with a known status succeeds,
overwrites the status and keeps `EndedAt` and `Duration`; with a terminal status
(`failed` after `completed`, say) it keeps `StartedAt` as well, and applying a
terminal status a second time leaves the whole call as the first application
left it. -/
theorem UpdateStatus_frozen_after_end (c : Call) (s : CallStatus)
    (now : time.Time) (hEnd : c.EndedAt ≠ none) (hs : s ∈ knownStatuses) :
    (UpdateStatus c s now).2 = none ∧
      (UpdateStatus c s now).1.Status = s ∧
      (UpdateStatus c s now).1.EndedAt = c.EndedAt ∧
      (UpdateStatus c s now).1.Duration = c.Duration ∧
      (s ∈ terminalStatuses → (UpdateStatus c s now).1.StartedAt = c.StartedAt) ∧
      (s ∈ terminalStatuses → ∀ later : time.Time,
        UpdateStatus (UpdateStatus c s now).1 s later
          = ((UpdateStatus c s now).1, none)) := by
  have hv := (validStatuses_iff s).mpr hs
  have hStatus : (UpdateStatus c s now).1.Status = s := by
    rw [UpdateStatus_valid c s now hv]
  refine ⟨UpdateStatus_err_none c s now hv, hStatus, ?_, ?_, fun ht => ?_, fun ht later => ?_⟩
  · rw [UpdateStatus_valid c s now hv]
    simp [hEnd]
  · rw [UpdateStatus_valid c s now hv]
    simp [hEnd]
  · exact UpdateStatus_keeps_StartedAt c s now (terminal_ne_inProgress ht)
  · have h := UpdateStatus_same_terminal (UpdateStatus c s now).1 later
      (by rw [hStatus]; exact ht) (UpdateStatus_terminal_EndedAt c s now ht)
    rw [hStatus] at h
    exact h

/-- C5 for `failed` arriving after `completed`: the status becomes `failed`, the
end, the duration and the start are those of the completed call. -/
theorem UpdateStatus_frozen_after_end_witness :
    sampleCompleted.EndedAt ≠ none ∧ CallStatusFailed ∈ knownStatuses ∧
      (UpdateStatus sampleCompleted CallStatusFailed 9000000000).2 = none ∧
      (UpdateStatus sampleCompleted CallStatusFailed 9000000000).1.Status
        = CallStatusFailed ∧
      (UpdateStatus sampleCompleted CallStatusFailed 9000000000).1.EndedAt
        = some 3500000000 ∧
      (UpdateStatus sampleCompleted CallStatusFailed 9000000000).1.Duration = 2 ∧
      (UpdateStatus sampleCompleted CallStatusFailed 9000000000).1.StartedAt
        = some 1000000000 := by
  have h := UpdateStatus_frozen_after_end sampleCompleted CallStatusFailed
    9000000000 (by decide) (by decide)
  exact ⟨by decide, by decide, h.1, h.2.1, h.2.2.1, h.2.2.2.1,
    h.2.2.2.2.1 (by decide)⟩

/-- C6, as stated, fails: the call in progress since `1s` that is completed
`16777216.999999999` seconds later gets a `Duration` of `16777217`, while
`EndedAt - StartedAt` in whole seconds, the fraction dropped, is `16777216`:
the `float64` sum of `Duration.Seconds` rounds up to the next second. -/
theorem UpdateStatus_terminal_Duration_counterexample :
    sampleInProgress.EndedAt = none ∧ CallStatusCompleted ∈ terminalStatuses ∧
      sampleInProgress.StartedAt = some 1000000000 ∧
      (UpdateStatus sampleInProgress CallStatusCompleted 16777217999999999).2 = none ∧
      (UpdateStatus sampleInProgress CallStatusCompleted 16777217999999999).1.EndedAt
        = some 16777217999999999 ∧
      (UpdateStatus sampleInProgress CallStatusCompleted 16777217999999999).1.Duration
        = 16777217 ∧
      time.Sub 16777217999999999 1000000000 = 16777216999999999 ∧
      Int.tdiv (16777217999999999 - 1000000000) 1000000000 = 16777216 ∧
      (UpdateStatus sampleInProgress CallStatusCompleted 16777217999999999).1.Duration
        ≠ Int.tdiv (16777217999999999 - 1000000000) 1000000000 := by
  set_option maxRecDepth 100000 in decide

/-- C6, amended: on a call whose `EndedAt` is unset, `UpdateStatus` with a
terminal status succeeds and stores the clock reading in `EndedAt`; when
`StartedAt` holds a time, `Duration` becomes `int(EndedAt.Sub(StartedAt).Seconds())`
computed in `float64`, which is the number of whole seconds of
`EndedAt - StartedAt`, the fraction dropped, whenever the two instants are less
than `2 ^ 24` seconds apart, and otherwise that number of whole seconds (of the
saturating `Sub`) or the next one away from zero; when `StartedAt` is unset,
`Duration` is kept. -/
theorem UpdateStatus_terminal_sets_end (c : Call) (s : CallStatus)
    (now : time.Time) (hEnd : c.EndedAt = none) (hs : s ∈ terminalStatuses) :
    (UpdateStatus c s now).2 = none ∧
      (UpdateStatus c s now).1.EndedAt = some now ∧
      (∀ startedAt, c.StartedAt = some startedAt →
        (UpdateStatus c s now).1.Duration
            = float64.toInt (time.Seconds (time.Sub now startedAt)) ∧
          (-16777216000000000 < now - startedAt → now - startedAt < 16777216000000000 →
            (UpdateStatus c s now).1.Duration
              = Int.tdiv (now - startedAt) 1000000000) ∧
          (startedAt ≤ now →
            Int.tdiv (time.Sub now startedAt) 1000000000
                ≤ (UpdateStatus c s now).1.Duration ∧
              (UpdateStatus c s now).1.Duration
                ≤ Int.tdiv (time.Sub now startedAt) 1000000000 + 1) ∧
          (now ≤ startedAt →
            Int.tdiv (time.Sub now startedAt) 1000000000 - 1
                ≤ (UpdateStatus c s now).1.Duration ∧
              (UpdateStatus c s now).1.Duration
                ≤ Int.tdiv (time.Sub now startedAt) 1000000000)) ∧
      (c.StartedAt = none → (UpdateStatus c s now).1.Duration = c.Duration) := by
  have hv := (validStatuses_iff s).mpr (terminal_known hs)
  have ht := (isTerminalStatus_iff s).mpr hs
  have hD : ∀ startedAt, c.StartedAt = some startedAt →
      (UpdateStatus c s now).1.Duration = durationSeconds now startedAt := by
    intro startedAt hS
    rw [UpdateStatus_valid c s now hv]
    simp only [ht, hEnd, hS, and_self, if_true]
  refine ⟨UpdateStatus_err_none c s now hv, ?_,
    fun startedAt hS => ⟨hD startedAt hS, ?_, ?_, ?_⟩, ?_⟩
  · rw [UpdateStatus_valid c s now hv]
    simp [ht, hEnd]
  · intro hlo hhi
    rw [hD startedAt hS]
    exact durationSeconds_exact now startedAt hlo hhi
  · intro hle
    rw [hD startedAt hS]
    exact durationSeconds_of_le now startedAt hle
  · intro hle
    rw [hD startedAt hS]
    exact durationSeconds_of_ge now startedAt hle
  · intro hS
    rw [UpdateStatus_valid c s now hv]
    simp [ht, hEnd, hS]

/-- C6 amended, on a call started at `1s` and completed at `3.5s`: the duration
is `2`. -/
theorem UpdateStatus_terminal_sets_end_witness :
    sampleInProgress.EndedAt = none ∧ CallStatusCompleted ∈ terminalStatuses ∧
      (UpdateStatus sampleInProgress CallStatusCompleted 3500000000).1.EndedAt
        = some 3500000000 ∧
      (UpdateStatus sampleInProgress CallStatusCompleted 3500000000).1.Duration = 2 := by
  have h := UpdateStatus_terminal_sets_end sampleInProgress CallStatusCompleted
    3500000000 rfl (by decide)
  refine ⟨rfl, by decide, h.2.1, ?_⟩
  rw [((h.2.2.1 1000000000 rfl).2.1 (by decide) (by decide))]
  decide

/-- C2, as stated, fails: a fresh call that receives `completed` and then
`in_progress` (the order of two webhooks delivered out of order) ends with
`EndedAt` set and the non-terminal status `in_progress`. -/
theorem reachable_EndedAt_nonterminal_counterexample :
    ∃ c0 c : Call,
      NewCall "biz-1" "+15551234567" 0 = .ok c0 ∧
      applyUpdates c0 [(CallStatusCompleted, 1000000000),
        (CallStatusInProgress, 2000000000)] = some c ∧
      c.EndedAt = some 1000000000 ∧ c.EndedAt ≠ none ∧
      c.Status = CallStatusInProgress ∧ c.Status ∉ terminalStatuses :=
  ⟨_, _, rfl, rfl, rfl, by decide, rfl, by decide⟩

/-- C2, amended: on a call reached from `NewCall` by successful `UpdateStatus`
calls, a set `EndedAt` implies that one of the statuses applied by the run was
terminal (the current status is the last one applied and may be any known
status). -/
theorem reachable_EndedAt_implies_terminal_applied (b p : String)
    (now0 : time.Time) (c0 c : Call) (steps : List (CallStatus × time.Time))
    (h0 : NewCall b p now0 = .ok c0) (hrun : applyUpdates c0 steps = some c)
    (hEnd : c.EndedAt ≠ none) :
    ∃ st ∈ steps, st.1 ∈ terminalStatuses := by
  rcases (applyUpdates_EndedAt_iff steps c0 c hrun).mp hEnd with h | h
  · exact absurd (NewCall_ok h0).2.2.1 h
  · exact h

/-- C2 amended, on the run `completed`, `in_progress`: the end is set and the
first status of the run is terminal. -/
theorem reachable_EndedAt_implies_terminal_applied_witness :
    ∃ c0 c : Call,
      NewCall "biz-1" "+15551234567" 0 = .ok c0 ∧
      applyUpdates c0 [(CallStatusCompleted, 1000000000),
        (CallStatusInProgress, 2000000000)] = some c ∧
      c.EndedAt ≠ none ∧
      ∃ st ∈ [(CallStatusCompleted, (1000000000 : time.Time)),
          (CallStatusInProgress, 2000000000)],
        st.1 ∈ terminalStatuses :=
  ⟨_, _, rfl, rfl, by decide,
    reachable_EndedAt_implies_terminal_applied "biz-1" "+15551234567" 0 _ _
      [(CallStatusCompleted, 1000000000), (CallStatusInProgress, 2000000000)]
      rfl rfl (by decide)⟩

/-- C3: on a call reached from `NewCall` by successful `UpdateStatus` calls, a
terminal status implies that `EndedAt` is set. -/
theorem reachable_terminal_implies_EndedAt (b p : String) (now0 : time.Time)
    (c0 c : Call) (steps : List (CallStatus × time.Time))
    (h0 : NewCall b p now0 = .ok c0) (hrun : applyUpdates c0 steps = some c)
    (hterm : c.Status ∈ terminalStatuses) :
    c.EndedAt ≠ none := by
  have hinv := applyUpdates_preserves
    (fun c => c.Status ∈ terminalStatuses → c.EndedAt ≠ none)
    (fun c s now _ hv => by
      rw [UpdateStatus_valid c s now hv]
      intro ht
      have ht' := (isTerminalStatus_iff s).mpr ht
      by_cases he : c.EndedAt = none <;> simp [ht', he])
    steps c0 c
    (fun ht => by
      rw [(NewCall_ok h0).1] at ht
      exact absurd ht (by decide))
    hrun
  exact hinv hterm

/-- C3 on the run `in_progress`, `completed` of the unit test. -/
theorem reachable_terminal_implies_EndedAt_witness :
    ∃ c0 c : Call,
      NewCall "business-123" "+1234567890" 0 = .ok c0 ∧
      applyUpdates c0 [(CallStatusInProgress, 1000000000),
        (CallStatusCompleted, 3500000000)] = some c ∧
      c.Status ∈ terminalStatuses ∧ c.EndedAt ≠ none :=
  ⟨_, _, rfl, rfl, by decide,
    reachable_terminal_implies_EndedAt "business-123" "+1234567890" 0 _ _
      [(CallStatusInProgress, 1000000000), (CallStatusCompleted, 3500000000)]
      rfl rfl (by decide)⟩

/-- C4, as stated, fails: on a clock that never goes back, a fresh call that
receives `completed` at `1s` and `in_progress` at `6s` has both timestamps set
and `Duration = 0`, while `EndedAt - StartedAt` is `-5` whole seconds. -/
theorem reachable_Duration_counterexample :
    ∃ c0 c : Call,
      NewCall "biz-1" "+15551234567" 0 = .ok c0 ∧
      clockNonDecreasing 0 [(CallStatusCompleted, 1000000000),
        (CallStatusInProgress, 6000000000)] ∧
      applyUpdates c0 [(CallStatusCompleted, 1000000000),
        (CallStatusInProgress, 6000000000)] = some c ∧
      c.StartedAt = some 6000000000 ∧ c.EndedAt = some 1000000000 ∧
      c.Duration = 0 ∧
      Int.tdiv (time.Sub 1000000000 6000000000) 1000000000 = -5 ∧
      c.Duration ≠ Int.tdiv (time.Sub 1000000000 6000000000) 1000000000 :=
  ⟨_, _, rfl, by decide, rfl, rfl, rfl, rfl, by decide, by decide⟩

/-- A call that lasts `16777216.999999999` seconds, on a clock that never goes
back: the stored `Duration` is `16777217`, one more than the whole seconds
between the two timestamps. -/
theorem reachable_Duration_rounds_up :
    ∃ c0 c : Call,
      NewCall "biz-1" "+15551234567" 0 = .ok c0 ∧
      clockNonDecreasing 0 [(CallStatusInProgress, 1000000000),
        (CallStatusCompleted, 16777217999999999)] ∧
      applyUpdates c0 [(CallStatusInProgress, 1000000000),
        (CallStatusCompleted, 16777217999999999)] = some c ∧
      c.StartedAt = some 1000000000 ∧ c.EndedAt = some 16777217999999999 ∧
      c.Duration = 16777217 ∧
      Int.tdiv (16777217999999999 - 1000000000) 1000000000 = 16777216 := by
  refine ⟨{ sampleInitiated with ID := "", ProviderCallID := "" }, _, rfl, by decide,
    rfl, rfl, rfl, ?_, by decide⟩
  set_option maxRecDepth 100000 in decide

/-- C4, amended: on a call reached from `NewCall` by successful `UpdateStatus`
calls under a clock that never goes back, whenever both `StartedAt` and
`EndedAt` are set and `StartedAt` is not later than `EndedAt`, `Duration` is
`int(EndedAt.Sub(StartedAt).Seconds())` computed in `float64`: the whole
seconds of `EndedAt - StartedAt` when the two are less than `2 ^ 24` seconds
apart, and otherwise the whole seconds of the saturating `Sub` or one more;
when `StartedAt` is later than `EndedAt` (the terminal status came first),
`Duration` is `0`. -/
theorem reachable_Duration_of_start_le_end (b p : String) (now0 : time.Time)
    (c0 c : Call) (steps : List (CallStatus × time.Time))
    (startedAt endedAt : time.Time)
    (h0 : NewCall b p now0 = .ok c0) (hclock : clockNonDecreasing now0 steps)
    (hrun : applyUpdates c0 steps = some c)
    (hS : c.StartedAt = some startedAt) (hE : c.EndedAt = some endedAt) :
    (startedAt ≤ endedAt →
        c.Duration = float64.toInt (time.Seconds (time.Sub endedAt startedAt))) ∧
      (startedAt ≤ endedAt → endedAt - startedAt < 16777216000000000 →
        c.Duration = Int.tdiv (endedAt - startedAt) 1000000000) ∧
      (startedAt ≤ endedAt →
        Int.tdiv (time.Sub endedAt startedAt) 1000000000 ≤ c.Duration ∧
          c.Duration ≤ Int.tdiv (time.Sub endedAt startedAt) 1000000000 + 1) ∧
      (endedAt < startedAt → c.Duration = 0) := by
  obtain ⟨t, _, _, _, h4, h5⟩ := applyUpdates_preserves_clock durationInv
    durationInv_step steps now0 c0 c (durationInv_NewCall h0) hclock hrun
  have hD : startedAt ≤ endedAt → c.Duration = durationSeconds endedAt startedAt :=
    fun hle => h4 startedAt endedAt hS hE hle
  refine ⟨hD, fun hle hfit => ?_, fun hle => ?_,
    fun hlt => h5 startedAt endedAt hS hE hlt⟩
  · rw [hD hle]
    exact durationSeconds_exact endedAt startedAt
      (lt_of_lt_of_le (by decide) (sub_nonneg.mpr hle)) hfit
  · rw [hD hle]
    exact durationSeconds_of_le endedAt startedAt hle

/-- C4 amended, on the run `in_progress` at `1s`, `completed` at `3.5s`, `failed`
at `9s`: the duration is `2`. -/
theorem reachable_Duration_of_start_le_end_witness :
    ∃ c0 c : Call,
      NewCall "biz-1" "+15551234567" 0 = .ok c0 ∧
      clockNonDecreasing 0 [(CallStatusInProgress, 1000000000),
        (CallStatusCompleted, 3500000000), (CallStatusFailed, 9000000000)] ∧
      applyUpdates c0 [(CallStatusInProgress, 1000000000),
        (CallStatusCompleted, 3500000000), (CallStatusFailed, 9000000000)] = some c ∧
      c.StartedAt = some 1000000000 ∧ c.EndedAt = some 3500000000 ∧
      c.Duration = Int.tdiv (3500000000 - 1000000000) 1000000000 ∧
      Int.tdiv (3500000000 - 1000000000) 1000000000 = 2 ∧ c.Duration = 2 := by
  have hnew : NewCall "biz-1" "+15551234567" 0
      = .ok { sampleInitiated with ID := "", ProviderCallID := "" } := rfl
  have hrun : applyUpdates { sampleInitiated with ID := "", ProviderCallID := "" }
      [(CallStatusInProgress, 1000000000), (CallStatusCompleted, 3500000000),
        (CallStatusFailed, 9000000000)]
      = some { sampleInitiated with
          ID := "", ProviderCallID := "", Status := CallStatusFailed,
          StartedAt := some 1000000000, EndedAt := some 3500000000,
          Duration := durationSeconds 3500000000 1000000000 } := rfl
  have h := (reachable_Duration_of_start_le_end "biz-1" "+15551234567" 0 _ _ _
    1000000000 3500000000 hnew (by decide) hrun rfl rfl).2.1 (by decide) (by decide)
  exact ⟨_, _, hnew, by decide, hrun, rfl, rfl, h, by decide, h.trans (by decide)⟩

end entities

/-- A bitwise or is zero only when both operands are. -/
theorem Nat_or_eq_zero {a b : Nat} : a ||| b = 0 ↔ a = 0 ∧ b = 0 := by
  constructor
  · intro h
    have hbit : ∀ i, (a.testBit i || b.testBit i) = false := by
      intro i
      rw [← Nat.testBit_or, h, Nat.zero_testBit]
    constructor
    · apply Nat.eq_of_testBit_eq
      intro i
      have := hbit i
      rw [Nat.zero_testBit]
      cases ha : a.testBit i
      · rfl
      · rw [ha] at this
        simp at this
    · apply Nat.eq_of_testBit_eq
      intro i
      have := hbit i
      rw [Nat.zero_testBit]
      cases hb : b.testBit i
      · rfl
      · rw [hb] at this
        simp at this
  · rintro ⟨rfl, rfl⟩
    rfl

namespace hmac

theorem ConstantTimeByteEq_zero (v : Nat) (hv : v < 256) :
    ConstantTimeByteEq v 0 = 1 ↔ v = 0 := by
  unfold ConstantTimeByteEq
  rw [Nat.xor_zero, Nat.shiftRight_eq_div_pow]
  constructor
  · intro h
    by_contra hne
    have h1 : (v + 4294967296 - 1) % 4294967296 = v - 1 := by omega
    rw [h1] at h
    have h2 : (v - 1) / 2 ^ 31 = 0 := by
      apply Nat.div_eq_of_lt
      have : (2:Nat) ^ 31 = 2147483648 := by norm_num
      omega
    omega
  · rintro rfl
    decide

theorem xorFold_eq_zero : ∀ (x y : List UInt8) (v : Nat), x.length = y.length →
    (xorFold v x y = 0 ↔ v = 0 ∧ x = y)
  | [], [], v, _ => by simp [xorFold]
  | [], _ :: _, _, h => by simp at h
  | _ :: _, [], _, h => by simp at h
  | a :: x, b :: y, v, h => by
    have hl : x.length = y.length := by simpa using h
    rw [xorFold, xorFold_eq_zero x y _ hl, Nat_or_eq_zero, Nat.xor_eq_zero]
    constructor
    · rintro ⟨⟨hv, hab⟩, hxy⟩
      exact ⟨hv, by rw [UInt8.ext hab, hxy]⟩
    · rintro ⟨hv, hxy⟩
      cases hxy
      exact ⟨⟨hv, rfl⟩, rfl⟩

theorem xorFold_lt : ∀ (x y : List UInt8) (v : Nat), v < 256 → xorFold v x y < 256
  | [], [], v, h => by simpa [xorFold] using h
  | [], _ :: _, v, h => by simpa [xorFold] using h
  | _ :: _, [], v, h => by simpa [xorFold] using h
  | a :: x, b :: y, v, h => by
    rw [xorFold]
    apply xorFold_lt
    have ha : a.toNat < 2 ^ 8 := UInt8.toNat_lt a
    have hb : b.toNat < 2 ^ 8 := UInt8.toNat_lt b
    exact Nat.or_lt_two_pow (n := 8) h (Nat.xor_lt_two_pow ha hb)

/-- The comparison `hmac.Equal` holds exactly for equal byte sequences. -/
theorem Equal_iff (mac1 mac2 : List UInt8) : Equal mac1 mac2 = true ↔ mac1 = mac2 := by
  unfold Equal ConstantTimeCompare
  by_cases hl : mac1.length = mac2.length
  · simp only [hl, ne_eq, not_true_eq_false, if_false, beq_iff_eq]
    rw [ConstantTimeByteEq_zero _ (xorFold_lt mac1 mac2 0 (by decide)),
      xorFold_eq_zero mac1 mac2 0 hl]
    simp
  · simp only [ne_eq, hl, not_false_eq_true, if_true]
    constructor
    · intro h
      exact absurd h (by decide)
    · intro h
      exact absurd (congrArg List.length h) hl

end hmac

namespace sha256

theorem bigEndian_length : ∀ (n x : Nat), (bigEndian n x).length = n
  | 0, _ => rfl
  | n + 1, x => by rw [bigEndian, List.length_cons, bigEndian_length n x]

theorem compress_length (hs block : List Nat) (h : hs.length = 8) :
    (compress hs block).length = 8 := by
  simp [compress, List.length_zipWith, h]

theorem blocks_length : ∀ (n : Nat) (hs ws : List Nat), hs.length = 8 →
    (blocks n hs ws).length = 8
  | 0, _, _, h => h
  | n + 1, hs, ws, h => by
    rw [blocks]
    split_ifs
    · exact h
    · exact blocks_length n _ _ (compress_length hs _ h)

theorem flatten_bigEndian_length : ∀ (hs : List Nat),
    ((hs.map (bigEndian 4)).flatten).length = 4 * hs.length
  | [] => rfl
  | x :: hs => by
    rw [List.map_cons, List.flatten_cons, List.length_append, bigEndian_length,
      flatten_bigEndian_length hs, List.length_cons]
    ring

/-- A digest has `Size` bytes. -/
theorem Sum256_length (msg : List UInt8) : (Sum256 msg).length = 32 := by
  unfold Sum256
  simp only []
  rw [flatten_bigEndian_length, blocks_length _ init _ (by decide)]

end sha256

namespace sha256

/-- The digest of `abc`, first example of FIPS 180-4 for SHA-256. -/
theorem Sum256_abc :
    hex.EncodeToString (Sum256 (asciiBytes "abc")) =
      asciiBytes "ba7816bf8f01cfea414140de5dae2223b00361a396177a9cb410ff61f20015ad" := by
  set_option maxRecDepth 100000 in decide

/-- The digest of a message of 56 bytes, which pads to two blocks. -/
theorem Sum256_two_blocks :
    hex.EncodeToString
        (Sum256 (asciiBytes "abcdbcdecdefdefgefghfghighijhijkijkljklmklmnlmnomnopnopq")) =
      asciiBytes "248d6a61d20638b8e5c026930c3e6039a33ce45964ff2167f6ecedd419db06c1" := by
  set_option maxRecDepth 100000 in decide

end sha256

namespace hmac

/-- The first test case of RFC 4231: a key of twenty bytes `0x0b`. -/
theorem SumSHA256_rfc4231_case1 :
    hex.EncodeToString (SumSHA256 (List.replicate 20 0x0b) (asciiBytes "Hi There")) =
      asciiBytes "b0344c61d8db38535ca8afceaf0bf12b881dc200c9833da726e9376c2e32cff7" := by
  set_option maxRecDepth 100000 in decide

/-- The sixth test case of RFC 4231: a key of 131 bytes, longer than a block and
so hashed first. -/
theorem SumSHA256_rfc4231_case6 :
    hex.EncodeToString (SumSHA256 (List.replicate 131 0xaa)
        (asciiBytes "Test Using Larger Than Block-Size Key - Hash Key First")) =
      asciiBytes "60e431591ee0b67f0d8a26aacbf5b77f8e0bc6213728c5140546040f0ee37f54" := by
  set_option maxRecDepth 100000 in decide

end hmac

namespace hex

theorem EncodeToString_length : ∀ (bs : List UInt8),
    (EncodeToString bs).length = 2 * bs.length
  | [] => rfl
  | b :: bs => by
    rw [EncodeToString, List.length_cons, List.length_cons, EncodeToString_length bs,
      List.length_cons]
    ring

theorem hextable_getD_mem (i : Nat) (h : i < 16) : hextable.getD i 0 ∈ hextable := by
  interval_cases i <;> decide

/-- Every byte of an encoding is one of the digits `0`-`9`, `a`-`f`. -/
theorem EncodeToString_digits : ∀ (bs : List UInt8),
    ∀ d ∈ EncodeToString bs, d ∈ hextable
  | [], d, hd => by simp [EncodeToString] at hd
  | b :: bs, d, hd => by
    rw [EncodeToString, List.mem_cons, List.mem_cons] at hd
    have hb : b.toNat < 256 := UInt8.toNat_lt b
    rcases hd with hd | hd | hd
    · rw [hd]
      apply hextable_getD_mem
      rw [Nat.shiftRight_eq_div_pow]
      have : (2 : Nat) ^ 4 = 16 := by norm_num
      omega
    · rw [hd]
      apply hextable_getD_mem
      have h15 : b.toNat &&& 15 = b.toNat % 16 := Nat.and_pow_two_sub_one_eq_mod b.toNat 4
      rw [h15]
      exact Nat.mod_lt _ (by decide)
    · exact EncodeToString_digits bs d hd

end hex

namespace vapi

/-- C9: with no webhook secret configured (the empty string),
`ValidateWebhookSignature` returns true for every payload and signature. -/
theorem ValidateWebhookSignature_no_secret (v : VapiProvider)
    (payload signature : List UInt8) (h : v.webhookSecret = []) :
    ValidateWebhookSignature v payload signature = true := by
  unfold ValidateWebhookSignature
  rw [if_pos h]

/-- C9 on a provider built with an empty secret: a payload with an arbitrary
signature passes. -/
theorem ValidateWebhookSignature_no_secret_witness :
    unsecuredProvider.webhookSecret = [] ∧
      ValidateWebhookSignature unsecuredProvider (asciiBytes "type=call.ended callId=v-99")
        (asciiBytes "not-a-signature") = true :=
  ⟨rfl, ValidateWebhookSignature_no_secret unsecuredProvider _ _ rfl⟩

/-- C10: with a non-empty secret, `ValidateWebhookSignature` is true exactly
when the signature is the hexadecimal encoding, in the digits `0`-`9` and
`a`-`f`, of the HMAC-SHA256 of the payload bytes under the secret; that
encoding has 64 digits, and presented with its payload it is accepted. -/
theorem ValidateWebhookSignature_iff_hex_hmac (v : VapiProvider)
    (payload signature : List UInt8) (h : v.webhookSecret ≠ []) :
    (ValidateWebhookSignature v payload signature = true ↔
        signature = hex.EncodeToString (hmac.SumSHA256 v.webhookSecret payload)) ∧
      ValidateWebhookSignature v payload
        (hex.EncodeToString (hmac.SumSHA256 v.webhookSecret payload)) = true ∧
      (hex.EncodeToString (hmac.SumSHA256 v.webhookSecret payload)).length = 64 ∧
      (∀ d ∈ hex.EncodeToString (hmac.SumSHA256 v.webhookSecret payload),
        d ∈ hex.hextable) := by
  have hiff : ∀ s, ValidateWebhookSignature v payload s = true ↔
      s = hex.EncodeToString (hmac.SumSHA256 v.webhookSecret payload) := by
    intro s
    unfold ValidateWebhookSignature
    rw [if_neg h]
    exact hmac.Equal_iff _ _
  refine ⟨hiff signature, (hiff _).mpr rfl, ?_, hex.EncodeToString_digits _⟩
  rw [hex.EncodeToString_length]
  unfold hmac.SumSHA256
  simp only []
  rw [sha256.Sum256_length]

/-- C10 on the second test case of RFC 4231 (key `Jefe`): the published MAC in
lower-case digits is accepted, the same MAC in upper-case digits is not. -/
theorem ValidateWebhookSignature_iff_hex_hmac_witness :
    sampleProvider.webhookSecret ≠ [] ∧
      ValidateWebhookSignature sampleProvider (asciiBytes "what do ya want for nothing?")
        (asciiBytes "5bdcc146bf60754e6a042426089575c75a003f089d2739839dec58b964ec3843")
          = true ∧
      ValidateWebhookSignature sampleProvider (asciiBytes "what do ya want for nothing?")
        (asciiBytes "5BDCC146BF60754E6A042426089575C75A003F089D2739839DEC58B964EC3843")
          ≠ true := by
  have hne : sampleProvider.webhookSecret ≠ [] := by decide
  refine ⟨hne, ?_, ?_⟩
  · apply (ValidateWebhookSignature_iff_hex_hmac sampleProvider _ _ hne).1.mpr
    set_option maxRecDepth 100000 in decide
  · intro hacc
    have heq := (ValidateWebhookSignature_iff_hex_hmac sampleProvider _ _ hne).1.mp hacc
    revert heq
    set_option maxRecDepth 100000 in decide

end vapi

namespace database

open errors entities

theorem CallRepositoryImpl_GetByID_missing (uuid : Nat → String) (db : DB)
    (id : String) (h : ∀ row ∈ db.calls, row.ID ≠ id) :
    (CallRepositoryImpl uuid).GetByID db id
      = (db, .error (.domain (NewNotFoundError "call" id))) := by
  have hnone : db.calls.find? (fun row => row.ID == id) = none := by
    rw [List.find?_eq_none]
    intro row hrow
    simpa using h row hrow
  simp only [CallRepositoryImpl, hnone]

theorem CallRepositoryImpl_GetByID_found (uuid : Nat → String) (db : DB)
    (id : String) (row : Call)
    (h : db.calls.find? (fun row => row.ID == id) = some row) :
    (CallRepositoryImpl uuid).GetByID db id = (db, .ok row) := by
  simp only [CallRepositoryImpl, h]

end database

namespace services

open errors entities

theorem GetCall_error {σ π : Type} (s : CallService σ π) (w : World σ π)
    (businessID callID : String) (err : Error)
    (h : (s.callRepo.GetByID w.store callID).2 = .error err) :
    s.GetCall w businessID callID
      = ({ w with store := (s.callRepo.GetByID w.store callID).1,
                  ops := w.ops ++ [Op.callGetByID callID] }, .error err) := by
  simp only [CallService.GetCall, h]

theorem GetCall_found {σ π : Type} (s : CallService σ π) (w : World σ π)
    (businessID callID : String) (call : Call)
    (h : (s.callRepo.GetByID w.store callID).2 = .ok call) :
    s.GetCall w businessID callID
      = ({ w with store := (s.callRepo.GetByID w.store callID).1,
                  ops := w.ops ++ [Op.callGetByID callID] },
          if call.BusinessID ≠ businessID then
            .error (.domain (NewForbiddenError "access denied to this call"))
          else .ok (mapCallToResponse call)) := by
  simp only [CallService.GetCall, h]
  split_ifs <;> rfl

theorem GetTranscript_error {σ π : Type} (s : CallService σ π) (w : World σ π)
    (businessID callID : String) (err : Error)
    (h : (s.callRepo.GetByID w.store callID).2 = .error err) :
    s.GetTranscript w businessID callID
      = ({ w with store := (s.callRepo.GetByID w.store callID).1,
                  ops := w.ops ++ [Op.callGetByID callID] }, .error err) := by
  simp only [CallService.GetTranscript, h]

theorem GetTranscript_forbidden {σ π : Type} (s : CallService σ π) (w : World σ π)
    (businessID callID : String) (call : Call)
    (h : (s.callRepo.GetByID w.store callID).2 = .ok call)
    (hother : call.BusinessID ≠ businessID) :
    s.GetTranscript w businessID callID
      = ({ w with store := (s.callRepo.GetByID w.store callID).1,
                  ops := w.ops ++ [Op.callGetByID callID] },
          .error (.domain (NewForbiddenError "access denied to this call"))) := by
  simp only [CallService.GetTranscript, h, hother, ne_eq, not_false_eq_true, if_true]

theorem GetCallInteractions_error {σ : Type} (s : InteractionService σ)
    (w : World σ Unit) (businessID callID : String) (err : Error)
    (h : (s.callRepo.GetByID w.store callID).2 = .error err) :
    s.GetCallInteractions w businessID callID
      = ({ w with store := (s.callRepo.GetByID w.store callID).1,
                  ops := w.ops ++ [Op.callGetByID callID] }, .error err) := by
  simp only [InteractionService.GetCallInteractions, h]

theorem GetCallInteractions_forbidden {σ : Type} (s : InteractionService σ)
    (w : World σ Unit) (businessID callID : String) (call : Call)
    (h : (s.callRepo.GetByID w.store callID).2 = .ok call)
    (hother : call.BusinessID ≠ businessID) :
    s.GetCallInteractions w businessID callID
      = ({ w with store := (s.callRepo.GetByID w.store callID).1,
                  ops := w.ops ++ [Op.callGetByID callID] },
          .error (.domain (NewForbiddenError "access denied to this call"))) := by
  simp only [InteractionService.GetCallInteractions, h, hother, ne_eq,
    not_false_eq_true, if_true]

theorem UpdateAppointmentStatus_error {σ : Type} (s : InteractionService σ)
    (w : World σ Unit) (businessID appointmentID : String)
    (req : dto.UpdateAppointmentRequest) (now : time.Time) (err : Error)
    (h : (s.appointmentRepo.GetByID w.store appointmentID).2 = .error err) :
    s.UpdateAppointmentStatus w businessID appointmentID req now
      = ({ w with store := (s.appointmentRepo.GetByID w.store appointmentID).1,
                  ops := w.ops ++ [Op.appointmentGetByID appointmentID] },
          .error err) := by
  simp only [InteractionService.UpdateAppointmentStatus, h]

theorem UpdateAppointmentStatus_forbidden {σ : Type} (s : InteractionService σ)
    (w : World σ Unit) (businessID appointmentID : String)
    (req : dto.UpdateAppointmentRequest) (now : time.Time)
    (apt : AppointmentRequest)
    (h : (s.appointmentRepo.GetByID w.store appointmentID).2 = .ok apt)
    (hother : apt.BusinessID ≠ businessID) :
    s.UpdateAppointmentStatus w businessID appointmentID req now
      = ({ w with store := (s.appointmentRepo.GetByID w.store appointmentID).1,
                  ops := w.ops ++ [Op.appointmentGetByID appointmentID] },
          .error (.domain (NewForbiddenError "access denied to this appointment"))) := by
  simp only [InteractionService.UpdateAppointmentStatus, h, hother, ne_eq,
    not_false_eq_true, if_true]

theorem InitiateCall_empty_phone {σ π : Type} (s : CallService σ π) (w : World σ π)
    (businessID : String) (req : dto.InitiateCallRequest) (now nowFailed : time.Time)
    (hp : req.PhoneNumber = "") :
    s.InitiateCall w businessID req now nowFailed
      = (w, .error (.domain (NewValidationError "phone_number is required"))) := by
  simp only [CallService.InitiateCall, hp, if_true]

theorem InitiateCall_invalid_call {σ π : Type} (s : CallService σ π) (w : World σ π)
    (businessID : String) (req : dto.InitiateCallRequest) (now nowFailed : time.Time)
    (e : DomainError) (hp : req.PhoneNumber ≠ "")
    (hnew : NewCall businessID req.PhoneNumber now = .error e) :
    s.InitiateCall w businessID req now nowFailed = (w, .error (.domain e)) := by
  simp only [CallService.InitiateCall, hp, if_false, hnew]

theorem InitiateCall_create_fails {σ π : Type} (s : CallService σ π) (w : World σ π)
    (businessID : String) (req : dto.InitiateCallRequest) (now nowFailed : time.Time)
    (newCall : Call) (err : Error) (hp : req.PhoneNumber ≠ "")
    (hnew : NewCall businessID req.PhoneNumber now = .ok newCall)
    (hc : (s.callRepo.Create w.store newCall).2.2 = some err) :
    s.InitiateCall w businessID req now nowFailed
      = ({ w with store := (s.callRepo.Create w.store newCall).1,
                  ops := w.ops ++ [Op.callCreate newCall] }, .error err) := by
  simp only [CallService.InitiateCall, hp, if_false, hnew, hc]

theorem InitiateCall_provider_fails {σ π : Type} (s : CallService σ π) (w : World σ π)
    (businessID : String) (req : dto.InitiateCallRequest) (now nowFailed : time.Time)
    (newCall : Call) (err : Error) (hp : req.PhoneNumber ≠ "")
    (hnew : NewCall businessID req.PhoneNumber now = .ok newCall)
    (hc : (s.callRepo.Create w.store newCall).2.2 = none)
    (hprov : (s.voiceProvider.InitiateCall w.provider
      (providerRequest businessID req (s.callRepo.Create w.store newCall).2.1)).2
        = .error err) :
    s.InitiateCall w businessID req now nowFailed
      = ({ store := (s.callRepo.Update (s.callRepo.Create w.store newCall).1
                      (UpdateStatus { newCall with ID := (s.callRepo.Create w.store newCall).2.1 }
                        CallStatusFailed nowFailed).1).1,
           provider := (s.voiceProvider.InitiateCall w.provider
             (providerRequest businessID req (s.callRepo.Create w.store newCall).2.1)).1,
           ops := w.ops ++ [Op.callCreate newCall] ++
             [Op.providerInitiateCall
               (providerRequest businessID req (s.callRepo.Create w.store newCall).2.1)] ++
             [Op.callUpdate
               (UpdateStatus { newCall with ID := (s.callRepo.Create w.store newCall).2.1 }
                 CallStatusFailed nowFailed).1] },
          .error err) := by
  simp only [CallService.InitiateCall, hp, if_false, hnew, hc, hprov]

theorem InitiateCall_success {σ π : Type} (s : CallService σ π) (w : World σ π)
    (businessID : String) (req : dto.InitiateCallRequest) (now nowFailed : time.Time)
    (newCall : Call) (session : providers.CallSession) (hp : req.PhoneNumber ≠ "")
    (hnew : NewCall businessID req.PhoneNumber now = .ok newCall)
    (hc : (s.callRepo.Create w.store newCall).2.2 = none)
    (hprov : (s.voiceProvider.InitiateCall w.provider
      (providerRequest businessID req (s.callRepo.Create w.store newCall).2.1)).2
        = .ok session) :
    s.InitiateCall w businessID req now nowFailed
      = ({ store := (s.callRepo.Update (s.callRepo.Create w.store newCall).1
                      (SetProviderCallID
                        { newCall with ID := (s.callRepo.Create w.store newCall).2.1 }
                        session.ID)).1,
           provider := (s.voiceProvider.InitiateCall w.provider
             (providerRequest businessID req (s.callRepo.Create w.store newCall).2.1)).1,
           ops := w.ops ++ [Op.callCreate newCall] ++
             [Op.providerInitiateCall
               (providerRequest businessID req (s.callRepo.Create w.store newCall).2.1)] ++
             [Op.callUpdate
               (SetProviderCallID
                 { newCall with ID := (s.callRepo.Create w.store newCall).2.1 }
                 session.ID)] },
          .ok (mapCallToResponse
            (SetProviderCallID
              { newCall with ID := (s.callRepo.Create w.store newCall).2.1 }
              session.ID))) := by
  simp only [CallService.InitiateCall, hp, if_false, hnew, hc, hprov]

/-- A failed status written by `UpdateStatus` on a call that has not ended. -/
theorem UpdateStatus_failed_fresh (c : Call) (now : time.Time)
    (hEnd : c.EndedAt = none) :
    (UpdateStatus c CallStatusFailed now).1.Status = CallStatusFailed ∧
      (UpdateStatus c CallStatusFailed now).1.EndedAt = some now ∧
      (UpdateStatus c CallStatusFailed now).1.ID = c.ID ∧
      (UpdateStatus c CallStatusFailed now).1.BusinessID = c.BusinessID ∧
      (UpdateStatus c CallStatusFailed now).1.CallerPhone = c.CallerPhone := by
  have hv : validStatuses CallStatusFailed = true := by decide
  have ht : isTerminalStatus CallStatusFailed = true := by decide
  rw [UpdateStatus_valid c _ now hv]
  simp [ht, hEnd]

theorem HandleWebhook_provider_error {σ π : Type} (s : CallService σ π)
    (w : World σ π) (payload signature : List UInt8) (now : time.Time) (err : Error)
    (hev : (s.voiceProvider.HandleWebhook w.provider payload signature).2 = .error err) :
    s.HandleWebhook w payload signature now
      = ({ w with provider := (s.voiceProvider.HandleWebhook w.provider payload signature).1,
                  ops := w.ops ++ [Op.providerHandleWebhook payload signature] },
          some err) := by
  simp only [CallService.HandleWebhook, hev]

theorem HandleWebhook_lookup_error {σ π : Type} (s : CallService σ π)
    (w : World σ π) (payload signature : List UInt8) (now : time.Time)
    (event : providers.CallEvent) (err : Error)
    (hev : (s.voiceProvider.HandleWebhook w.provider payload signature).2 = .ok event)
    (hfound : (s.callRepo.GetByProviderCallID w.store event.CallID).2 = .error err) :
    s.HandleWebhook w payload signature now
      = ({ store := (s.callRepo.GetByProviderCallID w.store event.CallID).1,
           provider := (s.voiceProvider.HandleWebhook w.provider payload signature).1,
           ops := w.ops ++ [Op.providerHandleWebhook payload signature] ++
             [Op.callGetByProviderCallID event.CallID] },
          some err) := by
  simp only [CallService.HandleWebhook, hev, hfound]

theorem HandleWebhook_found {σ π : Type} (s : CallService σ π)
    (w : World σ π) (payload signature : List UInt8) (now : time.Time)
    (event : providers.CallEvent) (call : Call)
    (hev : (s.voiceProvider.HandleWebhook w.provider payload signature).2 = .ok event)
    (hfound : (s.callRepo.GetByProviderCallID w.store event.CallID).2 = .ok call) :
    s.HandleWebhook w payload signature now
      = ({ store := (s.callRepo.Update (s.callRepo.GetByProviderCallID w.store event.CallID).1
                      (applyEvent call event now).1).1,
           provider := (s.voiceProvider.HandleWebhook w.provider payload signature).1,
           ops := w.ops ++ [Op.providerHandleWebhook payload signature] ++
             [Op.callGetByProviderCallID event.CallID] ++ (applyEvent call event now).2 ++
             [Op.callUpdate (applyEvent call event now).1] },
          (s.callRepo.Update (s.callRepo.GetByProviderCallID w.store event.CallID).1
            (applyEvent call event now).1).2) := by
  simp only [CallService.HandleWebhook, hev, hfound]

theorem UpdateStatus_known_Status (c : Call) (s : CallStatus) (now : time.Time)
    (hs : s ∈ knownStatuses) : (UpdateStatus c s now).1.Status = s := by
  rw [UpdateStatus_valid c s now ((validStatuses_iff s).mpr hs)]

/-- No field outside the status, the two timestamps and the duration is
written by `UpdateStatus`. -/
theorem UpdateStatus_frame (c : Call) (s : CallStatus) (now : time.Time) :
    (UpdateStatus c s now).1.ID = c.ID ∧
      (UpdateStatus c s now).1.BusinessID = c.BusinessID ∧
      (UpdateStatus c s now).1.ProviderCallID = c.ProviderCallID ∧
      (UpdateStatus c s now).1.CallerPhone = c.CallerPhone ∧
      (UpdateStatus c s now).1.Cost = c.Cost ∧
      (UpdateStatus c s now).1.CreatedAt = c.CreatedAt := by
  cases hv : validStatuses s
  · rw [UpdateStatus_invalid c s now hv]
    exact ⟨rfl, rfl, rfl, rfl, rfl, rfl⟩
  · rw [UpdateStatus_valid c s now hv]
    exact ⟨rfl, rfl, rfl, rfl, rfl, rfl⟩

theorem applyEvent_started (call : Call) (event : providers.CallEvent) (now : time.Time)
    (h : event.Type_ = "call.started") :
    applyEvent call event now = ((UpdateStatus call CallStatusInProgress now).1, []) := by
  unfold applyEvent
  rw [if_pos h]

theorem applyEvent_completed (call : Call) (event : providers.CallEvent) (now : time.Time)
    (h : event.Type_ = "call.ended" ∨ event.Type_ = "call.completed") :
    applyEvent call event now
      = ((UpdateStatus call CallStatusCompleted now).1,
          [Op.goFetchAndStoreTranscript call.ID event.CallID]) := by
  have hne : event.Type_ ≠ "call.started" := by
    rcases h with h | h <;> rw [h] <;> decide
  unfold applyEvent
  rw [if_neg hne, if_pos h]

theorem applyEvent_failed (call : Call) (event : providers.CallEvent) (now : time.Time)
    (h : event.Type_ = "call.failed") :
    applyEvent call event now = ((UpdateStatus call CallStatusFailed now).1, []) := by
  have h1 : event.Type_ ≠ "call.started" := by rw [h]; decide
  have h2 : ¬ (event.Type_ = "call.ended" ∨ event.Type_ = "call.completed") := by
    rw [h]; decide
  unfold applyEvent
  rw [if_neg h1, if_neg h2, if_pos h]

theorem applyEvent_other (call : Call) (event : providers.CallEvent) (now : time.Time)
    (h1 : event.Type_ ≠ "call.started") (h2 : event.Type_ ≠ "call.ended")
    (h3 : event.Type_ ≠ "call.completed") (h4 : event.Type_ ≠ "call.failed") :
    applyEvent call event now = (call, []) := by
  have h23 : ¬ (event.Type_ = "call.ended" ∨ event.Type_ = "call.completed") := by
    rintro (h | h)
    · exact h2 h
    · exact h3 h
  unfold applyEvent
  rw [if_neg h1, if_neg h23, if_neg h4]

end services

namespace database

open errors entities

theorem updateRow_of_eq (c row : Call) (h : row.ID = c.ID) :
    updateRow c row =
      { row with
        ProviderCallID := c.ProviderCallID
        CallerPhone := c.CallerPhone
        Duration := c.Duration
        Status := c.Status
        Cost := c.Cost
        StartedAt := c.StartedAt
        EndedAt := c.EndedAt } := by
  unfold updateRow
  rw [if_pos h]

theorem updateRow_of_ne (c row : Call) (h : row.ID ≠ c.ID) : updateRow c row = row := by
  unfold updateRow
  rw [if_neg h]

theorem updateRow_ID (c row : Call) : (updateRow c row).ID = row.ID := by
  by_cases h : row.ID = c.ID
  · rw [updateRow_of_eq c row h]
  · rw [updateRow_of_ne c row h]

/-- Updating again with a row that the first update has written changes
nothing. -/
theorem updateRow_updateRow (c r0 x : Call) (h0 : r0.ID = c.ID) :
    updateRow (updateRow c r0) (updateRow c x) = updateRow c x := by
  have hid : (updateRow c r0).ID = c.ID := by rw [updateRow_ID, h0]
  by_cases hx : x.ID = c.ID
  · have hx' : (updateRow c x).ID = (updateRow c r0).ID := by
      rw [updateRow_ID, hx, hid]
    rw [updateRow_of_eq (updateRow c r0) (updateRow c x) hx', updateRow_of_eq c r0 h0,
      updateRow_of_eq c x hx]
  · have hx' : (updateRow c x).ID ≠ (updateRow c r0).ID := by
      rw [updateRow_ID, hid]
      exact hx
    rw [updateRow_of_ne (updateRow c r0) (updateRow c x) hx']

/-- After the update of the first row that has a vendor session id, with a call
that keeps the `ID` and that session id, the first row with the session id is
an updated row of the same `ID`. -/
theorem find_after_update (pid : String) (c : Call) (hpid : c.ProviderCallID = pid) :
    ∀ (rows : List Call) (call : Call),
      rows.find? (fun row => row.ProviderCallID == pid) = some call →
      call.ID = c.ID →
      ∃ r0, r0 ∈ rows ∧ r0.ID = c.ID ∧
        (rows.map (updateRow c)).find? (fun row => row.ProviderCallID == pid)
          = some (updateRow c r0) := by
  intro rows
  induction rows with
  | nil =>
    intro call h _
    simp at h
  | cons x xs ih =>
    intro call h hid
    rw [List.find?_cons] at h
    rw [List.map_cons, List.find?_cons]
    by_cases hx : x.ID = c.ID
    · refine ⟨x, List.mem_cons_self _ _, hx, ?_⟩
      have hp : ((updateRow c x).ProviderCallID == pid) = true := by
        rw [updateRow_of_eq c x hx]
        simpa using hpid
      rw [hp]
    · cases hp : (x.ProviderCallID == pid) with
      | true =>
        rw [hp] at h
        simp only [Option.some.injEq] at h
        rw [h] at hx
        exact absurd hid hx
      | false =>
        rw [hp] at h
        obtain ⟨r0, hmem, hr0, hfind⟩ := ih call h hid
        refine ⟨r0, List.mem_cons_of_mem _ hmem, hr0, ?_⟩
        rw [updateRow_of_ne c x hx, hp]
        exact hfind

theorem CallRepositoryImpl_GetByProviderCallID_found (uuid : Nat → String) (db : DB)
    (pid : String) (row : Call)
    (h : db.calls.find? (fun row => row.ProviderCallID == pid) = some row) :
    (CallRepositoryImpl uuid).GetByProviderCallID db pid = (db, .ok row) := by
  simp only [CallRepositoryImpl, h]

theorem CallRepositoryImpl_Update_present (uuid : Nat → String) (db : DB)
    (call row : Call) (hmem : row ∈ db.calls) (hid : row.ID = call.ID) :
    (CallRepositoryImpl uuid).Update db call
      = ({ db with calls := db.calls.map (updateRow call) }, none) := by
  have hpos : 0 < db.calls.countP (fun row => row.ID == call.ID) := by
    rw [List.countP_pos_iff]
    exact ⟨row, hmem, by simpa using hid⟩
  have hne : db.calls.countP (fun row => row.ID == call.ID) ≠ 0 := Nat.pos_iff_ne_zero.mp hpos
  simp only [CallRepositoryImpl, hne, if_false]

end database

namespace services

open errors entities

/-- A webhook handled over the database when the provider returns an event and
a row has the event's vendor session id: the rows with the `ID` of the first
such row are rewritten, and no error is returned. -/
theorem sql_HandleWebhook_found {π : Type} (uuid : Nat → String)
    (vp : providers.VoiceProvider π) (w : World database.DB π)
    (payload signature : List UInt8) (now : time.Time)
    (event : providers.CallEvent) (call : Call)
    (hev : (vp.HandleWebhook w.provider payload signature).2 = .ok event)
    (hcall : w.store.calls.find? (fun row => row.ProviderCallID == event.CallID)
      = some call) :
    (sqlCallService uuid vp).HandleWebhook w payload signature now
      = ({ store := { w.store with
                      calls := w.store.calls.map
                        (database.updateRow (applyEvent call event now).1) },
           provider := (vp.HandleWebhook w.provider payload signature).1,
           ops := w.ops ++ [Op.providerHandleWebhook payload signature] ++
             [Op.callGetByProviderCallID event.CallID] ++ (applyEvent call event now).2 ++
             [Op.callUpdate (applyEvent call event now).1] },
          none) := by
  have hget := database.CallRepositoryImpl_GetByProviderCallID_found uuid w.store
    event.CallID call hcall
  have hfound : ((sqlCallService uuid vp).callRepo.GetByProviderCallID w.store
      event.CallID).2 = .ok call := by
    show ((database.CallRepositoryImpl uuid).GetByProviderCallID w.store event.CallID).2 = _
    rw [hget]
  have hid : call.ID = (applyEvent call event now).1.ID := by
    unfold applyEvent
    split_ifs <;> simp [(UpdateStatus_frame call _ now).1]
  have hupd := database.CallRepositoryImpl_Update_present uuid w.store
    (applyEvent call event now).1 call (List.mem_of_find?_eq_some hcall) hid
  rw [HandleWebhook_found (sqlCallService uuid vp) w payload signature now event call
    hev hfound]
  show (({ store := ((database.CallRepositoryImpl uuid).Update
      ((database.CallRepositoryImpl uuid).GetByProviderCallID w.store event.CallID).1
      (applyEvent call event now).1).1, provider := _, ops := _ } : World database.DB π),
    ((database.CallRepositoryImpl uuid).Update
      ((database.CallRepositoryImpl uuid).GetByProviderCallID w.store event.CallID).1
      (applyEvent call event now).1).2) = _
  rw [hget, hupd]
  rfl

/-- A `call.ended` or `call.completed` event handled over the database: no
error, the rows of the call rewritten with the completed call `c1`, one
transcript fetch started. -/
theorem sql_HandleWebhook_completed {π : Type} (uuid : Nat → String)
    (vp : providers.VoiceProvider π) (w : World database.DB π)
    (payload signature : List UInt8) (now : time.Time)
    (event : providers.CallEvent) (call c1 : Call)
    (hev : (vp.HandleWebhook w.provider payload signature).2 = .ok event)
    (htype : event.Type_ = "call.ended" ∨ event.Type_ = "call.completed")
    (hcall : w.store.calls.find? (fun row => row.ProviderCallID == event.CallID)
      = some call)
    (hc1 : c1 = (UpdateStatus call CallStatusCompleted now).1) :
    ((sqlCallService uuid vp).HandleWebhook w payload signature now).2 = none ∧
      ((sqlCallService uuid vp).HandleWebhook w payload signature now).1.store
        = { w.store with calls := w.store.calls.map (database.updateRow c1) } ∧
      ((sqlCallService uuid vp).HandleWebhook w payload signature now).1.provider
        = (vp.HandleWebhook w.provider payload signature).1 ∧
      ((sqlCallService uuid vp).HandleWebhook w payload signature now).1.ops
        = w.ops ++ [Op.providerHandleWebhook payload signature,
            Op.callGetByProviderCallID event.CallID,
            Op.goFetchAndStoreTranscript call.ID event.CallID, Op.callUpdate c1] := by
  rw [sql_HandleWebhook_found uuid vp w payload signature now event call hev hcall,
    applyEvent_completed call event now htype, hc1]
  refine ⟨rfl, rfl, rfl, ?_⟩
  simp [List.append_assoc]

/-- Two deliveries, over the database, of a payload for which the provider
reports the same `call.ended` or `call.completed` event: what the first and the
second leave. -/
theorem sql_HandleWebhook_twice {π : Type} (uuid : Nat → String)
    (vp : providers.VoiceProvider π) (w : World database.DB π)
    (payload signature : List UInt8) (now1 now2 : time.Time)
    (event1 event2 : providers.CallEvent) (call : Call)
    (hev1 : (vp.HandleWebhook w.provider payload signature).2 = .ok event1)
    (hev2 : (vp.HandleWebhook (vp.HandleWebhook w.provider payload signature).1
      payload signature).2 = .ok event2)
    (htype : event1.Type_ = "call.ended" ∨ event1.Type_ = "call.completed")
    (hsameType : event2.Type_ = event1.Type_)
    (hsameID : event2.CallID = event1.CallID)
    (hcall : w.store.calls.find? (fun row => row.ProviderCallID == event1.CallID)
      = some call) :
    ∃ c1 r1 : Call,
      c1 = (UpdateStatus call CallStatusCompleted now1).1 ∧
      r1.ID = call.ID ∧
      ((sqlCallService uuid vp).HandleWebhook w payload signature now1).2 = none ∧
      ((sqlCallService uuid vp).HandleWebhook
        ((sqlCallService uuid vp).HandleWebhook w payload signature now1).1
        payload signature now2).2 = none ∧
      ((sqlCallService uuid vp).HandleWebhook
        ((sqlCallService uuid vp).HandleWebhook w payload signature now1).1
        payload signature now2).1.store
        = ((sqlCallService uuid vp).HandleWebhook w payload signature now1).1.store ∧
      ((sqlCallService uuid vp).HandleWebhook w payload signature now1).1.store
        = { w.store with calls := w.store.calls.map (database.updateRow c1) } ∧
      ((sqlCallService uuid vp).HandleWebhook w payload signature now1).1.store.calls.find?
        (fun row => row.ProviderCallID == event1.CallID) = some r1 ∧
      r1.Status = CallStatusCompleted ∧
      r1.EndedAt ≠ none ∧
      r1.StartedAt = call.StartedAt ∧
      r1.EndedAt = c1.EndedAt ∧
      r1.Duration = c1.Duration ∧
      ((sqlCallService uuid vp).HandleWebhook
        ((sqlCallService uuid vp).HandleWebhook w payload signature now1).1
        payload signature now2).1.provider
        = (vp.HandleWebhook (vp.HandleWebhook w.provider payload signature).1
            payload signature).1 ∧
      ((sqlCallService uuid vp).HandleWebhook
        ((sqlCallService uuid vp).HandleWebhook w payload signature now1).1
        payload signature now2).1.ops
        = w.ops ++ [Op.providerHandleWebhook payload signature,
            Op.callGetByProviderCallID event1.CallID,
            Op.goFetchAndStoreTranscript call.ID event1.CallID, Op.callUpdate c1,
            Op.providerHandleWebhook payload signature,
            Op.callGetByProviderCallID event1.CallID,
            Op.goFetchAndStoreTranscript call.ID event1.CallID, Op.callUpdate r1] := by
  have hterm : CallStatusCompleted ∈ terminalStatuses := by decide
  obtain ⟨c1, hc1⟩ : ∃ c1, c1 = (UpdateStatus call CallStatusCompleted now1).1 := ⟨_, rfl⟩
  have hframe := UpdateStatus_frame call CallStatusCompleted now1
  rw [← hc1] at hframe
  have hpidcall : call.ProviderCallID = event1.CallID := by
    simpa using List.find?_some hcall
  obtain ⟨herr1, hstore1, hprov1, hops1⟩ := sql_HandleWebhook_completed uuid vp w payload
    signature now1 event1 call c1 hev1 htype hcall hc1
  obtain ⟨r0, _, hr0, hfind⟩ := database.find_after_update event1.CallID c1
    (by rw [hframe.2.2.1, hpidcall]) w.store.calls call hcall hframe.1.symm
  have hrow := database.updateRow_of_eq c1 r0 hr0
  have hstatus : (database.updateRow c1 r0).Status = CallStatusCompleted := by
    rw [hrow, hc1]
    exact UpdateStatus_known_Status call _ now1 (by decide)
  have hended : (database.updateRow c1 r0).EndedAt ≠ none := by
    rw [hrow, hc1]
    exact UpdateStatus_terminal_EndedAt call _ now1 hterm
  have hsame := UpdateStatus_same_terminal (database.updateRow c1 r0) now2
    (by rw [hstatus]; exact hterm) hended
  rw [hstatus] at hsame
  have hfind1 : ((sqlCallService uuid vp).HandleWebhook w payload signature
      now1).1.store.calls.find? (fun row => row.ProviderCallID == event1.CallID)
      = some (database.updateRow c1 r0) := by
    rw [hstore1]
    exact hfind
  obtain ⟨herr2, hstore2, hprov2, hops2⟩ := sql_HandleWebhook_completed uuid vp
    ((sqlCallService uuid vp).HandleWebhook w payload signature now1).1 payload
    signature now2 event2 (database.updateRow c1 r0) (database.updateRow c1 r0)
    (by rw [hprov1]; exact hev2) (by rw [hsameType]; exact htype)
    (by rw [hsameID]; exact hfind1) (by rw [hsame])
  have hmap : ((sqlCallService uuid vp).HandleWebhook w payload signature
      now1).1.store.calls.map (database.updateRow (database.updateRow c1 r0))
      = ((sqlCallService uuid vp).HandleWebhook w payload signature now1).1.store.calls := by
    rw [hstore1]
    show (w.store.calls.map (database.updateRow c1)).map
      (database.updateRow (database.updateRow c1 r0))
      = w.store.calls.map (database.updateRow c1)
    rw [List.map_map]
    apply List.map_congr_left
    intro x _
    exact database.updateRow_updateRow c1 r0 x hr0
  have hrid : (database.updateRow c1 r0).ID = call.ID := by
    rw [database.updateRow_ID, hr0, hframe.1]
  refine ⟨c1, database.updateRow c1 r0, hc1, hrid, herr1, herr2, ?_, hstore1, hfind1,
    hstatus, hended, ?_, ?_, ?_, ?_, ?_⟩
  · rw [hstore2, hmap]
  · rw [hrow, hc1]
    exact UpdateStatus_keeps_StartedAt call _ now1 (by decide)
  · rw [hrow]
  · rw [hrow]
  · rw [hprov2, hprov1]
  · rw [hops2, hops1, hsameID, hrid]
    simp [List.append_assoc]

end services

namespace database

open errors entities

theorem withFreshIDs_length (uuid : Nat → String) :
    ∀ (ts : List Transcript) (n : Nat), (withFreshIDs uuid n ts).length = ts.length
  | [], _ => rfl
  | t :: rest, n => by
    rw [withFreshIDs, List.length_cons, List.length_cons, withFreshIDs_length uuid rest]

theorem withFreshIDs_messages (uuid : Nat → String) :
    ∀ (ts : List Transcript) (n : Nat),
      (withFreshIDs uuid n ts).map messageOf = ts.map messageOf
  | [], _ => rfl
  | t :: rest, n => by
    rw [withFreshIDs, List.map_cons, List.map_cons, withFreshIDs_messages uuid rest]
    rfl

theorem withFreshIDs_filter (uuid : Nat → String) (callID : String) :
    ∀ (ts : List Transcript) (n : Nat), (∀ t ∈ ts, t.CallID = callID) →
      (withFreshIDs uuid n ts).filter (fun row => row.CallID == callID)
        = withFreshIDs uuid n ts
  | [], _, _ => rfl
  | t :: rest, n, h => by
    have ht : t.CallID = callID := h t (List.mem_cons_self _ _)
    have hrest := withFreshIDs_filter uuid callID rest (n + 1)
      (fun x hx => h x (List.mem_cons_of_mem _ hx))
    rw [withFreshIDs, List.filter_cons_of_pos (by simpa using ht), hrest]

/-- The loop of `CreateBatch` appends the transcripts, with fresh identifiers,
to the table. -/
theorem insertTranscripts_eq (uuid : Nat → String) :
    ∀ (ts : List Transcript) (db : DB),
      insertTranscripts uuid db ts
        = { db with transcripts := db.transcripts ++ withFreshIDs uuid db.uuids ts,
                    uuids := db.uuids + ts.length }
  | [], db => by
    simp [insertTranscripts, withFreshIDs]
  | t :: rest, db => by
    rw [insertTranscripts, insertTranscripts_eq uuid rest]
    simp [withFreshIDs, List.append_assoc, Nat.add_assoc, Nat.add_comm 1]

theorem TranscriptRepositoryImpl_CreateBatch (uuid : Nat → String) (db : DB)
    (ts : List Transcript) :
    (TranscriptRepositoryImpl uuid).CreateBatch db ts
      = ({ db with transcripts := db.transcripts ++ withFreshIDs uuid db.uuids ts,
                   uuids := db.uuids + ts.length }, none) := by
  cases ts with
  | nil => simp [TranscriptRepositoryImpl, withFreshIDs]
  | cons t rest =>
    simp only [TranscriptRepositoryImpl, List.length_cons, Nat.add_one_ne_zero, if_false]
    rw [insertTranscripts_eq uuid (t :: rest) db]
    rfl

end database

namespace services

open errors entities

theorem transcriptEntities_CallID (callID : String) (clock : Nat → time.Time) :
    ∀ (msgs : List providers.TranscriptMessage) (i : Nat),
      ∀ t ∈ transcriptEntities callID clock i msgs, t.CallID = callID
  | [], _, t, ht => by
    simp [transcriptEntities] at ht
  | msg :: rest, i, t, ht => by
    rw [transcriptEntities, List.mem_cons] at ht
    rcases ht with ht | ht
    · rw [ht]
      rfl
    · exact transcriptEntities_CallID callID clock rest (i + 1) t ht

theorem transcriptEntities_messages (callID : String) (clock : Nat → time.Time) :
    ∀ (msgs : List providers.TranscriptMessage) (i : Nat),
      (transcriptEntities callID clock i msgs).map database.messageOf = msgs
  | [], _ => rfl
  | msg :: rest, i => by
    rw [transcriptEntities, List.map_cons, transcriptEntities_messages callID clock rest]
    rfl

/-- A transcript fetch over the database when the provider returns a transcript:
the messages fetched are appended to those stored for the call, and the table
of calls is not touched. -/
theorem sql_fetchAndStoreTranscript {π : Type} (uuid : Nat → String)
    (vp : providers.VoiceProvider π) (w : World database.DB π)
    (callID providerCallID : String) (clock : Nat → time.Time)
    (t : providers.Transcript)
    (hget : (vp.GetTranscript w.provider providerCallID).2 = .ok t) :
    database.storedMessages
        ((sqlCallService uuid vp).fetchAndStoreTranscript w callID providerCallID
          clock).store callID
        = database.storedMessages w.store callID ++ t.Messages ∧
      ((sqlCallService uuid vp).fetchAndStoreTranscript w callID providerCallID
        clock).store.calls = w.store.calls ∧
      ((sqlCallService uuid vp).fetchAndStoreTranscript w callID providerCallID
        clock).provider = (vp.GetTranscript w.provider providerCallID).1 ∧
      ((sqlCallService uuid vp).fetchAndStoreTranscript w callID providerCallID
        clock).ops
        = w.ops ++ [Op.providerGetTranscript providerCallID,
            Op.transcriptCreateBatch (transcriptEntities callID clock 0 t.Messages)] := by
  have hget' : ((sqlCallService uuid vp).voiceProvider.GetTranscript w.provider
      providerCallID).2 = .ok t := hget
  have hbatch := database.TranscriptRepositoryImpl_CreateBatch uuid w.store
    (transcriptEntities callID clock 0 t.Messages)
  have hstore : ((sqlCallService uuid vp).fetchAndStoreTranscript w callID providerCallID
      clock).store
      = { w.store with
          transcripts := w.store.transcripts ++ database.withFreshIDs uuid w.store.uuids
            (transcriptEntities callID clock 0 t.Messages),
          uuids := w.store.uuids + (transcriptEntities callID clock 0 t.Messages).length } := by
    simp only [CallService.fetchAndStoreTranscript, hget']
    show ((database.TranscriptRepositoryImpl uuid).CreateBatch w.store
      (transcriptEntities callID clock 0 t.Messages)).1 = _
    rw [hbatch]
  refine ⟨?_, ?_, ?_, ?_⟩
  · rw [hstore]
    show ((w.store.transcripts ++ database.withFreshIDs uuid w.store.uuids
      (transcriptEntities callID clock 0 t.Messages)).filter
        (fun row => row.CallID == callID)).map database.messageOf = _
    rw [List.filter_append, List.map_append,
      database.withFreshIDs_filter uuid callID _ _
        (transcriptEntities_CallID callID clock t.Messages 0),
      database.withFreshIDs_messages, transcriptEntities_messages]
    rfl
  · rw [hstore]
  · simp only [CallService.fetchAndStoreTranscript, hget']
    rfl
  · simp only [CallService.fetchAndStoreTranscript, hget']
    simp [List.append_assoc]

end services

namespace services

open errors entities

/-- C12: tenant isolation of `GetCall`. When the store returns a call owned by
another business the result is the Forbidden error; when the store returns an
error (not found, for the SQL repository, when no row has the id) that error
is the result; and whenever `GetCall` returns a call, its `BusinessID` is the
caller's business id. -/
theorem GetCall_tenant_isolation {σ π : Type} (s : CallService σ π)
    (w : World σ π) (businessID callID : String) :
    (∀ call, (s.callRepo.GetByID w.store callID).2 = .ok call →
        call.BusinessID ≠ businessID →
        (s.GetCall w businessID callID).2
          = .error (.domain (NewForbiddenError "access denied to this call"))) ∧
      (∀ err, (s.callRepo.GetByID w.store callID).2 = .error err →
        (s.GetCall w businessID callID).2 = .error err) ∧
      (∀ resp, (s.GetCall w businessID callID).2 = .ok resp →
        resp.BusinessID = businessID) ∧
      (∀ (uuid : Nat → String) (db : database.DB),
        (∀ row ∈ db.calls, row.ID ≠ callID) →
        ((database.CallRepositoryImpl uuid).GetByID db callID).2
          = .error (.domain (NewNotFoundError "call" callID))) := by
  refine ⟨?_, ?_, ?_, ?_⟩
  · intro call hfound hother
    rw [GetCall_found s w businessID callID call hfound, if_pos hother]
  · intro err herr
    rw [GetCall_error s w businessID callID err herr]
  · intro resp hresp
    cases hfound : (s.callRepo.GetByID w.store callID).2 with
    | error err =>
      rw [GetCall_error s w businessID callID err hfound] at hresp
      cases hresp
    | ok call =>
      rw [GetCall_found s w businessID callID call hfound] at hresp
      by_cases hother : call.BusinessID ≠ businessID
      · rw [if_pos hother] at hresp
        cases hresp
      · rw [if_neg hother] at hresp
        have hresp' : mapCallToResponse call = resp := by
          simpa using hresp
        rw [← hresp']
        exact not_not.mp hother
  · intro uuid db hmissing
    rw [database.CallRepositoryImpl_GetByID_missing uuid db callID hmissing]

/-- C12 on the sample database: business `biz-1` asking for the call `c-2` of
business `biz-2` is refused, asking for an id that no row has gives the
not-found error, and its own call `c-1` is returned with its business id. -/
theorem GetCall_tenant_isolation_witness :
    ((sqlCallService sampleUuid sampleVoiceProvider).GetCall sampleWorld "biz-1" "c-2").2
        = .error (.domain (NewForbiddenError "access denied to this call")) ∧
      ((sqlCallService sampleUuid sampleVoiceProvider).GetCall sampleWorld "biz-1" "c-404").2
        = .error (.domain (NewNotFoundError "call" "c-404")) ∧
      ((sqlCallService sampleUuid sampleVoiceProvider).GetCall sampleWorld "biz-1" "c-1").2
        = .ok (mapCallToResponse sampleCallA) ∧
      (mapCallToResponse sampleCallA).BusinessID = "biz-1" :=
  ⟨(GetCall_tenant_isolation (sqlCallService sampleUuid sampleVoiceProvider)
      sampleWorld "biz-1" "c-2").1 sampleCallB (by decide) (by decide),
    (GetCall_tenant_isolation (sqlCallService sampleUuid sampleVoiceProvider)
      sampleWorld "biz-1" "c-404").2.1 _ (by decide),
    by decide,
    (GetCall_tenant_isolation (sqlCallService sampleUuid sampleVoiceProvider)
      sampleWorld "biz-1" "c-1").2.2.1 _ (by decide)⟩

/-- C13: in `GetTranscript`, `GetCallInteractions` and `UpdateAppointmentStatus`
the existence check comes first and the tenant guard second. When the lookup
fails, its error is the result; when the resource belongs to another business,
the result is the Forbidden error. In both cases the lookup is the only call
made on the store: no transcript or interaction is read, and no appointment is
updated. -/
theorem tenant_guard_after_lookup {σ π : Type} (cs : CallService σ π)
    (s : InteractionService σ) (w : World σ π) (u : World σ Unit)
    (businessID id : String) (req : dto.UpdateAppointmentRequest)
    (now : time.Time) :
    (∀ err, (cs.callRepo.GetByID w.store id).2 = .error err →
        (cs.GetTranscript w businessID id).2 = .error err ∧
        (cs.GetTranscript w businessID id).1.ops = w.ops ++ [Op.callGetByID id] ∧
        (cs.GetTranscript w businessID id).1.store = (cs.callRepo.GetByID w.store id).1) ∧
      (∀ call, (cs.callRepo.GetByID w.store id).2 = .ok call →
        call.BusinessID ≠ businessID →
        (cs.GetTranscript w businessID id).2
          = .error (.domain (NewForbiddenError "access denied to this call")) ∧
        (cs.GetTranscript w businessID id).1.ops = w.ops ++ [Op.callGetByID id] ∧
        (cs.GetTranscript w businessID id).1.store = (cs.callRepo.GetByID w.store id).1) ∧
      (∀ err, (s.callRepo.GetByID u.store id).2 = .error err →
        (s.GetCallInteractions u businessID id).2 = .error err ∧
        (s.GetCallInteractions u businessID id).1.ops = u.ops ++ [Op.callGetByID id] ∧
        (s.GetCallInteractions u businessID id).1.store
          = (s.callRepo.GetByID u.store id).1) ∧
      (∀ call, (s.callRepo.GetByID u.store id).2 = .ok call →
        call.BusinessID ≠ businessID →
        (s.GetCallInteractions u businessID id).2
          = .error (.domain (NewForbiddenError "access denied to this call")) ∧
        (s.GetCallInteractions u businessID id).1.ops = u.ops ++ [Op.callGetByID id] ∧
        (s.GetCallInteractions u businessID id).1.store
          = (s.callRepo.GetByID u.store id).1) ∧
      (∀ err, (s.appointmentRepo.GetByID u.store id).2 = .error err →
        (s.UpdateAppointmentStatus u businessID id req now).2 = .error err ∧
        (s.UpdateAppointmentStatus u businessID id req now).1.ops
          = u.ops ++ [Op.appointmentGetByID id] ∧
        (s.UpdateAppointmentStatus u businessID id req now).1.store
          = (s.appointmentRepo.GetByID u.store id).1) ∧
      (∀ apt, (s.appointmentRepo.GetByID u.store id).2 = .ok apt →
        apt.BusinessID ≠ businessID →
        (s.UpdateAppointmentStatus u businessID id req now).2
          = .error (.domain (NewForbiddenError "access denied to this appointment")) ∧
        (s.UpdateAppointmentStatus u businessID id req now).1.ops
          = u.ops ++ [Op.appointmentGetByID id] ∧
        (s.UpdateAppointmentStatus u businessID id req now).1.store
          = (s.appointmentRepo.GetByID u.store id).1) := by
  refine ⟨?_, ?_, ?_, ?_, ?_, ?_⟩
  · intro err h
    rw [GetTranscript_error cs w businessID id err h]
    exact ⟨rfl, rfl, rfl⟩
  · intro call h hother
    rw [GetTranscript_forbidden cs w businessID id call h hother]
    exact ⟨rfl, rfl, rfl⟩
  · intro err h
    rw [GetCallInteractions_error s u businessID id err h]
    exact ⟨rfl, rfl, rfl⟩
  · intro call h hother
    rw [GetCallInteractions_forbidden s u businessID id call h hother]
    exact ⟨rfl, rfl, rfl⟩
  · intro err h
    rw [UpdateAppointmentStatus_error s u businessID id req now err h]
    exact ⟨rfl, rfl, rfl⟩
  · intro apt h hother
    rw [UpdateAppointmentStatus_forbidden s u businessID id req now apt h hother]
    exact ⟨rfl, rfl, rfl⟩

/-- C13 on the sample database: business `biz-1` asks for the transcript and the
interactions of the call `c-2` and for the confirmation of the appointment
`a-1`, all three of business `biz-2`. Each request is refused after the lookup
alone, and the appointment stays pending in an unchanged database. -/
theorem tenant_guard_after_lookup_witness :
    ((sqlCallService sampleUuid sampleVoiceProvider).GetTranscript
        sampleWorld "biz-1" "c-2").2
        = .error (.domain (NewForbiddenError "access denied to this call")) ∧
      ((sqlCallService sampleUuid sampleVoiceProvider).GetTranscript
        sampleWorld "biz-1" "c-2").1.ops = [Op.callGetByID "c-2"] ∧
      ((sqlInteractionService sampleUuid).GetCallInteractions
        sampleWorldUnit "biz-1" "c-2").1.ops = [Op.callGetByID "c-2"] ∧
      ((sqlInteractionService sampleUuid).UpdateAppointmentStatus sampleWorldUnit
        "biz-1" "a-1" { Status := "confirmed" } 9).2
        = .error (.domain (NewForbiddenError "access denied to this appointment")) ∧
      ((sqlInteractionService sampleUuid).UpdateAppointmentStatus sampleWorldUnit
        "biz-1" "a-1" { Status := "confirmed" } 9).1.ops
        = [Op.appointmentGetByID "a-1"] ∧
      ((sqlInteractionService sampleUuid).UpdateAppointmentStatus sampleWorldUnit
        "biz-1" "a-1" { Status := "confirmed" } 9).1.store = sampleDB := by
  have h := tenant_guard_after_lookup (sqlCallService sampleUuid sampleVoiceProvider)
    (sqlInteractionService sampleUuid) sampleWorld sampleWorldUnit "biz-1" "c-2"
    { Status := "confirmed" } 9
  have ha := tenant_guard_after_lookup (sqlCallService sampleUuid sampleVoiceProvider)
    (sqlInteractionService sampleUuid) sampleWorld sampleWorldUnit "biz-1" "a-1"
    { Status := "confirmed" } 9
  have h2 := h.2.1 sampleCallB (by decide) (by decide)
  have h4 := h.2.2.2.1 sampleCallB (by decide) (by decide)
  have h6 := ha.2.2.2.2.2 sampleAppointmentB (by decide) (by decide)
  exact ⟨h2.1, h2.2.1, h4.2.1, h6.1, h6.2.1, h6.2.2⟩

/-- C14: a call returned by `InitiateCall` has the status `initiated` (so it is
`initiated` or `failed`, and never `failed`); every call that `InitiateCall`
hands to the store has the status `initiated` or `failed`, and `failed` only
when the provider's `InitiateCall` returned an error. -/
theorem InitiateCall_status {σ π : Type} (s : CallService σ π) (w : World σ π)
    (businessID : String) (req : dto.InitiateCallRequest)
    (now nowFailed : time.Time) :
    (∀ resp, (s.InitiateCall w businessID req now nowFailed).2 = .ok resp →
        resp.Status = CallStatusInitiated ∧
        (resp.Status = CallStatusInitiated ∨ resp.Status = CallStatusFailed)) ∧
      (∀ newOps, (s.InitiateCall w businessID req now nowFailed).1.ops = w.ops ++ newOps →
        (∀ c, Op.callCreate c ∈ newOps → c.Status = CallStatusInitiated) ∧
        (∀ c, Op.callUpdate c ∈ newOps →
          (c.Status = CallStatusInitiated ∨ c.Status = CallStatusFailed) ∧
          (c.Status = CallStatusFailed →
            ∃ newCall err,
              NewCall businessID req.PhoneNumber now = .ok newCall ∧
              (s.voiceProvider.InitiateCall w.provider
                (providerRequest businessID req
                  (s.callRepo.Create w.store newCall).2.1)).2 = .error err))) := by
  by_cases hp : req.PhoneNumber = ""
  · rw [InitiateCall_empty_phone s w businessID req now nowFailed hp]
    refine ⟨fun resp h => (by cases h), fun newOps h => ?_⟩
    have hnil : newOps = [] := by
      have h' : w.ops ++ [] = w.ops ++ newOps := by simpa using h
      exact (List.append_cancel_left h').symm
    subst hnil
    exact ⟨fun c hc => (by cases hc), fun c hc => (by cases hc)⟩
  cases hnew : NewCall businessID req.PhoneNumber now with
  | error e =>
    rw [InitiateCall_invalid_call s w businessID req now nowFailed e hp hnew]
    refine ⟨fun resp h => (by cases h), fun newOps h => ?_⟩
    have hnil : newOps = [] := by
      have h' : w.ops ++ [] = w.ops ++ newOps := by simpa using h
      exact (List.append_cancel_left h').symm
    subst hnil
    exact ⟨fun c hc => (by cases hc), fun c hc => (by cases hc)⟩
  | ok newCall =>
    have hinit : newCall.Status = CallStatusInitiated := (NewCall_ok hnew).1
    have hend : newCall.EndedAt = none := (NewCall_ok hnew).2.2.1
    cases hc : (s.callRepo.Create w.store newCall).2.2 with
    | some err =>
      rw [InitiateCall_create_fails s w businessID req now nowFailed newCall err hp hnew hc]
      refine ⟨fun resp h => (by cases h), fun newOps h => ?_⟩
      have hops : newOps = [Op.callCreate newCall] := (List.append_cancel_left h).symm
      subst hops
      refine ⟨fun c hc => ?_, fun c hc => ?_⟩
      · simp only [List.mem_singleton, Op.callCreate.injEq] at hc
        rw [hc]
        exact hinit
      · simp at hc
    | none =>
      cases hprov : (s.voiceProvider.InitiateCall w.provider
          (providerRequest businessID req (s.callRepo.Create w.store newCall).2.1)).2 with
      | error err =>
        rw [InitiateCall_provider_fails s w businessID req now nowFailed newCall err
          hp hnew hc hprov]
        refine ⟨fun resp h => (by cases h), fun newOps h => ?_⟩
        have hops : newOps = [Op.callCreate newCall] ++
            [Op.providerInitiateCall
              (providerRequest businessID req (s.callRepo.Create w.store newCall).2.1)] ++
            [Op.callUpdate
              (UpdateStatus { newCall with ID := (s.callRepo.Create w.store newCall).2.1 }
                CallStatusFailed nowFailed).1] := by
          have h' : w.ops ++ ([Op.callCreate newCall] ++
            [Op.providerInitiateCall
              (providerRequest businessID req (s.callRepo.Create w.store newCall).2.1)] ++
            [Op.callUpdate
              (UpdateStatus { newCall with ID := (s.callRepo.Create w.store newCall).2.1 }
                CallStatusFailed nowFailed).1]) = w.ops ++ newOps := by
            simpa [List.append_assoc] using h
          exact (List.append_cancel_left h').symm
        subst hops
        refine ⟨fun c hc => ?_, fun c hc => ?_⟩
        · simp only [List.mem_append, List.mem_singleton, Op.callCreate.injEq,
            reduceCtorEq, or_false] at hc
          rw [hc]
          exact hinit
        · simp only [List.mem_append, List.mem_singleton, Op.callUpdate.injEq,
            reduceCtorEq, false_or] at hc
          rw [hc]
          have hf := (UpdateStatus_failed_fresh
            { newCall with ID := (s.callRepo.Create w.store newCall).2.1 } nowFailed hend).1
          exact ⟨Or.inr hf, fun _ => ⟨newCall, err, rfl, hprov⟩⟩
      | ok session =>
        rw [InitiateCall_success s w businessID req now nowFailed newCall session
          hp hnew hc hprov]
        refine ⟨fun resp h => ?_, fun newOps h => ?_⟩
        · have hresp : mapCallToResponse (SetProviderCallID
              { newCall with ID := (s.callRepo.Create w.store newCall).2.1 } session.ID)
              = resp := by simpa using h
          rw [← hresp]
          exact ⟨hinit, Or.inl hinit⟩
        · have hops : newOps = [Op.callCreate newCall] ++
              [Op.providerInitiateCall
                (providerRequest businessID req (s.callRepo.Create w.store newCall).2.1)] ++
              [Op.callUpdate (SetProviderCallID
                { newCall with ID := (s.callRepo.Create w.store newCall).2.1 }
                session.ID)] := by
            have h' : w.ops ++ ([Op.callCreate newCall] ++
              [Op.providerInitiateCall
                (providerRequest businessID req (s.callRepo.Create w.store newCall).2.1)] ++
              [Op.callUpdate (SetProviderCallID
                { newCall with ID := (s.callRepo.Create w.store newCall).2.1 }
                session.ID)]) = w.ops ++ newOps := by
              simpa [List.append_assoc] using h
            exact (List.append_cancel_left h').symm
          subst hops
          refine ⟨fun c hc => ?_, fun c hc => ?_⟩
          · simp only [List.mem_append, List.mem_singleton, Op.callCreate.injEq,
              reduceCtorEq, or_false] at hc
            rw [hc]
            exact hinit
          · simp only [List.mem_append, List.mem_singleton, Op.callUpdate.injEq,
              reduceCtorEq, false_or] at hc
            rw [hc]
            refine ⟨Or.inl hinit, fun hfail => ?_⟩
            have hfail' : newCall.Status = CallStatusFailed := hfail
            rw [hinit] at hfail'
            exact absurd hfail' (by decide)

/-- C14 on the sample world: the call returned for business `biz-1` has the
status `initiated`; with a failing provider nothing is returned and the call
handed to `Update` is `failed`. -/
theorem InitiateCall_status_witness :
    (∃ resp, ((sqlCallService sampleUuid sampleVoiceProvider).InitiateCall sampleWorld
        "biz-1" sampleRequest 5 6).2 = .ok resp ∧ resp.Status = CallStatusInitiated) ∧
      ((sqlCallService sampleUuid failingVoiceProvider).InitiateCall sampleWorld
        "biz-1" sampleRequest 5 6).2 = .error (.other "provider API unavailable") ∧
      (∀ c, Op.callUpdate c ∈ ((sqlCallService sampleUuid failingVoiceProvider).InitiateCall
          sampleWorld "biz-1" sampleRequest 5 6).1.ops →
        c.Status = CallStatusInitiated ∨ c.Status = CallStatusFailed) := by
  refine ⟨⟨_, rfl, ?_⟩, by decide, fun c hc => ?_⟩
  · exact ((InitiateCall_status (sqlCallService sampleUuid sampleVoiceProvider)
      sampleWorld "biz-1" sampleRequest 5 6).1 _ rfl).1
  · exact (((InitiateCall_status (sqlCallService sampleUuid failingVoiceProvider)
      sampleWorld "biz-1" sampleRequest 5 6).2 _ (List.nil_append _).symm).2 c hc).1

/-- C15: when the provider's `InitiateCall` returns an error, `InitiateCall`
returns that error and no call; after `Create` and the provider call it hands
to `Update` the created call (with the `ID` given by `Create`) in status
`failed` with `EndedAt` set to the clock reading, and the store is the one
left by that `Update`. -/
theorem InitiateCall_provider_failure {σ π : Type} (s : CallService σ π)
    (w : World σ π) (businessID : String) (req : dto.InitiateCallRequest)
    (now nowFailed : time.Time) (newCall : Call) (err : Error)
    (hp : req.PhoneNumber ≠ "")
    (hnew : NewCall businessID req.PhoneNumber now = .ok newCall)
    (hc : (s.callRepo.Create w.store newCall).2.2 = none)
    (hprov : (s.voiceProvider.InitiateCall w.provider
      (providerRequest businessID req (s.callRepo.Create w.store newCall).2.1)).2
        = .error err) :
    (s.InitiateCall w businessID req now nowFailed).2 = .error err ∧
      ∃ failedCall : Call,
        (s.InitiateCall w businessID req now nowFailed).1.ops
          = w.ops ++ [Op.callCreate newCall,
              Op.providerInitiateCall
                (providerRequest businessID req (s.callRepo.Create w.store newCall).2.1),
              Op.callUpdate failedCall] ∧
        (s.InitiateCall w businessID req now nowFailed).1.store
          = (s.callRepo.Update (s.callRepo.Create w.store newCall).1 failedCall).1 ∧
        failedCall.Status = CallStatusFailed ∧
        failedCall.EndedAt = some nowFailed ∧
        failedCall.ID = (s.callRepo.Create w.store newCall).2.1 ∧
        failedCall.BusinessID = businessID ∧
        failedCall.CallerPhone = req.PhoneNumber := by
  rw [InitiateCall_provider_fails s w businessID req now nowFailed newCall err
    hp hnew hc hprov]
  have hok := NewCall_ok hnew
  have hf := UpdateStatus_failed_fresh
    { newCall with ID := (s.callRepo.Create w.store newCall).2.1 } nowFailed hok.2.2.1
  refine ⟨rfl, _, ?_, rfl, hf.1, hf.2.1, hf.2.2.1, ?_, ?_⟩
  · simp [List.append_assoc]
  · rw [hf.2.2.2.1]
    exact hok.2.2.2.2.1
  · rw [hf.2.2.2.2]
    exact hok.2.2.2.2.2.1

/-- C15 on the sample world with a failing provider: the provider's error is
returned, and the row created for the call is stored as `failed`, ended at the
instant `6`. -/
theorem InitiateCall_provider_failure_witness :
    ((sqlCallService sampleUuid failingVoiceProvider).InitiateCall sampleWorld
        "biz-1" sampleRequest 5 6).2 = .error (.other "provider API unavailable") ∧
      ((sqlCallService sampleUuid failingVoiceProvider).InitiateCall sampleWorld
        "biz-1" sampleRequest 5 6).1.store.calls
        = [sampleCallA, sampleCallB,
            { sampleNewCall with ID := "uuid-0", Status := CallStatusFailed,
                                 EndedAt := some 6 }] := by
  have h := InitiateCall_provider_failure (sqlCallService sampleUuid failingVoiceProvider)
    sampleWorld "biz-1" sampleRequest 5 6 sampleNewCall (.other "provider API unavailable")
    (by decide) (by decide) (by decide) (by decide)
  exact ⟨h.1, by decide⟩

/-- C16: `InitiateCall` calls the provider only after the validation and after
`Create` has stored the call in status `initiated`. With an empty phone number
it returns a validation error and leaves the world as it was (no call on the
store, none on the provider); when `Create` fails it returns that error, having
made no call on the provider; and a call on the provider is always preceded by
the successful `Create` of a call in status `initiated`. -/
theorem InitiateCall_provider_after_create {σ π : Type} (s : CallService σ π)
    (w : World σ π) (businessID : String) (req : dto.InitiateCallRequest)
    (now nowFailed : time.Time) :
    (req.PhoneNumber = "" →
        s.InitiateCall w businessID req now nowFailed
          = (w, .error (.domain (NewValidationError "phone_number is required")))) ∧
      (∀ newCall err, req.PhoneNumber ≠ "" →
        NewCall businessID req.PhoneNumber now = .ok newCall →
        (s.callRepo.Create w.store newCall).2.2 = some err →
        (s.InitiateCall w businessID req now nowFailed).2 = .error err ∧
        (s.InitiateCall w businessID req now nowFailed).1.provider = w.provider ∧
        (s.InitiateCall w businessID req now nowFailed).1.ops
          = w.ops ++ [Op.callCreate newCall]) ∧
      (∀ newOps r,
        (s.InitiateCall w businessID req now nowFailed).1.ops = w.ops ++ newOps →
        Op.providerInitiateCall r ∈ newOps →
        ∃ newCall rest,
          req.PhoneNumber ≠ "" ∧
          NewCall businessID req.PhoneNumber now = .ok newCall ∧
          newCall.Status = CallStatusInitiated ∧
          (s.callRepo.Create w.store newCall).2.2 = none ∧
          r = providerRequest businessID req (s.callRepo.Create w.store newCall).2.1 ∧
          newOps = Op.callCreate newCall :: Op.providerInitiateCall r :: rest) := by
  refine ⟨fun hp => InitiateCall_empty_phone s w businessID req now nowFailed hp,
    fun newCall err hp hnew hc => ?_, fun newOps r hops hr => ?_⟩
  · rw [InitiateCall_create_fails s w businessID req now nowFailed newCall err hp hnew hc]
    exact ⟨rfl, rfl, rfl⟩
  · by_cases hp : req.PhoneNumber = ""
    · rw [InitiateCall_empty_phone s w businessID req now nowFailed hp] at hops
      have hnil : newOps = [] := by
        have h' : w.ops ++ [] = w.ops ++ newOps := by simpa using hops
        exact (List.append_cancel_left h').symm
      rw [hnil] at hr
      cases hr
    cases hnew : NewCall businessID req.PhoneNumber now with
    | error e =>
      rw [InitiateCall_invalid_call s w businessID req now nowFailed e hp hnew] at hops
      have hnil : newOps = [] := by
        have h' : w.ops ++ [] = w.ops ++ newOps := by simpa using hops
        exact (List.append_cancel_left h').symm
      rw [hnil] at hr
      cases hr
    | ok newCall =>
      have hinit : newCall.Status = CallStatusInitiated := (NewCall_ok hnew).1
      cases hc : (s.callRepo.Create w.store newCall).2.2 with
      | some err =>
        rw [InitiateCall_create_fails s w businessID req now nowFailed newCall err
          hp hnew hc] at hops
        have hone : newOps = [Op.callCreate newCall] := (List.append_cancel_left hops).symm
        rw [hone] at hr
        simp at hr
      | none =>
        cases hprov : (s.voiceProvider.InitiateCall w.provider
            (providerRequest businessID req (s.callRepo.Create w.store newCall).2.1)).2 with
        | error err =>
          rw [InitiateCall_provider_fails s w businessID req now nowFailed newCall err
            hp hnew hc hprov] at hops
          have h' : w.ops ++ [Op.callCreate newCall,
              Op.providerInitiateCall
                (providerRequest businessID req (s.callRepo.Create w.store newCall).2.1),
              Op.callUpdate
                (UpdateStatus { newCall with ID := (s.callRepo.Create w.store newCall).2.1 }
                  CallStatusFailed nowFailed).1] = w.ops ++ newOps := by
            simpa [List.append_assoc] using hops
          have hthree := (List.append_cancel_left h').symm
          rw [hthree] at hr
          simp only [List.mem_cons, reduceCtorEq, Op.providerInitiateCall.injEq,
            false_or, List.mem_singleton, or_false, List.mem_nil_iff] at hr
          exact ⟨newCall, _, hp, rfl, hinit, hc, hr, by rw [hthree, hr]⟩
        | ok session =>
          rw [InitiateCall_success s w businessID req now nowFailed newCall session
            hp hnew hc hprov] at hops
          have h' : w.ops ++ [Op.callCreate newCall,
              Op.providerInitiateCall
                (providerRequest businessID req (s.callRepo.Create w.store newCall).2.1),
              Op.callUpdate (SetProviderCallID
                { newCall with ID := (s.callRepo.Create w.store newCall).2.1 }
                session.ID)] = w.ops ++ newOps := by
            simpa [List.append_assoc] using hops
          have hthree := (List.append_cancel_left h').symm
          rw [hthree] at hr
          simp only [List.mem_cons, reduceCtorEq, Op.providerInitiateCall.injEq,
            false_or, List.mem_singleton, or_false, List.mem_nil_iff] at hr
          exact ⟨newCall, _, hp, rfl, hinit, hc, hr, by rw [hthree, hr]⟩

/-- C16 on the sample world: with an empty phone number the world is returned
as it was; with a repository whose `Create` fails the only operation is that
`Create`, and the provider has received no call. -/
theorem InitiateCall_provider_after_create_witness :
    (sqlCallService sampleUuid sampleVoiceProvider).InitiateCall sampleWorld "biz-1"
        { sampleRequest with PhoneNumber := "" } 5 6
        = (sampleWorld, .error (.domain (NewValidationError "phone_number is required"))) ∧
      ({ sqlCallService sampleUuid sampleVoiceProvider with
          callRepo := failingCreateRepository sampleUuid }.InitiateCall sampleWorld "biz-1"
        sampleRequest 5 6).2 = .error (.other "database connection failed") ∧
      ({ sqlCallService sampleUuid sampleVoiceProvider with
          callRepo := failingCreateRepository sampleUuid }.InitiateCall sampleWorld "biz-1"
        sampleRequest 5 6).1.provider = 0 ∧
      ({ sqlCallService sampleUuid sampleVoiceProvider with
          callRepo := failingCreateRepository sampleUuid }.InitiateCall sampleWorld "biz-1"
        sampleRequest 5 6).1.ops = [Op.callCreate sampleNewCall] := by
  have h1 := (InitiateCall_provider_after_create
    (sqlCallService sampleUuid sampleVoiceProvider) sampleWorld "biz-1"
    { sampleRequest with PhoneNumber := "" } 5 6).1 rfl
  have h2 := (InitiateCall_provider_after_create
    { sqlCallService sampleUuid sampleVoiceProvider with
      callRepo := failingCreateRepository sampleUuid } sampleWorld "biz-1"
    sampleRequest 5 6).2.1 sampleNewCall (.other "database connection failed")
    (by decide) (by decide) (by decide)
  exact ⟨h1, h2.1, h2.2.1, h2.2.2⟩

/-- C17: when `Create` and the provider's `InitiateCall` both succeed,
`InitiateCall` returns a call whose `ProviderCallID` is the session id of the
provider, whose `ID` is the one given by `Create` and whose status is
`initiated`, whatever the second `Update` returns: its error is not part of
the result. -/
theorem InitiateCall_success_despite_update {σ π : Type} (s : CallService σ π)
    (w : World σ π) (businessID : String) (req : dto.InitiateCallRequest)
    (now nowFailed : time.Time) (newCall : Call) (session : providers.CallSession)
    (hp : req.PhoneNumber ≠ "")
    (hnew : NewCall businessID req.PhoneNumber now = .ok newCall)
    (hc : (s.callRepo.Create w.store newCall).2.2 = none)
    (hprov : (s.voiceProvider.InitiateCall w.provider
      (providerRequest businessID req (s.callRepo.Create w.store newCall).2.1)).2
        = .ok session) :
    ∃ resp, (s.InitiateCall w businessID req now nowFailed).2 = .ok resp ∧
      resp.ProviderCallID = session.ID ∧
      resp.ID = (s.callRepo.Create w.store newCall).2.1 ∧
      resp.BusinessID = businessID ∧
      resp.CallerPhone = req.PhoneNumber ∧
      resp.Status = CallStatusInitiated ∧
      ∃ stored : Call,
        (s.InitiateCall w businessID req now nowFailed).1.ops
          = w.ops ++ [Op.callCreate newCall,
              Op.providerInitiateCall
                (providerRequest businessID req (s.callRepo.Create w.store newCall).2.1),
              Op.callUpdate stored] ∧
        stored.ProviderCallID = session.ID ∧
        resp = mapCallToResponse stored := by
  rw [InitiateCall_success s w businessID req now nowFailed newCall session
    hp hnew hc hprov]
  have hok := NewCall_ok hnew
  refine ⟨_, rfl, rfl, rfl, hok.2.2.2.2.1, hok.2.2.2.2.2.1, hok.1, _, ?_, rfl, rfl⟩
  simp [List.append_assoc]

/-- C17 on the sample world with a repository whose `Update` fails: the call is
returned with the session id `v-99` of the provider, while the stored row keeps
an empty `ProviderCallID`. -/
theorem InitiateCall_success_despite_update_witness :
    (∃ resp, ({ sqlCallService sampleUuid sampleVoiceProvider with
          callRepo := failingUpdateRepository sampleUuid }.InitiateCall sampleWorld "biz-1"
        sampleRequest 5 6).2 = .ok resp ∧ resp.ProviderCallID = "v-99") ∧
      ((failingUpdateRepository sampleUuid).Update sampleDB sampleCallA).2
        = some (.other "database connection failed") ∧
      ({ sqlCallService sampleUuid sampleVoiceProvider with
          callRepo := failingUpdateRepository sampleUuid }.InitiateCall sampleWorld "biz-1"
        sampleRequest 5 6).1.store.calls
        = [sampleCallA, sampleCallB, { sampleNewCall with ID := "uuid-0" }] := by
  obtain ⟨resp, hresp, hid, _⟩ := InitiateCall_success_despite_update
    { sqlCallService sampleUuid sampleVoiceProvider with
      callRepo := failingUpdateRepository sampleUuid } sampleWorld "biz-1"
    sampleRequest 5 6 sampleNewCall sampleSession (by decide) (by decide) (by decide)
    (by decide)
  exact ⟨⟨resp, hresp, hid⟩, by decide, by decide⟩

/-- C18: once the provider has returned an event and the store the call with
the event's vendor session id, `HandleWebhook` hands to `Update` the call after
`UpdateStatus` with the status of a fixed table: `in_progress` for
`call.started`, `completed` for `call.ended` and `call.completed`, `failed` for
`call.failed`; for any other event type it hands over the call as loaded. The
error returned is the one of that `Update`, so none when the update succeeds. -/
theorem HandleWebhook_event_table {σ π : Type} (s : CallService σ π)
    (w : World σ π) (payload signature : List UInt8) (now : time.Time)
    (event : providers.CallEvent) (call : Call)
    (hev : (s.voiceProvider.HandleWebhook w.provider payload signature).2 = .ok event)
    (hfound : (s.callRepo.GetByProviderCallID w.store event.CallID).2 = .ok call) :
    ∃ (updated : Call) (started : List Op),
      (s.HandleWebhook w payload signature now).1.ops
        = w.ops ++ [Op.providerHandleWebhook payload signature,
            Op.callGetByProviderCallID event.CallID] ++ started ++
            [Op.callUpdate updated] ∧
      (s.HandleWebhook w payload signature now).2
        = (s.callRepo.Update (s.callRepo.GetByProviderCallID w.store event.CallID).1
            updated).2 ∧
      (event.Type_ = "call.started" →
        updated = (UpdateStatus call CallStatusInProgress now).1 ∧
        updated.Status = CallStatusInProgress) ∧
      (event.Type_ = "call.ended" ∨ event.Type_ = "call.completed" →
        updated = (UpdateStatus call CallStatusCompleted now).1 ∧
        updated.Status = CallStatusCompleted) ∧
      (event.Type_ = "call.failed" →
        updated = (UpdateStatus call CallStatusFailed now).1 ∧
        updated.Status = CallStatusFailed) ∧
      (event.Type_ ≠ "call.started" → event.Type_ ≠ "call.ended" →
        event.Type_ ≠ "call.completed" → event.Type_ ≠ "call.failed" →
        updated = call ∧ started = []) := by
  refine ⟨(applyEvent call event now).1, (applyEvent call event now).2, ?_, ?_, ?_, ?_,
    ?_, ?_⟩
  · rw [HandleWebhook_found s w payload signature now event call hev hfound]
    simp [List.append_assoc]
  · rw [HandleWebhook_found s w payload signature now event call hev hfound]
  · intro h
    rw [applyEvent_started call event now h]
    exact ⟨rfl, UpdateStatus_known_Status call _ now (by decide)⟩
  · intro h
    rw [applyEvent_completed call event now h]
    exact ⟨rfl, UpdateStatus_known_Status call _ now (by decide)⟩
  · intro h
    rw [applyEvent_failed call event now h]
    exact ⟨rfl, UpdateStatus_known_Status call _ now (by decide)⟩
  · intro h1 h2 h3 h4
    rw [applyEvent_other call event now h1 h2 h3 h4]
    exact ⟨rfl, rfl⟩

/-- C18 on the sample world: the event `call.completed` for `v-99` at `3.5s`
stores the call `c-1` as `completed`, ended at `3.5s`, and an event of the
unknown type `call.ringing` stores it as it was; neither returns an error. -/
theorem HandleWebhook_event_table_witness :
    ((sqlCallService sampleUuid sampleVoiceProvider).HandleWebhook sampleWorld
        [] [] 3500000000).2 = none ∧
      (((sqlCallService sampleUuid sampleVoiceProvider).HandleWebhook sampleWorld
        [] [] 3500000000).1.store.calls.map (fun c => (c.ID, c.Status, c.EndedAt)))
        = [("c-1", CallStatusCompleted, some 3500000000),
            ("c-2", CallStatusInitiated, none)] ∧
      ((sqlCallService sampleUuid
          (scriptedProvider (.ok sampleSession)
            (.ok { sampleCompletedEvent with Type_ := "call.ringing" })
            (.ok sampleTranscript))).HandleWebhook sampleWorld [] [] 3500000000).1.store
        = sampleDB ∧
      ∃ updated started,
        ((sqlCallService sampleUuid sampleVoiceProvider).HandleWebhook sampleWorld
          [] [] 3500000000).1.ops
          = [Op.providerHandleWebhook [] [], Op.callGetByProviderCallID "v-99"] ++ started ++
              [Op.callUpdate updated] ∧
        updated.Status = CallStatusCompleted := by
  obtain ⟨updated, started, hops, _, _, hcompleted, _, _⟩ :=
    HandleWebhook_event_table (sqlCallService sampleUuid sampleVoiceProvider) sampleWorld
      [] [] 3500000000 sampleCompletedEvent sampleCallA (by decide) (by decide)
  exact ⟨by decide, by decide, by decide, updated, started, hops,
    (hcompleted (by decide)).2⟩

/-- C19: over the database, with a provider that reports the same
`call.completed` (or `call.ended`) event for a payload delivered twice and a
row that has the event's vendor session id, both deliveries return no error
and the second leaves the database exactly as the first left it; the stored
call is `completed` with `EndedAt` set. -/
theorem HandleWebhook_completed_twice {π : Type} (uuid : Nat → String)
    (vp : providers.VoiceProvider π) (w : World database.DB π)
    (payload signature : List UInt8) (now1 now2 : time.Time)
    (event1 event2 : providers.CallEvent) (call : Call)
    (hev1 : (vp.HandleWebhook w.provider payload signature).2 = .ok event1)
    (hev2 : (vp.HandleWebhook (vp.HandleWebhook w.provider payload signature).1
      payload signature).2 = .ok event2)
    (htype : event1.Type_ = "call.ended" ∨ event1.Type_ = "call.completed")
    (hsameType : event2.Type_ = event1.Type_)
    (hsameID : event2.CallID = event1.CallID)
    (hcall : w.store.calls.find? (fun row => row.ProviderCallID == event1.CallID)
      = some call) :
    ((sqlCallService uuid vp).HandleWebhook w payload signature now1).2 = none ∧
      ((sqlCallService uuid vp).HandleWebhook
        ((sqlCallService uuid vp).HandleWebhook w payload signature now1).1
        payload signature now2).2 = none ∧
      ((sqlCallService uuid vp).HandleWebhook
        ((sqlCallService uuid vp).HandleWebhook w payload signature now1).1
        payload signature now2).1.store
        = ((sqlCallService uuid vp).HandleWebhook w payload signature now1).1.store ∧
      ∃ stored : Call,
        ((sqlCallService uuid vp).HandleWebhook w payload signature now1).1.store.calls.find?
          (fun row => row.ProviderCallID == event1.CallID) = some stored ∧
        stored.Status = CallStatusCompleted ∧
        stored.EndedAt ≠ none ∧
        stored.StartedAt = call.StartedAt ∧
        stored.EndedAt = (UpdateStatus call CallStatusCompleted now1).1.EndedAt ∧
        stored.Duration = (UpdateStatus call CallStatusCompleted now1).1.Duration := by
  obtain ⟨c1, r1, hc1, _, herr1, herr2, hstore, _, hfind1, hstatus, hended, hstart, hend,
    hdur, _, _⟩ := sql_HandleWebhook_twice uuid vp w payload signature now1 now2 event1
      event2 call hev1 hev2 htype hsameType hsameID hcall
  rw [hc1] at hend hdur
  exact ⟨herr1, herr2, hstore, r1, hfind1, hstatus, hended, hstart, hend, hdur⟩

/-- C19 on the sample world: the event `call.completed` for `v-99` delivered at
`3.5s` and again at `9s` leaves the database of the first delivery, in which the
call `c-1` is `completed`, ended at `3.5s`. -/
theorem HandleWebhook_completed_twice_witness :
    sampleDeliveredTwice.store = sampleDeliveredOnce.store ∧
      (sampleDeliveredOnce.store.calls.map (fun c => (c.ID, c.Status, c.EndedAt)))
        = [("c-1", CallStatusCompleted, some 3500000000),
            ("c-2", CallStatusInitiated, none)] :=
  ⟨(HandleWebhook_completed_twice sampleUuid sampleVoiceProvider sampleWorld [] []
      3500000000 9000000000 sampleCompletedEvent sampleCompletedEvent sampleCallA
      (by decide) (by decide) (by decide) rfl rfl (by decide)).2.2.1,
    by decide⟩

/-- C20, as stated, fails: on the sample world the event `call.completed` for
`v-99` delivered twice starts two transcript fetches, and once both have run
the transcript stored for the call `c-1`, empty before, holds each of the two
fetched messages twice; `GetTranscript` returns four messages. -/
theorem transcript_fetched_twice_counterexample :
    sampleDeliveredTwice.ops.filter
        (fun op => op == Op.goFetchAndStoreTranscript "c-1" "v-99")
        = [Op.goFetchAndStoreTranscript "c-1" "v-99",
            Op.goFetchAndStoreTranscript "c-1" "v-99"] ∧
      database.storedMessages sampleWorld.store "c-1" = [] ∧
      database.storedMessages sampleFetchedTwice.store "c-1"
        = sampleTranscript.Messages ++ sampleTranscript.Messages ∧
      (database.storedMessages sampleFetchedTwice.store "c-1").count
        { Role := "assistant", Message := "Hello", Timestamp := 1100000000 } = 2 ∧
      ((sqlCallService sampleUuid sampleVoiceProvider).GetTranscript sampleFetchedTwice
        "biz-1" "c-1").2
        = .ok { CallID := "c-1",
                Messages := [{ Role := "assistant", Message := "Hello", Timestamp := 1100000000 },
                             { Role := "assistant", Message := "Hello", Timestamp := 1100000000 },
                             { Role := "user", Message := "Hi", Timestamp := 1200000000 },
                             { Role := "user", Message := "Hi", Timestamp := 1200000000 }] } := by
  refine ⟨by decide, by decide, by decide, by decide, by decide⟩

/-- C20, amended: over the database, the same `call.completed` (or `call.ended`)
event delivered twice starts two transcript fetches, one per delivery, both for
the call's id and the event's vendor session id; once both have run, with the
provider returning the same messages to each, two batches of these messages
have been written and the messages stored for the call are those stored before
followed by the fetched messages twice: every fetched message is stored once
per delivery. -/
theorem transcript_fetched_once_per_delivery {π : Type} (uuid : Nat → String)
    (vp : providers.VoiceProvider π) (w w1 w2 w3 w4 : World database.DB π)
    (payload signature : List UInt8) (now1 now2 : time.Time)
    (clock1 clock2 : Nat → time.Time)
    (event1 event2 : providers.CallEvent) (call : Call)
    (t1 t2 : providers.Transcript)
    (hev1 : (vp.HandleWebhook w.provider payload signature).2 = .ok event1)
    (hev2 : (vp.HandleWebhook (vp.HandleWebhook w.provider payload signature).1
      payload signature).2 = .ok event2)
    (htype : event1.Type_ = "call.ended" ∨ event1.Type_ = "call.completed")
    (hsameType : event2.Type_ = event1.Type_)
    (hsameID : event2.CallID = event1.CallID)
    (hcall : w.store.calls.find? (fun row => row.ProviderCallID == event1.CallID)
      = some call)
    (hw1 : w1 = ((sqlCallService uuid vp).HandleWebhook w payload signature now1).1)
    (hw2 : w2 = ((sqlCallService uuid vp).HandleWebhook w1 payload signature now2).1)
    (hw3 : w3 = (sqlCallService uuid vp).fetchAndStoreTranscript w2 call.ID
      event1.CallID clock1)
    (hw4 : w4 = (sqlCallService uuid vp).fetchAndStoreTranscript w3 call.ID
      event1.CallID clock2)
    (hget1 : (vp.GetTranscript w2.provider event1.CallID).2 = .ok t1)
    (hget2 : (vp.GetTranscript w3.provider event1.CallID).2 = .ok t2)
    (hmsgs : t2.Messages = t1.Messages) :
    (∃ u1 u2 : Call,
        w2.ops = w.ops ++ [Op.providerHandleWebhook payload signature,
          Op.callGetByProviderCallID event1.CallID,
          Op.goFetchAndStoreTranscript call.ID event1.CallID, Op.callUpdate u1,
          Op.providerHandleWebhook payload signature,
          Op.callGetByProviderCallID event1.CallID,
          Op.goFetchAndStoreTranscript call.ID event1.CallID, Op.callUpdate u2]) ∧
      (∃ batch1 batch2 : List Transcript,
        w4.ops = w2.ops ++ [Op.providerGetTranscript event1.CallID,
          Op.transcriptCreateBatch batch1, Op.providerGetTranscript event1.CallID,
          Op.transcriptCreateBatch batch2] ∧
        batch1.map database.messageOf = t1.Messages ∧
        batch2.map database.messageOf = t1.Messages) ∧
      database.storedMessages w4.store call.ID
        = database.storedMessages w.store call.ID ++ t1.Messages ++ t1.Messages ∧
      (∀ m, (database.storedMessages w4.store call.ID).count m
        = (database.storedMessages w.store call.ID).count m + 2 * t1.Messages.count m) := by
  obtain ⟨c1, r1, _, _, _, _, hstore2, hstore1, _, _, _, _, _, _, _, hops⟩ :=
    sql_HandleWebhook_twice uuid vp w payload signature now1 now2 event1 event2 call
      hev1 hev2 htype hsameType hsameID hcall
  rw [← hw1] at hstore2 hstore1 hops
  rw [← hw2] at hstore2 hops
  obtain ⟨hmsg3, _, _, hops3⟩ := sql_fetchAndStoreTranscript uuid vp w2 call.ID
    event1.CallID clock1 t1 hget1
  rw [← hw3] at hmsg3 hops3
  obtain ⟨hmsg4, _, _, hops4⟩ := sql_fetchAndStoreTranscript uuid vp w3 call.ID
    event1.CallID clock2 t2 hget2
  rw [← hw4] at hmsg4 hops4
  have hbefore : database.storedMessages w2.store call.ID
      = database.storedMessages w.store call.ID := by
    rw [hstore2, hstore1]
    rfl
  have hall : database.storedMessages w4.store call.ID
      = database.storedMessages w.store call.ID ++ t1.Messages ++ t1.Messages := by
    rw [hmsg4, hmsg3, hbefore, hmsgs]
  refine ⟨⟨c1, r1, hops⟩,
    ⟨transcriptEntities call.ID clock1 0 t1.Messages,
      transcriptEntities call.ID clock2 0 t2.Messages, ?_,
      transcriptEntities_messages call.ID clock1 t1.Messages 0, ?_⟩, hall, fun m => ?_⟩
  · rw [hops4, hops3]
    simp [List.append_assoc]
  · rw [← hmsgs]
    exact transcriptEntities_messages call.ID clock2 t2.Messages 0
  · rw [hall, List.count_append, List.count_append]
    omega

/-- C20 amended, on the sample world: two fetches are started, and the stored
transcript of the call `c-1` is the fetched pair of messages twice. -/
theorem transcript_fetched_once_per_delivery_witness :
    database.storedMessages sampleFetchedTwice.store "c-1"
        = database.storedMessages sampleWorld.store "c-1" ++ sampleTranscript.Messages ++
            sampleTranscript.Messages ∧
      (∀ m, (database.storedMessages sampleFetchedTwice.store "c-1").count m
        = (database.storedMessages sampleWorld.store "c-1").count m
            + 2 * sampleTranscript.Messages.count m) :=
  (transcript_fetched_once_per_delivery sampleUuid sampleVoiceProvider sampleWorld
    sampleDeliveredOnce sampleDeliveredTwice
    ((sqlCallService sampleUuid sampleVoiceProvider).fetchAndStoreTranscript
      sampleDeliveredTwice "c-1" "v-99" sampleClock)
    sampleFetchedTwice [] [] 3500000000 9000000000 sampleClock sampleClock
    sampleCompletedEvent sampleCompletedEvent sampleCallA sampleTranscript sampleTranscript
    (by decide) (by decide) (by decide) rfl rfl (by decide) rfl rfl rfl rfl
    (by decide) (by decide) rfl).2.2

end services

namespace hex

theorem hextable_getD_inj :
    ∀ i, i < 16 → ∀ j, j < 16 → hextable.getD i 0 = hextable.getD j 0 → i = j := by
  decide

/-- Two bytes with the same two digits are equal. -/
theorem digits_inj (x y : UInt8)
    (hhi : hextable.getD (x.toNat >>> 4) 0 = hextable.getD (y.toNat >>> 4) 0)
    (hlo : hextable.getD (x.toNat &&& 15) 0 = hextable.getD (y.toNat &&& 15) 0) :
    x = y := by
  have hx : x.toNat < 256 := UInt8.toNat_lt x
  have hy : y.toNat < 256 := UInt8.toNat_lt y
  have h16 : (2 : Nat) ^ 4 = 16 := by norm_num
  have hxs : x.toNat >>> 4 = x.toNat / 16 := by rw [Nat.shiftRight_eq_div_pow, h16]
  have hys : y.toNat >>> 4 = y.toNat / 16 := by rw [Nat.shiftRight_eq_div_pow, h16]
  have hxa : x.toNat &&& 15 = x.toNat % 16 := Nat.and_pow_two_sub_one_eq_mod x.toNat 4
  have hya : y.toNat &&& 15 = y.toNat % 16 := Nat.and_pow_two_sub_one_eq_mod y.toNat 4
  rw [hxs, hys] at hhi
  rw [hxa, hya] at hlo
  have h1 := hextable_getD_inj _ (by omega) _ (by omega) hhi
  have h2 := hextable_getD_inj _ (Nat.mod_lt _ (by decide)) _ (Nat.mod_lt _ (by decide)) hlo
  apply UInt8.ext
  omega

/-- The function `hex.EncodeToString` is injective. -/
theorem EncodeToString_inj : ∀ (a b : List UInt8),
    EncodeToString a = EncodeToString b → a = b
  | [], [], _ => rfl
  | [], y :: b, h => by simp [EncodeToString] at h
  | x :: a, [], h => by simp [EncodeToString] at h
  | x :: a, y :: b, h => by
    rw [EncodeToString, EncodeToString] at h
    simp only [List.cons.injEq] at h
    obtain ⟨hhi, hlo, hrest⟩ := h
    rw [digits_inj x y hhi hlo, EncodeToString_inj a b hrest]

end hex

namespace vapi

/-- With a non-empty secret and a signature valid for a payload, the signature
is accepted with another payload exactly when the two payloads have the same
HMAC-SHA256 under the secret. -/
theorem ValidateWebhookSignature_other_payload (v : VapiProvider)
    (payload payload' signature : List UInt8) (h : v.webhookSecret ≠ [])
    (hvalid : ValidateWebhookSignature v payload signature = true) :
    ValidateWebhookSignature v payload' signature = true ↔
      hmac.SumSHA256 v.webhookSecret payload' = hmac.SumSHA256 v.webhookSecret payload := by
  have hiff : ∀ p s, ValidateWebhookSignature v p s = true ↔
      s = hex.EncodeToString (hmac.SumSHA256 v.webhookSecret p) := by
    intro p s
    unfold ValidateWebhookSignature
    rw [if_neg h]
    exact hmac.Equal_iff _ _
  have hs := (hiff payload signature).mp hvalid
  rw [hiff payload' signature, hs]
  constructor
  · intro heq
    exact (hex.EncodeToString_inj _ _ heq).symm
  · intro heq
    rw [heq]

/-- The payload of the second test case of RFC 4231 with its last letter
changed is rejected with the MAC of the original payload. -/
theorem ValidateWebhookSignature_tampered_rfc4231 :
    ValidateWebhookSignature sampleProvider (asciiBytes "what do ya want for nothing?")
        (asciiBytes "5bdcc146bf60754e6a042426089575c75a003f089d2739839dec58b964ec3843")
          = true ∧
      ValidateWebhookSignature sampleProvider (asciiBytes "what do ya want for nothinG?")
        (asciiBytes "5bdcc146bf60754e6a042426089575c75a003f089d2739839dec58b964ec3843")
          = false := by
  constructor
  · set_option maxRecDepth 100000 in decide
  · set_option maxRecDepth 100000 in decide

end vapi

theorem utf8EncodeChar_ne_nil (c : Char) : String.utf8EncodeChar c ≠ [] := by
  unfold String.utf8EncodeChar
  simp only
  split_ifs <;> simp

/-- The conversion `[]byte(s)` is empty for the empty string only. -/
theorem stringBytes_eq_nil_iff (s : String) : stringBytes s = [] ↔ s = "" := by
  constructor
  · intro h
    have h' : s.data.flatMap String.utf8EncodeChar = [] := h
    cases hs : s.data with
    | nil =>
      apply String.ext
      rw [hs]
    | cons c rest =>
      rw [hs, List.flatMap_cons] at h'
      exact absurd (List.append_eq_nil.mp h').1 (utf8EncodeChar_ne_nil c)
  · intro h
    rw [h]
    rfl

namespace json

theorem skipSpace_length_le (data : List UInt8) : (skipSpace data).length ≤ data.length :=
  (List.dropWhile_sublist isSpace).length_le

theorem skipSpace_cons_length {data rest : List UInt8} {c : UInt8}
    (h : skipSpace data = c :: rest) : rest.length < data.length := by
  have := skipSpace_length_le data
  rw [h, List.length_cons] at this
  omega

theorem stringRune_length_le (c : UInt8) (rest : List UInt8) (ch : Char)
    (rest1 : List UInt8) (h : stringRune c rest = some (ch, rest1)) :
    rest1.length ≤ rest.length := by
  unfold stringRune at h
  split_ifs at h with h1 h2 h3
  · cases rest with
    | nil => simp at h
    | cons e rest0 =>
      simp only at h
      split_ifs at h with h4
      · split at h
        · simp at h
        · split_ifs at h with h5
          · split at h
            · split_ifs at h
              all_goals
                simp only [Option.some.injEq, Prod.mk.injEq] at h
                rw [← h.2, List.length_drop, List.length_cons]
                omega
            · simp only [Option.some.injEq, Prod.mk.injEq] at h
              rw [← h.2, List.length_drop, List.length_cons]
              omega
          · simp only [Option.some.injEq, Prod.mk.injEq] at h
            rw [← h.2, List.length_drop, List.length_cons]
            omega
      · split at h
        · simp only [Option.some.injEq, Prod.mk.injEq] at h
          rw [← h.2, List.length_cons]
          omega
        · simp at h
  · simp only [Option.some.injEq, Prod.mk.injEq] at h
    rw [← h.2]
  · simp only [Option.some.injEq, Prod.mk.injEq] at h
    rw [← h.2, List.length_drop]
    omega

/-- A string literal that is decoded with some fuel is decoded with every fuel
from the length of the input on, and ends before the end of the input. -/
theorem stringBody_enough : ∀ (fuel : Nat) (data : List UInt8) (acc : List Char)
    (r : String × List UInt8), stringBody fuel data acc = some r →
      r.2.length < data.length ∧
      ∀ fuel', data.length ≤ fuel' → stringBody fuel' data acc = some r
  | 0, data, acc, r, h => by
    cases data <;> simp [stringBody] at h
  | fuel + 1, [], acc, r, h => by
    simp [stringBody] at h
  | fuel + 1, c :: rest, acc, r, h => by
    rw [stringBody] at h
    by_cases hq : c = 0x22
    · rw [if_pos hq] at h
      simp only [Option.some.injEq] at h
      subst h
      refine ⟨by simp, ?_⟩
      intro fuel' hf
      cases fuel' with
      | zero => simp at hf
      | succ f => rw [stringBody, if_pos hq]
    · rw [if_neg hq] at h
      cases hs : stringRune c rest with
      | none => rw [hs] at h; simp at h
      | some p =>
        obtain ⟨ch, rest1⟩ := p
        rw [hs] at h
        simp only at h
        have hlen := stringRune_length_le c rest ch rest1 hs
        obtain ⟨h1, h2⟩ := stringBody_enough fuel rest1 (ch :: acc) r h
        refine ⟨by rw [List.length_cons]; omega, ?_⟩
        intro fuel' hf
        cases fuel' with
        | zero => simp at hf
        | succ f =>
          rw [stringBody, if_neg hq, hs]
          simp only
          apply h2
          rw [List.length_cons] at hf
          omega

theorem span_length (p : UInt8 → Bool) (l : List UInt8) :
    (l.span p).1.length + (l.span p).2.length = l.length := by
  rw [List.span_eq_take_drop]
  have h := congrArg List.length (List.takeWhile_append_dropWhile p l)
  rw [List.length_append] at h
  exact h

theorem intDigits_length (data : List UInt8) :
    (intDigits data).1.length + (intDigits data).2.length = data.length := by
  unfold intDigits
  cases data with
  | nil => rfl
  | cons d rest =>
    simp only
    split_ifs
    · simp [Nat.add_comm]
    · exact span_length isDigit (d :: rest)

theorem fracDigits_length_le (data frac rest : List UInt8)
    (h : fracDigits data = some (frac, rest)) : rest.length ≤ data.length := by
  unfold fracDigits at h
  cases data with
  | nil =>
    simp only [Option.some.injEq, Prod.mk.injEq] at h
    rw [← h.2]
  | cons c tail =>
    simp only at h
    split_ifs at h
    · simp only [Option.some.injEq] at h
      have hl := span_length isDigit tail
      rw [h] at hl
      simp only at hl
      rw [List.length_cons]
      omega
    · simp only [Option.some.injEq, Prod.mk.injEq] at h
      rw [← h.2]

theorem exponent_length_le (data rest : List UInt8) (e : Int)
    (h : exponent data = some (e, rest)) : rest.length ≤ data.length := by
  unfold exponent at h
  cases data with
  | nil =>
    simp only [Option.some.injEq, Prod.mk.injEq] at h
    rw [← h.2]
  | cons c tail =>
    have hl1 := span_length isDigit (tail.drop 1)
    have hl2 := span_length isDigit tail
    have hd := List.length_drop 1 tail
    simp only at h
    split_ifs at h <;> simp only [Option.some.injEq, Prod.mk.injEq] at h <;>
      rw [← h.2] <;> simp only [List.length_cons] <;> omega

/-- A number takes one byte at least. -/
theorem number_length_lt (data rest : List UInt8) (v : Any)
    (h : number data = some (v, rest)) : rest.length < data.length := by
  unfold number at h
  simp only at h
  split_ifs at h with h1 h2
  · cases hf : fracDigits (intDigits (data.drop 1)).2 with
    | none => rw [hf] at h; simp at h
    | some p =>
      obtain ⟨frac, rest1⟩ := p
      rw [hf] at h
      simp only at h
      cases he : exponent rest1 with
      | none => rw [he] at h; simp at h
      | some q =>
        obtain ⟨e, rest2⟩ := q
        rw [he] at h
        simp only at h
        split_ifs at h
        simp only [Option.some.injEq, Prod.mk.injEq] at h
        have l1 := intDigits_length (data.drop 1)
        have l2 := fracDigits_length_le _ _ _ hf
        have l3 := exponent_length_le _ _ _ he
        have l0 : 0 < (intDigits (data.drop 1)).1.length := List.length_pos.mpr (by assumption)
        rw [List.length_drop] at l1
        rw [← h.2]
        omega
  · cases hf : fracDigits (intDigits data).2 with
    | none => rw [hf] at h; simp at h
    | some p =>
      obtain ⟨frac, rest1⟩ := p
      rw [hf] at h
      simp only at h
      cases he : exponent rest1 with
      | none => rw [he] at h; simp at h
      | some q =>
        obtain ⟨e, rest2⟩ := q
        rw [he] at h
        simp only at h
        split_ifs at h
        simp only [Option.some.injEq, Prod.mk.injEq] at h
        have l1 := intDigits_length data
        have l2 := fracDigits_length_le _ _ _ hf
        have l3 := exponent_length_le _ _ _ he
        have l0 : 0 < (intDigits data).1.length := List.length_pos.mpr (by assumption)
        rw [← h.2]
        omega

theorem scalar_length_le (c : UInt8) (rest rest1 : List UInt8) (v : Any)
    (h : scalar c rest = some (v, rest1)) : rest1.length ≤ rest.length := by
  unfold scalar at h
  split_ifs at h with h1 h2 h3 h4 h5
  · cases hs : stringBody (rest.length + 1) rest [] with
    | none => rw [hs] at h; simp at h
    | some p =>
      obtain ⟨s, r1⟩ := p
      rw [hs] at h
      simp only [Option.some.injEq, Prod.mk.injEq] at h
      have := (stringBody_enough _ _ _ _ hs).1
      rw [← h.2]
      exact Nat.le_of_lt this
  · have := number_length_lt _ _ _ h
    rw [List.length_cons] at this
    omega
  · simp only [Option.some.injEq, Prod.mk.injEq] at h
    rw [← h.2, List.length_drop, List.length_cons]
    omega
  · simp only [Option.some.injEq, Prod.mk.injEq] at h
    rw [← h.2, List.length_drop, List.length_cons]
    omega
  · simp only [Option.some.injEq, Prod.mk.injEq] at h
    rw [← h.2, List.length_drop, List.length_cons]
    omega

theorem memberKey_length_lt (data rest2 : List UInt8) (key : String)
    (h : memberKey data = some (key, rest2)) : rest2.length < data.length := by
  unfold memberKey at h
  cases hd : skipSpace data with
  | nil => rw [hd] at h; simp at h
  | cons q rest =>
    rw [hd] at h
    simp only at h
    split_ifs at h
    cases hs : stringBody (rest.length + 1) rest [] with
    | none => rw [hs] at h; simp at h
    | some p =>
      obtain ⟨k, rest1⟩ := p
      rw [hs] at h
      simp only at h
      cases hc : skipSpace rest1 with
      | nil => rw [hc] at h; simp at h
      | cons colon r2 =>
        rw [hc] at h
        simp only at h
        split_ifs at h
        simp only [Option.some.injEq, Prod.mk.injEq] at h
        have l1 := skipSpace_cons_length hd
        have l2 := (stringBody_enough _ _ _ _ hs).1
        have l3 := skipSpace_cons_length hc
        simp only at l2
        rw [← h.2]
        omega

/-- A value, or the rest of an array or an object, that is decoded with some
fuel is decoded with every fuel from `enoughFuel` on, and ends before the end
of the input: the fuel that `Unmarshal` gives never cuts a decoding short. -/
theorem decode_enough : ∀ (fuel : Nat) (mode : Mode) (depth : Nat) (data : List UInt8)
    (r : Decoded × List UInt8), decode fuel mode depth data = some r →
      r.2.length < data.length ∧
      ∀ fuel', enoughFuel mode data.length ≤ fuel' → decode fuel' mode depth data = some r
  | 0, mode, depth, data, r, h => by
    simp [decode] at h
  | fuel + 1, .value, depth, data, r, h => by
    rw [decode] at h
    cases hd : skipSpace data with
    | nil => rw [hd] at h; simp at h
    | cons c rest =>
      rw [hd] at h
      simp only at h
      have hlen := skipSpace_cons_length hd
      have hrest := skipSpace_length_le rest
      by_cases hobj : c = 0x7B
      · rw [if_pos hobj] at h
        by_cases hdepth : maxNestingDepth < depth + 1
        · rw [if_pos hdepth] at h
          simp at h
        · rw [if_neg hdepth] at h
          by_cases hempty : (skipSpace rest).head? = some 0x7D
          · rw [if_pos hempty] at h
            simp only [Option.some.injEq] at h
            subst h
            refine ⟨?_, ?_⟩
            · simp only [List.length_drop]
              omega
            · intro fuel' hf
              cases fuel' with
              | zero => simp [enoughFuel] at hf
              | succ f =>
                rw [decode, hd]
                simp only
                rw [if_pos hobj, if_neg hdepth, if_pos hempty]
          · rw [if_neg hempty] at h
            obtain ⟨h1, h2⟩ := decode_enough fuel (.members []) (depth + 1) rest r h
            refine ⟨by omega, ?_⟩
            intro fuel' hf
            cases fuel' with
            | zero => simp [enoughFuel] at hf
            | succ f =>
              rw [decode, hd]
              simp only
              rw [if_pos hobj, if_neg hdepth, if_neg hempty]
              apply h2
              simp only [enoughFuel] at hf ⊢
              omega
      · rw [if_neg hobj] at h
        by_cases harr : c = 0x5B
        · rw [if_pos harr] at h
          by_cases hdepth : maxNestingDepth < depth + 1
          · rw [if_pos hdepth] at h
            simp at h
          · rw [if_neg hdepth] at h
            by_cases hempty : (skipSpace rest).head? = some 0x5D
            · rw [if_pos hempty] at h
              simp only [Option.some.injEq] at h
              subst h
              refine ⟨?_, ?_⟩
              · simp only [List.length_drop]
                omega
              · intro fuel' hf
                cases fuel' with
                | zero => simp [enoughFuel] at hf
                | succ f =>
                  rw [decode, hd]
                  simp only
                  rw [if_neg hobj, if_pos harr, if_neg hdepth, if_pos hempty]
            · rw [if_neg hempty] at h
              obtain ⟨h1, h2⟩ := decode_enough fuel .elements (depth + 1) rest r h
              refine ⟨by omega, ?_⟩
              intro fuel' hf
              cases fuel' with
              | zero => simp [enoughFuel] at hf
              | succ f =>
                rw [decode, hd]
                simp only
                rw [if_neg hobj, if_pos harr, if_neg hdepth, if_neg hempty]
                apply h2
                simp only [enoughFuel] at hf ⊢
                omega
        · rw [if_neg harr] at h
          cases hs : scalar c rest with
          | none => rw [hs] at h; simp at h
          | some p =>
            obtain ⟨v, rest1⟩ := p
            rw [hs] at h
            simp only [Option.some.injEq] at h
            subst h
            have hl := scalar_length_le c rest rest1 v hs
            refine ⟨by simp only; omega, ?_⟩
            intro fuel' hf
            cases fuel' with
            | zero => simp [enoughFuel] at hf
            | succ f =>
              rw [decode, hd]
              simp only
              rw [if_neg hobj, if_neg harr, hs]
  | fuel + 1, .elements, depth, data, r, h => by
    rw [decode] at h
    cases hv : decode fuel .value depth data with
    | none => rw [hv] at h; simp at h
    | some p =>
      obtain ⟨d, rest⟩ := p
      rw [hv] at h
      simp only at h
      obtain ⟨hv1, hv2⟩ := decode_enough fuel .value depth data (d, rest) hv
      simp only at hv1
      cases hd : skipSpace rest with
      | nil => rw [hd] at h; simp at h
      | cons c rest1 =>
        rw [hd] at h
        simp only at h
        have hlen := skipSpace_cons_length hd
        by_cases hcomma : c = 0x2C
        · rw [if_pos hcomma] at h
          obtain ⟨h1, h2⟩ := decode_enough fuel .elements depth rest1 r h
          refine ⟨by omega, ?_⟩
          intro fuel' hf
          cases fuel' with
          | zero => simp [enoughFuel] at hf
          | succ f =>
            simp only [enoughFuel] at hf
            rw [decode, hv2 f (by simp only [enoughFuel]; omega)]
            simp only
            rw [hd]
            simp only
            rw [if_pos hcomma]
            apply h2
            simp only [enoughFuel]
            omega
        · rw [if_neg hcomma] at h
          by_cases hclose : c = 0x5D
          · rw [if_pos hclose] at h
            simp only [Option.some.injEq] at h
            subst h
            refine ⟨by simp only; omega, ?_⟩
            intro fuel' hf
            cases fuel' with
            | zero => simp [enoughFuel] at hf
            | succ f =>
              simp only [enoughFuel] at hf
              rw [decode, hv2 f (by simp only [enoughFuel]; omega)]
              simp only
              rw [hd]
              simp only
              rw [if_neg hcomma, if_pos hclose]
          · rw [if_neg hclose] at h
            simp at h
  | fuel + 1, .members acc, depth, data, r, h => by
    rw [decode] at h
    cases hk : memberKey data with
    | none => rw [hk] at h; simp at h
    | some p =>
      obtain ⟨key, rest2⟩ := p
      rw [hk] at h
      simp only at h
      have hklen := memberKey_length_lt data rest2 key hk
      cases hv : decode fuel .value depth rest2 with
      | none => rw [hv] at h; simp at h
      | some q =>
        obtain ⟨d, rest3⟩ := q
        rw [hv] at h
        simp only at h
        obtain ⟨hv1, hv2⟩ := decode_enough fuel .value depth rest2 (d, rest3) hv
        simp only at hv1
        cases hd : skipSpace rest3 with
        | nil => rw [hd] at h; simp at h
        | cons c rest4 =>
          rw [hd] at h
          simp only at h
          have hlen := skipSpace_cons_length hd
          by_cases hcomma : c = 0x2C
          · rw [if_pos hcomma] at h
            obtain ⟨h1, h2⟩ := decode_enough fuel _ depth rest4 r h
            refine ⟨by omega, ?_⟩
            intro fuel' hf
            cases fuel' with
            | zero => simp [enoughFuel] at hf
            | succ f =>
              simp only [enoughFuel] at hf
              rw [decode, hk]
              simp only
              rw [hv2 f (by simp only [enoughFuel]; omega)]
              simp only
              rw [hd]
              simp only
              rw [if_pos hcomma]
              apply h2
              simp only [enoughFuel]
              omega
          · rw [if_neg hcomma] at h
            by_cases hclose : c = 0x7D
            · rw [if_pos hclose] at h
              simp only [Option.some.injEq] at h
              subst h
              refine ⟨by simp only; omega, ?_⟩
              intro fuel' hf
              cases fuel' with
              | zero => simp [enoughFuel] at hf
              | succ f =>
                simp only [enoughFuel] at hf
                rw [decode, hk]
                simp only
                rw [hv2 f (by simp only [enoughFuel]; omega)]
                simp only
                rw [hd]
                simp only
                rw [if_neg hcomma, if_pos hclose]
            · rw [if_neg hclose] at h
              simp at h

/-- The fuel of `Unmarshal` is enough: whatever a larger fuel decodes, it
decodes. -/
theorem decode_Unmarshal_fuel (fuel : Nat) (data : List UInt8)
    (r : Decoded × List UInt8) (h : decode fuel .value 0 data = some r) :
    decode (2 * data.length + 2) .value 0 data = some r :=
  (decode_enough fuel .value 0 data r h).2 _ (by simp only [enoughFuel]; omega)

end json

namespace json

theorem storeInMap_ok_iff (d : Decoded) (m : List (String × Any)) :
    storeInMap d = .ok m ↔ (d = .object m ∨ (d = .scalar Any.null ∧ m = [])) := by
  cases d with
  | scalar v =>
    cases v with
    | null =>
      constructor
      · intro h
        exact Or.inr ⟨rfl, (Except.ok.inj h).symm⟩
      · rintro (h | ⟨_, h⟩)
        · cases h
        · rw [h]
          rfl
    | str s =>
      constructor
      · intro h
        cases h
      · rintro (h | ⟨h, _⟩) <;> cases h
    | num n =>
      constructor
      · intro h
        cases h
      · rintro (h | ⟨h, _⟩) <;> cases h
    | bool b =>
      constructor
      · intro h
        cases h
      · rintro (h | ⟨h, _⟩) <;> cases h
    | nested j =>
      constructor
      · intro h
        cases h
      · rintro (h | ⟨h, _⟩) <;> cases h
    | float l =>
      constructor
      · intro h
        cases h
      · rintro (h | ⟨h, _⟩) <;> cases h
  | array =>
    constructor
    · intro h
      cases h
    · rintro (h | ⟨h, _⟩) <;> cases h
  | object members =>
    constructor
    · intro h
      exact Or.inl (congrArg Decoded.object (Except.ok.inj h))
    · rintro (h | ⟨h, _⟩)
      · cases h
        rfl
      · cases h

/-- An object that holds a number above the largest `float64` is refused, as
`strconv.ParseFloat` reports a range error for it. -/
theorem Unmarshal_number_out_of_range :
    Unmarshal (asciiBytes "\x7b\"type\":\"call.ended\",\"cost\":1e999\x7d")
      = .error "invalid JSON" := by
  set_option maxRecDepth 100000 in
  set_option exponentiation.threshold 2000 in
  decide

/-- The payloads that `Unmarshal` accepts, with its own fuel: those that hold,
between white space, one value that is an object, whose members are the map, or
the literal `null`, which leaves the map empty. -/
theorem Unmarshal_ok_iff_own_fuel (data : List UInt8) (m : List (String × Any)) :
    Unmarshal data = .ok m ↔
      ∃ rest, skipSpace rest = [] ∧
        (decode (2 * data.length + 2) .value 0 data = some (.object m, rest) ∨
          (decode (2 * data.length + 2) .value 0 data = some (.scalar Any.null, rest) ∧
            m = [])) := by
  unfold Unmarshal
  cases hd : decode (2 * data.length + 2) .value 0 data with
  | none =>
    constructor
    · intro h
      cases h
    · rintro ⟨_, _, h | ⟨h, _⟩⟩ <;> cases h
  | some r =>
    obtain ⟨d, rest⟩ := r
    show (if skipSpace rest ≠ [] then _ else storeInMap d) = .ok m ↔ _
    by_cases hrest : skipSpace rest = []
    · rw [if_neg (not_not.mpr hrest), storeInMap_ok_iff]
      constructor
      · rintro (h | ⟨h, hm⟩)
        · exact ⟨rest, hrest, Or.inl (by rw [h])⟩
        · exact ⟨rest, hrest, Or.inr ⟨by rw [h], hm⟩⟩
      · rintro ⟨rest', _, h | ⟨h, hm⟩⟩
        · exact Or.inl (congrArg Prod.fst (Option.some.inj h))
        · exact Or.inr ⟨congrArg Prod.fst (Option.some.inj h), hm⟩
    · rw [if_pos hrest]
      constructor
      · intro h
        cases h
      · rintro ⟨rest', hrest', h | ⟨h, _⟩⟩
        · have hr : rest = rest' := congrArg Prod.snd (Option.some.inj h)
          exact absurd (hr ▸ hrest') hrest
        · have hr : rest = rest' := congrArg Prod.snd (Option.some.inj h)
          exact absurd (hr ▸ hrest') hrest

/-- The payloads that `Unmarshal` accepts: those of which, with some fuel, the
decoder reads one value followed by white space at most, the value being an
object, whose members are the map, or the literal `null`, which leaves the map
empty. -/
theorem Unmarshal_ok_iff (data : List UInt8) (m : List (String × Any)) :
    Unmarshal data = .ok m ↔
      ∃ fuel rest, skipSpace rest = [] ∧
        (decode fuel .value 0 data = some (.object m, rest) ∨
          (decode fuel .value 0 data = some (.scalar Any.null, rest) ∧ m = [])) := by
  rw [Unmarshal_ok_iff_own_fuel]
  constructor
  · rintro ⟨rest, hrest, h⟩
    exact ⟨_, rest, hrest, h⟩
  · rintro ⟨fuel, rest, hrest, h | ⟨h, hm⟩⟩
    · exact ⟨rest, hrest, Or.inl (decode_Unmarshal_fuel fuel data _ h)⟩
    · exact ⟨rest, hrest, Or.inr ⟨decode_Unmarshal_fuel fuel data _ h, hm⟩⟩

end json

namespace vapi

open errors

/-- The entry of a key when it is a string. -/
theorem getString_of_string (data : List (String × Any)) (key s : String)
    (h : data.lookup key = some (Any.str s)) : getString data key = s := by
  simp only [getString, h]

/-- The empty string when the key is absent or its entry is not a string. -/
theorem getString_of_not_string (data : List (String × Any)) (key : String)
    (h : ∀ s, data.lookup key ≠ some (Any.str s)) : getString data key = "" := by
  unfold getString
  cases hl : data.lookup key with
  | none => rfl
  | some v =>
    cases v with
    | str s => exact absurd hl (h s)
    | num n => rfl
    | bool b => rfl
    | null => rfl
    | nested j => rfl
    | float l => rfl

theorem HandleWebhook_unauthorized (v : VapiProvider)
    (parseRFC3339 : String → Option time.Time) (payload signature : List UInt8)
    (now : time.Time) (h : ValidateWebhookSignature v payload signature = false) :
    HandleWebhook v parseRFC3339 payload signature now
      = .error (.domain (NewUnauthorizedError "invalid webhook signature")) := by
  simp only [HandleWebhook, h, if_true]

theorem HandleWebhook_malformed (v : VapiProvider)
    (parseRFC3339 : String → Option time.Time) (payload signature : List UInt8)
    (now : time.Time) (msg : String)
    (h : ValidateWebhookSignature v payload signature = true)
    (hjson : json.Unmarshal payload = .error msg) :
    HandleWebhook v parseRFC3339 payload signature now
      = .error (.domain (NewInvalidInputError "invalid webhook payload")) := by
  simp only [HandleWebhook, h, hjson, Bool.true_eq_false, if_false]

/-- A payload that is accepted and decoded: the event, but for its
timestamp. -/
theorem HandleWebhook_decoded (v : VapiProvider)
    (parseRFC3339 : String → Option time.Time) (payload signature : List UInt8)
    (now : time.Time) (data : List (String × Any))
    (h : ValidateWebhookSignature v payload signature = true)
    (hjson : json.Unmarshal payload = .ok data) :
    ∃ t, HandleWebhook v parseRFC3339 payload signature now
      = .ok { Type_ := getString data "type", CallID := getString data "callId",
              Status := getString data "status", Timestamp := t, Data := data } := by
  simp only [HandleWebhook, h, hjson, Bool.true_eq_false, if_false]
  split_ifs
  · cases parseRFC3339 (getString data "timestamp") with
    | none => exact ⟨now, rfl⟩
    | some t => exact ⟨t, rfl⟩
  · exact ⟨now, rfl⟩

end vapi

namespace database

/-- An update of the last row of the table, when no other row has its `ID`:
the row is replaced by the call written. -/
theorem map_updateRow_append_last (c r : entities.Call) (rows : List entities.Call)
    (hfresh : ∀ row ∈ rows, row.ID ≠ c.ID) (hid : r.ID = c.ID)
    (hb : r.BusinessID = c.BusinessID) (hcr : r.CreatedAt = c.CreatedAt) :
    (rows ++ [r]).map (updateRow c) = rows ++ [c] := by
  have hrows : rows.map (updateRow c) = rows := by
    have h : ∀ row ∈ rows, updateRow c row = id row :=
      fun row hrow => updateRow_of_ne c row (hfresh row hrow)
    rw [List.map_congr_left h, List.map_id]
  have hr : updateRow c r = c := by
    rw [updateRow_of_eq c r hid]
    cases c
    cases r
    simp only at hid hb hcr
    subst hid hb hcr
    rfl
  rw [List.map_append, hrows, List.map_singleton, hr]

theorem find_ProviderCallID_append_last (r : entities.Call) (rows : List entities.Call)
    (pid : String) (hfresh : ∀ row ∈ rows, row.ProviderCallID ≠ pid)
    (h : r.ProviderCallID = pid) :
    (rows ++ [r]).find? (fun row => row.ProviderCallID == pid) = some r := by
  have hnone : rows.find? (fun row => row.ProviderCallID == pid) = none := by
    rw [List.find?_eq_none]
    intro row hrow
    simpa using hfresh row hrow
  rw [List.find?_append, hnone]
  simp [h]

theorem find_ID_append_last (r : entities.Call) (rows : List entities.Call)
    (id : String) (hfresh : ∀ row ∈ rows, row.ID ≠ id) (h : r.ID = id) :
    (rows ++ [r]).find? (fun row => row.ID == id) = some r := by
  have hnone : rows.find? (fun row => row.ID == id) = none := by
    rw [List.find?_eq_none]
    intro row hrow
    simpa using hfresh row hrow
  rw [List.find?_append, hnone]
  simp [h]

end database

namespace services

open errors entities

theorem applyEvent_frame (call : Call) (event : providers.CallEvent) (now : time.Time) :
    (applyEvent call event now).1.ID = call.ID ∧
      (applyEvent call event now).1.BusinessID = call.BusinessID ∧
      (applyEvent call event now).1.ProviderCallID = call.ProviderCallID ∧
      (applyEvent call event now).1.CreatedAt = call.CreatedAt := by
  unfold applyEvent
  split_ifs
  · exact ⟨(UpdateStatus_frame call _ now).1, (UpdateStatus_frame call _ now).2.1,
      (UpdateStatus_frame call _ now).2.2.1, (UpdateStatus_frame call _ now).2.2.2.2.2⟩
  · exact ⟨(UpdateStatus_frame call _ now).1, (UpdateStatus_frame call _ now).2.1,
      (UpdateStatus_frame call _ now).2.2.1, (UpdateStatus_frame call _ now).2.2.2.2.2⟩
  · exact ⟨(UpdateStatus_frame call _ now).1, (UpdateStatus_frame call _ now).2.1,
      (UpdateStatus_frame call _ now).2.2.1, (UpdateStatus_frame call _ now).2.2.2.2.2⟩
  · exact ⟨rfl, rfl, rfl, rfl⟩

/-- A call initiated over the database, when the identifier drawn is not that
of a row and the provider accepts the call: the new row is the last of the
table and holds the session of the provider. -/
theorem sql_InitiateCall_fresh {π : Type} (uuid : Nat → String)
    (vp : providers.VoiceProvider π) (w : World database.DB π) (businessID : String)
    (req : dto.InitiateCallRequest) (now nowFailed : time.Time)
    (session : providers.CallSession) (c1 : Call)
    (hb : businessID ≠ "") (hp : req.PhoneNumber ≠ "")
    (hfresh : ∀ row ∈ w.store.calls, row.ID ≠ uuid w.store.uuids)
    (hprov : (vp.InitiateCall w.provider
      (providerRequest businessID req (uuid w.store.uuids))).2 = .ok session)
    (hc1 : c1 = { ID := uuid w.store.uuids, BusinessID := businessID,
                  ProviderCallID := session.ID, CallerPhone := req.PhoneNumber,
                  Duration := 0, Status := CallStatusInitiated, Cost := 0,
                  StartedAt := none, EndedAt := none, CreatedAt := now }) :
    ((sqlCallService uuid vp).InitiateCall w businessID req now nowFailed).2
        = .ok (mapCallToResponse c1) ∧
      ((sqlCallService uuid vp).InitiateCall w businessID req now nowFailed).1.store.calls
        = w.store.calls ++ [c1] ∧
      ((sqlCallService uuid vp).InitiateCall w businessID req now nowFailed).1.store.transcripts
        = w.store.transcripts ∧
      ((sqlCallService uuid vp).InitiateCall w businessID req now nowFailed).1.provider
        = (vp.InitiateCall w.provider
            (providerRequest businessID req (uuid w.store.uuids))).1 := by
  have hnew : NewCall businessID req.PhoneNumber now
      = .ok { ID := "", BusinessID := businessID, ProviderCallID := "",
              CallerPhone := req.PhoneNumber, Duration := 0,
              Status := CallStatusInitiated, Cost := 0,
              StartedAt := none, EndedAt := none, CreatedAt := now } := by
    simp only [NewCall, hb, hp, if_false]
  have hcalls : (w.store.calls ++
      [({ ID := uuid w.store.uuids, BusinessID := businessID, ProviderCallID := "",
          CallerPhone := req.PhoneNumber, Duration := 0, Status := CallStatusInitiated,
          Cost := 0, StartedAt := none, EndedAt := none, CreatedAt := now } : Call)]).map
        (database.updateRow c1) = w.store.calls ++ [c1] := by
    apply database.map_updateRow_append_last
    · intro row hrow
      rw [hc1]
      exact hfresh row hrow
    · rw [hc1]
    · rw [hc1]
    · rw [hc1]
  rw [InitiateCall_success (sqlCallService uuid vp) w businessID req now nowFailed _ session
    hp hnew rfl hprov]
  have hupd := database.CallRepositoryImpl_Update_present uuid
    { w.store with
      calls := w.store.calls ++
        [({ ID := uuid w.store.uuids, BusinessID := businessID, ProviderCallID := "",
            CallerPhone := req.PhoneNumber, Duration := 0, Status := CallStatusInitiated,
            Cost := 0, StartedAt := none, EndedAt := none, CreatedAt := now } : Call)]
      uuids := w.store.uuids + 1 }
    c1
    { ID := uuid w.store.uuids, BusinessID := businessID, ProviderCallID := "",
      CallerPhone := req.PhoneNumber, Duration := 0, Status := CallStatusInitiated,
      Cost := 0, StartedAt := none, EndedAt := none, CreatedAt := now }
    (by simp) (by rw [hc1])
  subst hc1
  refine ⟨rfl, ?_, ?_, rfl⟩
  · exact (congrArg (fun r => r.1.calls) hupd).trans hcalls
  · exact congrArg (fun r => r.1.transcripts) hupd

/-- A webhook handled over the database when the call of the event's session is
the last row of the table and no other row has its `ID` or its session: the
row is replaced by the call after the event. -/
theorem sql_HandleWebhook_last_row {π : Type} (uuid : Nat → String)
    (vp : providers.VoiceProvider π) (w : World database.DB π)
    (payload signature : List UInt8) (now : time.Time)
    (event : providers.CallEvent) (rows : List Call) (c : Call)
    (hev : (vp.HandleWebhook w.provider payload signature).2 = .ok event)
    (hcalls : w.store.calls = rows ++ [c])
    (hfreshID : ∀ row ∈ rows, row.ID ≠ c.ID)
    (hfreshSession : ∀ row ∈ rows, row.ProviderCallID ≠ event.CallID)
    (hsession : c.ProviderCallID = event.CallID) :
    ((sqlCallService uuid vp).HandleWebhook w payload signature now).2 = none ∧
      ((sqlCallService uuid vp).HandleWebhook w payload signature now).1.store.calls
        = rows ++ [(applyEvent c event now).1] ∧
      ((sqlCallService uuid vp).HandleWebhook w payload signature now).1.store.transcripts
        = w.store.transcripts ∧
      ((sqlCallService uuid vp).HandleWebhook w payload signature now).1.store.uuids
        = w.store.uuids ∧
      ((sqlCallService uuid vp).HandleWebhook w payload signature now).1.provider
        = (vp.HandleWebhook w.provider payload signature).1 ∧
      ((sqlCallService uuid vp).HandleWebhook w payload signature now).1.ops
        = w.ops ++ ([Op.providerHandleWebhook payload signature,
            Op.callGetByProviderCallID event.CallID] ++ (applyEvent c event now).2 ++
            [Op.callUpdate (applyEvent c event now).1]) := by
  have hcall : w.store.calls.find? (fun row => row.ProviderCallID == event.CallID)
      = some c := by
    rw [hcalls]
    exact database.find_ProviderCallID_append_last c rows event.CallID hfreshSession hsession
  have hframe := applyEvent_frame c event now
  have hmap : w.store.calls.map (database.updateRow (applyEvent c event now).1)
      = rows ++ [(applyEvent c event now).1] := by
    rw [hcalls]
    apply database.map_updateRow_append_last
    · intro row hrow
      rw [hframe.1]
      exact hfreshID row hrow
    · exact hframe.1.symm
    · exact hframe.2.1.symm
    · exact hframe.2.2.2.symm
  rw [sql_HandleWebhook_found uuid vp w payload signature now event c hev hcall]
  refine ⟨rfl, hmap, rfl, rfl, rfl, ?_⟩
  simp [List.append_assoc]

/-- The response of `GetTranscript` over the database for a call of the
business: the messages stored for the call, sorted by timestamp. -/
theorem sql_GetTranscript_found {π : Type} (uuid : Nat → String)
    (vp : providers.VoiceProvider π) (w : World database.DB π)
    (businessID callID : String) (call : Call)
    (hcall : w.store.calls.find? (fun row => row.ID == callID) = some call)
    (hb : call.BusinessID = businessID) :
    ((sqlCallService uuid vp).GetTranscript w businessID callID).2
      = .ok { CallID := callID,
              Messages := ((database.storedMessages w.store callID).insertionSort
                (fun a b => a.Timestamp ≤ b.Timestamp)).map messageResponse } := by
  have hget := database.CallRepositoryImpl_GetByID_found uuid w.store callID call hcall
  have hfound : ((sqlCallService uuid vp).callRepo.GetByID w.store callID).2 = .ok call := by
    show ((database.CallRepositoryImpl uuid).GetByID w.store callID).2 = _
    rw [hget]
  have hstore : ((sqlCallService uuid vp).callRepo.GetByID w.store callID).1 = w.store := by
    show ((database.CallRepositoryImpl uuid).GetByID w.store callID).1 = _
    rw [hget]
  have hsort : ((w.store.transcripts.filter (fun row => row.CallID == callID)).insertionSort
      (fun a b => a.Timestamp ≤ b.Timestamp)).map database.messageOf
      = (database.storedMessages w.store callID).insertionSort
          (fun a b => a.Timestamp ≤ b.Timestamp) := by
    unfold database.storedMessages
    apply List.map_insertionSort
    intro a _ b _
    exact Iff.rfl
  have hnot : ¬ call.BusinessID ≠ businessID := not_not.mpr hb
  simp only [CallService.GetTranscript, hfound, hstore, hnot, if_false]
  rw [← hsort, List.map_map]
  rfl

end services

namespace entities

open errors

/-- C26: `NewCall` returns an error exactly when the business id or the
caller's phone is empty, and that error is a validation error; with both
non-empty it returns a call that carries the two values, with status
`initiated`, no `StartedAt`, no `EndedAt`, `Duration` 0 and an empty
`ProviderCallID`. -/
theorem NewCall_error_iff_empty (businessID callerPhone : String) (now : time.Time) :
    ((∃ e, NewCall businessID callerPhone now = .error e) ↔
        (businessID = "" ∨ callerPhone = "")) ∧
      (∀ e, NewCall businessID callerPhone now = .error e →
        e.Code = ErrCodeValidationError) ∧
      (businessID ≠ "" → callerPhone ≠ "" →
        ∃ c, NewCall businessID callerPhone now = .ok c ∧
          c.BusinessID = businessID ∧ c.CallerPhone = callerPhone ∧
          c.Status = CallStatusInitiated ∧ c.StartedAt = none ∧ c.EndedAt = none ∧
          c.Duration = 0 ∧ c.ProviderCallID = "") := by
  by_cases hb : businessID = ""
  · have h : NewCall businessID callerPhone now
        = .error (NewValidationError "business_id is required") := by
      simp only [NewCall, hb, if_true]
    refine ⟨⟨fun _ => Or.inl hb, fun _ => ⟨_, h⟩⟩, ?_, fun hne => absurd hb hne⟩
    intro e he
    rw [h] at he
    cases he
    rfl
  · by_cases hp : callerPhone = ""
    · have h : NewCall businessID callerPhone now
          = .error (NewValidationError "caller_phone is required") := by
        simp only [NewCall, hb, hp, if_true, if_false]
      refine ⟨⟨fun _ => Or.inr hp, fun _ => ⟨_, h⟩⟩, ?_, fun _ hne => absurd hp hne⟩
      intro e he
      rw [h] at he
      cases he
      rfl
    · have h : NewCall businessID callerPhone now
          = .ok { ID := "", BusinessID := businessID, ProviderCallID := "",
                  CallerPhone := callerPhone, Duration := 0,
                  Status := CallStatusInitiated, Cost := 0,
                  StartedAt := none, EndedAt := none, CreatedAt := now } := by
        simp only [NewCall, hb, hp, if_false]
      refine ⟨⟨?_, ?_⟩, ?_, fun _ _ => ⟨_, h, rfl, rfl, rfl, rfl, rfl, rfl, rfl⟩⟩
      · rintro ⟨e, he⟩
        rw [h] at he
        cases he
      · rintro (h1 | h1)
        · exact absurd h1 hb
        · exact absurd h1 hp
      · intro e he
        rw [h] at he
        cases he

/-- C26 on examples: a call for `biz-1` to `+15551234567` is built, and a call
without a phone number is refused with a validation error. -/
theorem NewCall_error_iff_empty_witness :
    (∃ c, NewCall "biz-1" "+15551234567" 5 = .ok c ∧
        c.BusinessID = "biz-1" ∧ c.CallerPhone = "+15551234567" ∧
        c.Status = CallStatusInitiated ∧ c.StartedAt = none ∧ c.EndedAt = none ∧
        c.Duration = 0 ∧ c.ProviderCallID = "") ∧
      (∃ e, NewCall "biz-1" "" 5 = .error e) ∧
      (∀ e, NewCall "biz-1" "" 5 = .error e → e.Code = ErrCodeValidationError) :=
  ⟨(NewCall_error_iff_empty "biz-1" "+15551234567" 5).2.2 (by decide) (by decide),
    (NewCall_error_iff_empty "biz-1" "" 5).1.mpr (Or.inr rfl),
    (NewCall_error_iff_empty "biz-1" "" 5).2.1⟩

/-- C27: `Confirm` returns no error exactly when the status is `pending`, and
then the status is `confirmed` and `ConfirmedAt` is the instant of the call;
`Complete` returns no error exactly when the status is `confirmed`, and then
the status is `completed`; `Cancel` returns no error exactly when the status is
not `completed`, and then the status is `cancelled`. A call that returns an
error returns a validation error and leaves the appointment as it was, so no
sequence of the three operations changes a completed appointment. -/
theorem AppointmentRequest_transitions (a : AppointmentRequest) (now : time.Time) :
    (((a.Confirm now).2 = none ↔ a.Status = AppointmentStatusPending) ∧
        (a.Status = AppointmentStatusPending →
          (a.Confirm now).1.Status = AppointmentStatusConfirmed ∧
          (a.Confirm now).1.ConfirmedAt = some now) ∧
        (∀ e, (a.Confirm now).2 = some e →
          e.Code = ErrCodeValidationError ∧ (a.Confirm now).1 = a)) ∧
      ((a.Complete.2 = none ↔ a.Status = AppointmentStatusConfirmed) ∧
        (a.Status = AppointmentStatusConfirmed →
          a.Complete.1.Status = AppointmentStatusCompleted) ∧
        (∀ e, a.Complete.2 = some e →
          e.Code = ErrCodeValidationError ∧ a.Complete.1 = a)) ∧
      ((a.Cancel.2 = none ↔ a.Status ≠ AppointmentStatusCompleted) ∧
        (a.Status ≠ AppointmentStatusCompleted →
          a.Cancel.1.Status = AppointmentStatusCancelled) ∧
        (∀ e, a.Cancel.2 = some e →
          e.Code = ErrCodeValidationError ∧ a.Cancel.1 = a)) ∧
      (a.Status = AppointmentStatusCompleted →
        ∀ ops : List AppointmentOp, a.applyAll ops = a) := by
  refine ⟨⟨?_, ?_, ?_⟩, ⟨?_, ?_, ?_⟩, ⟨?_, ?_, ?_⟩, ?_⟩
  · by_cases h : a.Status = AppointmentStatusPending
    · simp [AppointmentRequest.Confirm, h]
    · simp [AppointmentRequest.Confirm, h]
  · intro h
    simp [AppointmentRequest.Confirm, h]
  · intro e he
    by_cases h : a.Status = AppointmentStatusPending
    · simp [AppointmentRequest.Confirm, h] at he
    · simp only [AppointmentRequest.Confirm, ne_eq, h, not_false_eq_true, if_true,
        Option.some.injEq] at he ⊢
      rw [← he]
      exact ⟨rfl, trivial⟩
  · by_cases h : a.Status = AppointmentStatusConfirmed
    · simp [AppointmentRequest.Complete, h]
    · simp [AppointmentRequest.Complete, h]
  · intro h
    simp [AppointmentRequest.Complete, h]
  · intro e he
    by_cases h : a.Status = AppointmentStatusConfirmed
    · simp [AppointmentRequest.Complete, h] at he
    · simp only [AppointmentRequest.Complete, ne_eq, h, not_false_eq_true, if_true,
        Option.some.injEq] at he ⊢
      rw [← he]
      exact ⟨rfl, trivial⟩
  · by_cases h : a.Status = AppointmentStatusCompleted
    · simp [AppointmentRequest.Cancel, h]
    · simp [AppointmentRequest.Cancel, h]
  · intro h
    simp [AppointmentRequest.Cancel, h]
  · intro e he
    by_cases h : a.Status = AppointmentStatusCompleted
    · simp only [AppointmentRequest.Cancel, h, if_true, Option.some.injEq] at he ⊢
      rw [← he]
      exact ⟨rfl, trivial⟩
    · simp [AppointmentRequest.Cancel, h] at he
  · intro h ops
    induction ops with
    | nil => rfl
    | cons op rest ih =>
      have hstep : a.apply op = a := by
        cases op with
        | confirm t =>
          have hne : a.Status ≠ AppointmentStatusPending := by rw [h]; decide
          simp [AppointmentRequest.apply, AppointmentRequest.Confirm, hne]
        | cancel => simp [AppointmentRequest.apply, AppointmentRequest.Cancel, h]
        | complete =>
          have hne : a.Status ≠ AppointmentStatusConfirmed := by rw [h]; decide
          simp [AppointmentRequest.apply, AppointmentRequest.Complete, hne]
      show (rest.foldl AppointmentRequest.apply (a.apply op)) = a
      rw [hstep]
      exact ih

/-- C27 on the appointment of the tests: pending, it is confirmed at the
instant `7`; confirmed, it is completed; completed, it refuses `Cancel` and is
left unchanged by every sequence of operations. -/
theorem AppointmentRequest_transitions_witness :
    ((samplePending.Confirm 7).1.Status = AppointmentStatusConfirmed ∧
        (samplePending.Confirm 7).1.ConfirmedAt = some 7) ∧
      (samplePending.Confirm 7).1.Complete.1.Status = AppointmentStatusCompleted ∧
      (samplePending.Confirm 7).1.Complete.1.Cancel.2 ≠ none ∧
      ∀ ops : List AppointmentOp,
        (samplePending.Confirm 7).1.Complete.1.applyAll ops
          = (samplePending.Confirm 7).1.Complete.1 :=
  ⟨(AppointmentRequest_transitions samplePending 7).1.2.1 (by decide),
    (AppointmentRequest_transitions (samplePending.Confirm 7).1 7).2.1.2.1 (by decide),
    by decide,
    (AppointmentRequest_transitions (samplePending.Confirm 7).1.Complete.1 7).2.2.2
      (by decide)⟩

/-- C28: `Business.Update` returns no error; each of `Name`, `Type` and `Phone`
takes the argument when that is not the empty string and keeps its value when
it is, `Settings` takes the argument when that is not nil and keeps its value
when it is; `ID` and `CreatedAt` are kept and `UpdatedAt` is the instant of the
call. A business that passes `Validate` passes it after the update. -/
theorem Business_Update_overwrites_nonempty (b : Business)
    (name businessType phone : String) (settings : Option (List (String × Any)))
    (now : time.Time) :
    (b.Update name businessType phone settings now).2 = none ∧
      ((name ≠ "" → (b.Update name businessType phone settings now).1.Name = name) ∧
        (name = "" → (b.Update name businessType phone settings now).1.Name = b.Name)) ∧
      ((businessType ≠ "" →
          (b.Update name businessType phone settings now).1.Type_ = businessType) ∧
        (businessType = "" →
          (b.Update name businessType phone settings now).1.Type_ = b.Type_)) ∧
      ((phone ≠ "" → (b.Update name businessType phone settings now).1.Phone = phone) ∧
        (phone = "" → (b.Update name businessType phone settings now).1.Phone = b.Phone)) ∧
      ((settings ≠ none →
          (b.Update name businessType phone settings now).1.Settings = settings) ∧
        (settings = none →
          (b.Update name businessType phone settings now).1.Settings = b.Settings)) ∧
      (b.Update name businessType phone settings now).1.ID = b.ID ∧
      (b.Update name businessType phone settings now).1.CreatedAt = b.CreatedAt ∧
      (b.Update name businessType phone settings now).1.UpdatedAt = now ∧
      (b.Validate = none →
        (b.Update name businessType phone settings now).1.Validate = none) := by
  have hName : (b.Update name businessType phone settings now).1.Name
      = if name ≠ "" then name else b.Name := by
    unfold Business.Update
    split_ifs <;> rfl
  have hType : (b.Update name businessType phone settings now).1.Type_
      = if businessType ≠ "" then businessType else b.Type_ := by
    unfold Business.Update
    split_ifs <;> rfl
  have hPhone : (b.Update name businessType phone settings now).1.Phone
      = if phone ≠ "" then phone else b.Phone := by
    unfold Business.Update
    split_ifs <;> rfl
  have hSettings : (b.Update name businessType phone settings now).1.Settings
      = if settings ≠ none then settings else b.Settings := by
    unfold Business.Update
    split_ifs <;> rfl
  refine ⟨rfl, ⟨?_, ?_⟩, ⟨?_, ?_⟩, ⟨?_, ?_⟩, ⟨?_, ?_⟩, ?_, ?_, rfl, ?_⟩
  · intro h
    rw [hName, if_pos h]
  · intro h
    rw [hName, if_neg (not_not.mpr h)]
  · intro h
    rw [hType, if_pos h]
  · intro h
    rw [hType, if_neg (not_not.mpr h)]
  · intro h
    rw [hPhone, if_pos h]
  · intro h
    rw [hPhone, if_neg (not_not.mpr h)]
  · intro h
    rw [hSettings, if_pos h]
  · intro h
    rw [hSettings, if_neg (not_not.mpr h)]
  · unfold Business.Update
    split_ifs <;> rfl
  · unfold Business.Update
    split_ifs <;> rfl
  · intro hv
    have hn : b.Name ≠ "" := by
      intro h
      simp [Business.Validate, h] at hv
    have hp : b.Phone ≠ "" := by
      intro h
      simp [Business.Validate, hn, h] at hv
    have hn' : (b.Update name businessType phone settings now).1.Name ≠ "" := by
      rw [hName]
      split_ifs with h
      · exact h
      · exact hn
    have hp' : (b.Update name businessType phone settings now).1.Phone ≠ "" := by
      rw [hPhone]
      split_ifs with h
      · exact h
      · exact hp
    simp only [Business.Validate, hn', hp', if_false]

/-- C28 on the business of the tests: the update with the name `Updated`, no
type, no phone and no settings, at the instant `9`, changes the name and
`UpdatedAt` only, and the business still passes `Validate`. -/
theorem Business_Update_overwrites_nonempty_witness :
    (sampleBusiness.Update "Updated" "" "" none 9).1
        = { sampleBusiness with Name := "Updated", UpdatedAt := 9 } ∧
      sampleBusiness.Validate = none ∧
      (sampleBusiness.Update "Updated" "" "" none 9).1.Validate = none :=
  ⟨by decide, by decide,
    (Business_Update_overwrites_nonempty sampleBusiness "Updated" "" "" none 9).2.2.2.2.2.2.2.2
      (by decide)⟩

end entities

namespace providers

/-- C29: the provider that `CreateProvider` builds for the type `vapi` has the
bytes of the configured `Vapi.WebhookURL` as its webhook secret, so its
signature check compares the signature with the hexadecimal HMAC-SHA256 of the
payload under that URL when the URL is not empty, and accepts every payload
with every signature when the URL is empty. The empty URL is what `Load` yields
when `VAPI_WEBHOOK_URL` is not set, and `Validate` does not read the URL. -/
theorem CreateProvider_secret_is_WebhookURL (cfg : config.Config) :
    (∃ v, (NewProviderFactory cfg).CreateProvider ProviderTypeVapi = .ok v ∧
        v.apiKey = cfg.Vapi.APIKey ∧ v.baseURL = cfg.Vapi.APIBaseURL ∧
        v.webhookSecret = stringBytes cfg.Vapi.WebhookURL ∧
        (cfg.Vapi.WebhookURL ≠ "" → ∀ payload signature : List UInt8,
          vapi.ValidateWebhookSignature v payload signature
            = hmac.Equal signature
                (hex.EncodeToString
                  (hmac.SumSHA256 (stringBytes cfg.Vapi.WebhookURL) payload))) ∧
        (cfg.Vapi.WebhookURL = "" → ∀ payload signature : List UInt8,
          vapi.ValidateWebhookSignature v payload signature = true)) ∧
      (∀ url : String,
        config.Config.Validate { cfg with Vapi := { cfg.Vapi with WebhookURL := url } }
          = cfg.Validate) ∧
      (∀ env : config.Environment, env.getenv "VAPI_WEBHOOK_URL" = "" →
        env.getenv "DATABASE_URL" ≠ "" → env.getenv "JWT_SECRET_KEY" ≠ "" →
        env.getenv "VAPI_API_KEY" ≠ "" →
        ∃ loaded, config.Load env = .ok loaded ∧ loaded.Vapi.WebhookURL = "") := by
  refine ⟨⟨vapi.NewVapiProvider cfg.Vapi.APIKey cfg.Vapi.APIBaseURL
      (stringBytes cfg.Vapi.WebhookURL), ?_, rfl, rfl, rfl, ?_, ?_⟩, ?_, ?_⟩
  · simp only [NewProviderFactory, ProviderFactory.CreateProvider, if_true]
  · intro hurl payload signature
    have hne : stringBytes cfg.Vapi.WebhookURL ≠ [] :=
      fun h => hurl ((stringBytes_eq_nil_iff _).mp h)
    simp only [vapi.ValidateWebhookSignature, vapi.NewVapiProvider, hne, if_false]
  · intro hurl payload signature
    have he : stringBytes cfg.Vapi.WebhookURL = [] := (stringBytes_eq_nil_iff _).mpr hurl
    simp only [vapi.ValidateWebhookSignature, vapi.NewVapiProvider, he, if_true]
  · intro url
    rfl
  · intro env hurl hdb hjwt hkey
    have h1 : config.getEnv env "DATABASE_URL" "" ≠ "" := by
      simp only [config.getEnv, hdb, ne_eq, not_false_eq_true, if_true]
    have h2 : config.getEnv env "JWT_SECRET_KEY" "" ≠ "" := by
      simp only [config.getEnv, hjwt, ne_eq, not_false_eq_true, if_true]
    have h3 : config.getEnv env "VAPI_API_KEY" "" ≠ "" := by
      simp only [config.getEnv, hkey, ne_eq, not_false_eq_true, if_true]
    have h4 : config.getEnv env "VAPI_WEBHOOK_URL" "" = "" := by
      simp only [config.getEnv, hurl, ne_eq, not_true_eq_false, if_false]
    simp only [config.Load, config.Config.Validate, h1, h2, h3, if_false]
    exact ⟨_, rfl, h4⟩

/-- C29 on the sample environment, which sets the three required variables and
no `VAPI_WEBHOOK_URL`: the configuration loads with an empty URL, and the
provider built from it accepts every payload with every signature, among them
the payload `call.ended` with the signature `00`; with the URL `Jefe` that
signature is refused. -/
theorem CreateProvider_secret_is_WebhookURL_witness :
    config.Load config.sampleEnv = .ok config.sampleConfig ∧
      config.sampleConfig.Vapi.WebhookURL = "" ∧
      (∃ v, (NewProviderFactory config.sampleConfig).CreateProvider ProviderTypeVapi = .ok v ∧
        v.webhookSecret = [] ∧
        (∀ payload signature : List UInt8,
          vapi.ValidateWebhookSignature v payload signature = true) ∧
        vapi.ValidateWebhookSignature v vapi.endedPayload (asciiBytes "00") = true) ∧
      (∃ cfg, config.Load config.sampleEnvWithWebhookURL = .ok cfg ∧
        ∃ v, (NewProviderFactory cfg).CreateProvider ProviderTypeVapi = .ok v ∧
          v.webhookSecret = asciiBytes "Jefe" ∧
          vapi.ValidateWebhookSignature v vapi.endedPayload (asciiBytes "00") = false) := by
  refine ⟨by decide, rfl, ?_, ?_⟩
  · obtain ⟨⟨v, hv, _, _, hsecret, _, hall⟩, _, _⟩ :=
      CreateProvider_secret_is_WebhookURL config.sampleConfig
    exact ⟨v, hv, hsecret, hall rfl, hall rfl _ _⟩
  · refine ⟨_, rfl, _, rfl, by decide, ?_⟩
    set_option maxRecDepth 100000 in decide

end providers

namespace services

open errors entities

/-- C30: once the request has passed validation and `Create` has stored the new
call, the request that `InitiateCall` sends to the provider carries the
caller's `PhoneNumber` and `AssistantID` and a `Metadata` of exactly two
entries, `call_id` with the identifier assigned by `Create` and `business_id`;
and whatever `Metadata` the caller's request holds, `InitiateCall` does and
returns the same. -/
theorem InitiateCall_provider_request {σ π : Type} (s : CallService σ π)
    (w : World σ π) (businessID : String) (req : dto.InitiateCallRequest)
    (now nowFailed : time.Time) (newCall : Call) (hp : req.PhoneNumber ≠ "")
    (hnew : NewCall businessID req.PhoneNumber now = .ok newCall)
    (hc : (s.callRepo.Create w.store newCall).2.2 = none) :
    (∃ updated : Call,
        (s.InitiateCall w businessID req now nowFailed).1.ops
          = w.ops ++ [Op.callCreate newCall,
              Op.providerInitiateCall
                { PhoneNumber := req.PhoneNumber, AssistantID := req.AssistantID,
                  Metadata :=
                    [("call_id", Any.str (s.callRepo.Create w.store newCall).2.1),
                     ("business_id", Any.str businessID)] },
              Op.callUpdate updated]) ∧
      ∀ metadata : List (String × Any),
        s.InitiateCall w businessID { req with Metadata := metadata } now nowFailed
          = s.InitiateCall w businessID req now nowFailed := by
  constructor
  · cases hprov : (s.voiceProvider.InitiateCall w.provider
        (providerRequest businessID req (s.callRepo.Create w.store newCall).2.1)).2 with
    | error err =>
      rw [InitiateCall_provider_fails s w businessID req now nowFailed newCall err hp hnew
        hc hprov]
      exact ⟨(UpdateStatus { newCall with ID := (s.callRepo.Create w.store newCall).2.1 }
        CallStatusFailed nowFailed).1, by simp [providerRequest, List.append_assoc]⟩
    | ok session =>
      rw [InitiateCall_success s w businessID req now nowFailed newCall session hp hnew
        hc hprov]
      exact ⟨SetProviderCallID { newCall with ID := (s.callRepo.Create w.store newCall).2.1 }
        session.ID, by simp [providerRequest, List.append_assoc]⟩
  · intro metadata
    rfl

/-- C30 on the sample world: the request of the examples, whose `Metadata`
holds a `customer` entry, reaches the provider with the two entries `call_id`
and `business_id` only, and the same request with an empty `Metadata` gives the
same world and response. -/
theorem InitiateCall_provider_request_witness :
    (∃ updated : Call,
        ((sqlCallService sampleUuid sampleVoiceProvider).InitiateCall sampleWorld "biz-1"
          sampleRequest 5 6).1.ops
          = [Op.callCreate sampleNewCall,
              Op.providerInitiateCall
                { PhoneNumber := "+15551234567", AssistantID := "assistant-1",
                  Metadata := [("call_id", Any.str "uuid-0"),
                    ("business_id", Any.str "biz-1")] },
              Op.callUpdate updated]) ∧
      (sqlCallService sampleUuid sampleVoiceProvider).InitiateCall sampleWorld "biz-1"
          { sampleRequest with Metadata := [] } 5 6
        = (sqlCallService sampleUuid sampleVoiceProvider).InitiateCall sampleWorld "biz-1"
          sampleRequest 5 6 :=
  ⟨(InitiateCall_provider_request (sqlCallService sampleUuid sampleVoiceProvider)
      sampleWorld "biz-1" sampleRequest 5 6 sampleNewCall (by decide) (by decide)
      (by decide)).1,
    (InitiateCall_provider_request (sqlCallService sampleUuid sampleVoiceProvider)
      sampleWorld "biz-1" sampleRequest 5 6 sampleNewCall (by decide) (by decide)
      (by decide)).2 []⟩

end services

namespace services

open errors entities

/-- C21: once the provider has returned an event and the store the call with
the event's vendor session id, `HandleWebhook` starts one transcript fetch, for
the identifier of that call and the vendor session id of the event, when the
event's type is `call.ended` or `call.completed`, and starts none for any other
type, `call.started` and `call.failed` among them: the fetches in the trace are
those that were there before, followed by that one fetch or by nothing. -/
theorem HandleWebhook_fetch_iff_completed {σ π : Type} (s : CallService σ π)
    (w : World σ π) (payload signature : List UInt8) (now : time.Time)
    (event : providers.CallEvent) (call : Call)
    (hev : (s.voiceProvider.HandleWebhook w.provider payload signature).2 = .ok event)
    (hfound : (s.callRepo.GetByProviderCallID w.store event.CallID).2 = .ok call) :
    ((event.Type_ = "call.ended" ∨ event.Type_ = "call.completed") →
        ((s.HandleWebhook w payload signature now).1.ops.filter Op.isFetch
          = w.ops.filter Op.isFetch ++
              [Op.goFetchAndStoreTranscript call.ID event.CallID]) ∧
        ∃ updated : Call,
          (s.HandleWebhook w payload signature now).1.ops
            = w.ops ++ [Op.providerHandleWebhook payload signature,
                Op.callGetByProviderCallID event.CallID,
                Op.goFetchAndStoreTranscript call.ID event.CallID,
                Op.callUpdate updated]) ∧
      (¬ (event.Type_ = "call.ended" ∨ event.Type_ = "call.completed") →
        ((s.HandleWebhook w payload signature now).1.ops.filter Op.isFetch
          = w.ops.filter Op.isFetch) ∧
        ∃ updated : Call,
          (s.HandleWebhook w payload signature now).1.ops
            = w.ops ++ [Op.providerHandleWebhook payload signature,
                Op.callGetByProviderCallID event.CallID,
                Op.callUpdate updated]) ∧
      (event.Type_ = "call.started" ∨ event.Type_ = "call.failed" →
        (s.HandleWebhook w payload signature now).1.ops.filter Op.isFetch
          = w.ops.filter Op.isFetch) := by
  have hno : ¬ (event.Type_ = "call.ended" ∨ event.Type_ = "call.completed") →
      (applyEvent call event now).2 = [] := by
    intro h
    unfold applyEvent
    split_ifs <;> rfl
  have hops := congrArg (fun r => r.1.ops)
    (HandleWebhook_found s w payload signature now event call hev hfound)
  simp only at hops
  refine ⟨?_, ?_, ?_⟩
  · intro h
    rw [hops, applyEvent_completed call event now h]
    exact ⟨by simp [List.filter_append, Op.isFetch],
      (UpdateStatus call CallStatusCompleted now).1, by simp [List.append_assoc]⟩
  · intro h
    rw [hops, hno h]
    exact ⟨by simp [List.filter_append, Op.isFetch],
      (applyEvent call event now).1, by simp [List.append_assoc]⟩
  · intro h
    have hne : ¬ (event.Type_ = "call.ended" ∨ event.Type_ = "call.completed") := by
      rcases h with h | h <;> rw [h] <;> decide
    rw [hops, hno hne]
    simp [List.filter_append, Op.isFetch]

/-- C21 on the sample world: the event `call.completed` for `v-99` starts the
fetch for the call `c-1` and the session `v-99`, and the event `call.started`
starts none. -/
theorem HandleWebhook_fetch_iff_completed_witness :
    ((sqlCallService sampleUuid sampleVoiceProvider).HandleWebhook sampleWorld
        [] [] 3500000000).1.ops.filter Op.isFetch
        = [Op.goFetchAndStoreTranscript "c-1" "v-99"] ∧
      ((sqlCallService sampleUuid
          (scriptedProvider (.ok sampleSession)
            (.ok { sampleCompletedEvent with Type_ := "call.started" })
            (.ok sampleTranscript))).HandleWebhook sampleWorld [] []
              3500000000).1.ops.filter Op.isFetch = [] :=
  ⟨((HandleWebhook_fetch_iff_completed (sqlCallService sampleUuid sampleVoiceProvider)
      sampleWorld [] [] 3500000000 sampleCompletedEvent sampleCallA (by decide)
      (by decide)).1 (by decide)).1,
    (HandleWebhook_fetch_iff_completed
      (sqlCallService sampleUuid
        (scriptedProvider (.ok sampleSession)
          (.ok { sampleCompletedEvent with Type_ := "call.started" })
          (.ok sampleTranscript)))
      sampleWorld [] [] 3500000000 { sampleCompletedEvent with Type_ := "call.started" }
      sampleCallA (by decide) (by decide)).2.2 (by decide)⟩

/-- C22: when the provider's `HandleWebhook` returns an error, the service
returns that error after the one call to the provider: the store is as it was
and the trace gains neither a write of a call nor a transcript fetch. When the
provider returns an event and the lookup by the event's vendor session id
fails, the service returns the error of the lookup after that one read, and
again nothing is written and no fetch is started. Over the database the lookup
fails exactly when no row has the session id, with a not-found error, and the
database is left as it was. -/
theorem HandleWebhook_rejected_writes_nothing {σ π : Type} (s : CallService σ π)
    (w : World σ π) (uuid : Nat → String) (vp : providers.VoiceProvider π)
    (wdb : World database.DB π) (payload signature : List UInt8) (now : time.Time) :
    (∀ err, (s.voiceProvider.HandleWebhook w.provider payload signature).2 = .error err →
        (s.HandleWebhook w payload signature now).2 = some err ∧
        (s.HandleWebhook w payload signature now).1.store = w.store ∧
        (s.HandleWebhook w payload signature now).1.ops
          = w.ops ++ [Op.providerHandleWebhook payload signature]) ∧
      (∀ event err,
        (s.voiceProvider.HandleWebhook w.provider payload signature).2 = .ok event →
        (s.callRepo.GetByProviderCallID w.store event.CallID).2 = .error err →
        (s.HandleWebhook w payload signature now).2 = some err ∧
        (s.HandleWebhook w payload signature now).1.store
          = (s.callRepo.GetByProviderCallID w.store event.CallID).1 ∧
        (s.HandleWebhook w payload signature now).1.ops
          = w.ops ++ [Op.providerHandleWebhook payload signature,
              Op.callGetByProviderCallID event.CallID]) ∧
      (∀ err, (vp.HandleWebhook wdb.provider payload signature).2 = .error err →
        ((sqlCallService uuid vp).HandleWebhook wdb payload signature now).2 = some err ∧
        ((sqlCallService uuid vp).HandleWebhook wdb payload signature now).1.store
          = wdb.store) ∧
      (∀ event, (vp.HandleWebhook wdb.provider payload signature).2 = .ok event →
        (∀ row ∈ wdb.store.calls, row.ProviderCallID ≠ event.CallID) →
        ((sqlCallService uuid vp).HandleWebhook wdb payload signature now).2
          = some (.domain (NewNotFoundError "call" event.CallID)) ∧
        ((sqlCallService uuid vp).HandleWebhook wdb payload signature now).1.store
          = wdb.store ∧
        ((sqlCallService uuid vp).HandleWebhook wdb payload signature now).1.ops
          = wdb.ops ++ [Op.providerHandleWebhook payload signature,
              Op.callGetByProviderCallID event.CallID]) := by
  refine ⟨?_, ?_, ?_, ?_⟩
  · intro err hev
    rw [HandleWebhook_provider_error s w payload signature now err hev]
    exact ⟨rfl, rfl, rfl⟩
  · intro event err hev hfound
    rw [HandleWebhook_lookup_error s w payload signature now event err hev hfound]
    exact ⟨rfl, rfl, by simp [List.append_assoc]⟩
  · intro err hev
    rw [HandleWebhook_provider_error (sqlCallService uuid vp) wdb payload signature now err
      hev]
    exact ⟨rfl, rfl⟩
  · intro event hev hnone
    have hfind : wdb.store.calls.find? (fun row => row.ProviderCallID == event.CallID)
        = none := by
      rw [List.find?_eq_none]
      intro row hrow
      simpa using hnone row hrow
    have hget : (database.CallRepositoryImpl uuid).GetByProviderCallID wdb.store event.CallID
        = (wdb.store, .error (.domain (NewNotFoundError "call" event.CallID))) := by
      simp only [database.CallRepositoryImpl, hfind]
    have hfound : ((sqlCallService uuid vp).callRepo.GetByProviderCallID wdb.store
        event.CallID).2 = .error (.domain (NewNotFoundError "call" event.CallID)) := by
      show ((database.CallRepositoryImpl uuid).GetByProviderCallID wdb.store
        event.CallID).2 = _
      rw [hget]
    rw [HandleWebhook_lookup_error (sqlCallService uuid vp) wdb payload signature now event
      _ hev hfound]
    refine ⟨rfl, ?_, by simp [List.append_assoc]⟩
    show ((database.CallRepositoryImpl uuid).GetByProviderCallID wdb.store event.CallID).1 = _
    rw [hget]

/-- C22 on the sample world, with the provider that checks signatures under the
key `Jefe`: the payload `call.ended` with the signature `00` is refused as
unauthorized, and the same payload with its signature, in a database that has
no call of the session `v-99`, is refused as not found; both leave the database
as it was and start no fetch. -/
theorem HandleWebhook_rejected_writes_nothing_witness :
    (((sqlCallService sampleUuid sampleVapiVoiceProvider).HandleWebhook sampleWorld
          vapi.endedPayload (asciiBytes "00") 3500000000).2
        = some (.domain (NewUnauthorizedError "invalid webhook signature")) ∧
      ((sqlCallService sampleUuid sampleVapiVoiceProvider).HandleWebhook sampleWorld
          vapi.endedPayload (asciiBytes "00") 3500000000).1.store = sampleDB) ∧
      (((sqlCallService sampleUuid sampleVapiVoiceProvider).HandleWebhook emptyWorld
          vapi.endedPayload vapi.endedSignature 3500000000).2
        = some (.domain (NewNotFoundError "call" "v-99")) ∧
      ((sqlCallService sampleUuid sampleVapiVoiceProvider).HandleWebhook emptyWorld
          vapi.endedPayload vapi.endedSignature 3500000000).1.store = emptyDB ∧
      ((sqlCallService sampleUuid sampleVapiVoiceProvider).HandleWebhook emptyWorld
          vapi.endedPayload vapi.endedSignature 3500000000).1.ops
        = [Op.providerHandleWebhook vapi.endedPayload vapi.endedSignature,
            Op.callGetByProviderCallID "v-99"]) :=
  ⟨(HandleWebhook_rejected_writes_nothing
      (sqlCallService sampleUuid sampleVapiVoiceProvider) sampleWorld sampleUuid
      sampleVapiVoiceProvider sampleWorld vapi.endedPayload (asciiBytes "00")
      3500000000).2.2.1 (.domain (NewUnauthorizedError "invalid webhook signature"))
      (by set_option maxRecDepth 100000 in decide),
    (HandleWebhook_rejected_writes_nothing
      (sqlCallService sampleUuid sampleVapiVoiceProvider) emptyWorld sampleUuid
      sampleVapiVoiceProvider emptyWorld vapi.endedPayload vapi.endedSignature
      3500000000).2.2.2
      { Type_ := "call.ended", CallID := "v-99", Status := "", Timestamp := 0,
        Data := [("type", Any.str "call.ended"), ("callId", Any.str "v-99")] }
      (by set_option maxRecDepth 100000 in decide) (by decide)⟩

/-- C24: when the provider's `GetTranscript` fails, `fetchAndStoreTranscript`
ends after that call: the store is as it was. When it succeeds there is one
`CreateBatch`, of one entity per message in the order of the messages, each
with the internal call id as `CallID` and the role, text and timestamp of its
message; no call is read or written. Without messages the batch is empty, and
the `CreateBatch` of the database then returns no error and inserts nothing;
over the database the table of calls is the same after the fetch, whatever the
provider returns. -/
theorem fetchAndStoreTranscript_single_batch {σ π : Type} (s : CallService σ π)
    (w : World σ π) (uuid : Nat → String) (db : database.DB)
    (vp : providers.VoiceProvider π) (wdb : World database.DB π)
    (callID providerCallID : String) (clock : Nat → time.Time) :
    (∀ err, (s.voiceProvider.GetTranscript w.provider providerCallID).2 = .error err →
        (s.fetchAndStoreTranscript w callID providerCallID clock).store = w.store ∧
        (s.fetchAndStoreTranscript w callID providerCallID clock).ops
          = w.ops ++ [Op.providerGetTranscript providerCallID]) ∧
      (∀ t, (s.voiceProvider.GetTranscript w.provider providerCallID).2 = .ok t →
        ∃ batch : List Transcript,
          (s.fetchAndStoreTranscript w callID providerCallID clock).ops
            = w.ops ++ [Op.providerGetTranscript providerCallID,
                Op.transcriptCreateBatch batch] ∧
          (s.fetchAndStoreTranscript w callID providerCallID clock).store
            = (s.transcriptRepo.CreateBatch w.store batch).1 ∧
          batch.length = t.Messages.length ∧
          batch.map database.messageOf = t.Messages ∧
          (∀ e ∈ batch, e.CallID = callID) ∧
          (t.Messages = [] → batch = [])) ∧
      (database.TranscriptRepositoryImpl uuid).CreateBatch db [] = (db, none) ∧
      ((sqlCallService uuid vp).fetchAndStoreTranscript wdb callID providerCallID
        clock).store.calls = wdb.store.calls := by
  refine ⟨?_, ?_, rfl, ?_⟩
  · intro err hget
    constructor <;> simp only [CallService.fetchAndStoreTranscript, hget]
  · intro t hget
    refine ⟨transcriptEntities callID clock 0 t.Messages, ?_, ?_, ?_,
      transcriptEntities_messages callID clock t.Messages 0,
      transcriptEntities_CallID callID clock t.Messages 0, ?_⟩
    · simp only [CallService.fetchAndStoreTranscript, hget]
      simp [List.append_assoc]
    · simp only [CallService.fetchAndStoreTranscript, hget]
    · have h := congrArg List.length (transcriptEntities_messages callID clock t.Messages 0)
      rwa [List.length_map] at h
    · intro h
      rw [h]
      rfl
  · cases hget : (vp.GetTranscript wdb.provider providerCallID).2 with
    | error err =>
      have hget' : ((sqlCallService uuid vp).voiceProvider.GetTranscript wdb.provider
          providerCallID).2 = .error err := hget
      simp only [CallService.fetchAndStoreTranscript, hget']
    | ok t =>
      exact (sql_fetchAndStoreTranscript uuid vp wdb callID providerCallID clock t hget).2.1

/-- C24 on the sample world: the fetch for the call `c-1` and the session
`v-99` writes one batch of the two messages, with `c-1` as their `CallID`; with
a provider that fails, and with one that returns no message, the database is
left as it was. -/
theorem fetchAndStoreTranscript_single_batch_witness :
    (∃ batch : List Transcript,
        ((sqlCallService sampleUuid sampleVoiceProvider).fetchAndStoreTranscript
          sampleWorld "c-1" "v-99" sampleClock).ops
          = [Op.providerGetTranscript "v-99", Op.transcriptCreateBatch batch] ∧
        batch.map database.messageOf = sampleTranscript.Messages ∧
        ∀ e ∈ batch, e.CallID = "c-1") ∧
      ((sqlCallService sampleUuid failingVoiceProvider).fetchAndStoreTranscript
          sampleWorld "c-1" "v-99" sampleClock).store = sampleDB ∧
      ((sqlCallService sampleUuid
          (scriptedProvider (.ok sampleSession) (.ok sampleCompletedEvent)
            (.ok { CallID := "v-99", Messages := [] }))).fetchAndStoreTranscript
          sampleWorld "c-1" "v-99" sampleClock).store = sampleDB := by
  obtain ⟨batch, hops, _, _, hmsgs, hids, _⟩ :=
    (fetchAndStoreTranscript_single_batch (sqlCallService sampleUuid sampleVoiceProvider)
      sampleWorld sampleUuid sampleDB sampleVoiceProvider sampleWorld "c-1" "v-99"
      sampleClock).2.1 sampleTranscript (by decide)
  exact ⟨⟨batch, hops, hmsgs, hids⟩,
    ((fetchAndStoreTranscript_single_batch
      (sqlCallService sampleUuid failingVoiceProvider) sampleWorld sampleUuid sampleDB
      failingVoiceProvider sampleWorld "c-1" "v-99" sampleClock).1
      (.other "provider API unavailable") (by decide)).1,
    by decide⟩

end services

namespace vapi

open errors

/-- C23, as the code has it: `HandleWebhook` checks the signature first, and a
payload with a signature that `ValidateWebhookSignature` refuses fails as
unauthorized whatever it contains. With an accepted signature, the payload
fails as invalid input exactly when `json.Unmarshal` into a map returns an
error; it is decoded when it holds one JSON object, or the literal `null`,
which leaves the map empty. The event of a decoded payload has as `Type`,
`CallID` and `Status` the entries of `type`, `callId` and `status` when these
are strings, and the empty string when the key is absent or its entry is not a
string; its `Data` is the map. -/
theorem HandleWebhook_signature_then_payload (v : VapiProvider)
    (parseRFC3339 : String → Option time.Time) (payload signature : List UInt8)
    (now : time.Time) :
    (ValidateWebhookSignature v payload signature = false →
        HandleWebhook v parseRFC3339 payload signature now
          = .error (.domain (NewUnauthorizedError "invalid webhook signature")) ∧
        (NewUnauthorizedError "invalid webhook signature").Code = ErrCodeUnauthorized) ∧
      (ValidateWebhookSignature v payload signature = true →
        ((∃ msg, json.Unmarshal payload = .error msg) →
          HandleWebhook v parseRFC3339 payload signature now
            = .error (.domain (NewInvalidInputError "invalid webhook payload")) ∧
          (NewInvalidInputError "invalid webhook payload").Code = ErrCodeInvalidInput) ∧
        (∀ data, json.Unmarshal payload = .ok data →
          ∃ event, HandleWebhook v parseRFC3339 payload signature now = .ok event ∧
            event.Data = data ∧
            ((∀ s, data.lookup "type" = some (Any.str s) → event.Type_ = s) ∧
              ((∀ s, data.lookup "type" ≠ some (Any.str s)) → event.Type_ = "")) ∧
            ((∀ s, data.lookup "callId" = some (Any.str s) → event.CallID = s) ∧
              ((∀ s, data.lookup "callId" ≠ some (Any.str s)) → event.CallID = "")) ∧
            ((∀ s, data.lookup "status" = some (Any.str s) → event.Status = s) ∧
              ((∀ s, data.lookup "status" ≠ some (Any.str s)) → event.Status = "")))) ∧
      (∀ data, json.Unmarshal payload = .ok data ↔
        ∃ fuel rest, json.skipSpace rest = [] ∧
          (json.decode fuel .value 0 payload = some (.object data, rest) ∨
            (json.decode fuel .value 0 payload = some (.scalar Any.null, rest) ∧
              data = []))) := by
  refine ⟨fun h => ⟨HandleWebhook_unauthorized v parseRFC3339 payload signature now h, rfl⟩,
    fun h => ⟨?_, ?_⟩, fun data => json.Unmarshal_ok_iff payload data⟩
  · rintro ⟨msg, hmsg⟩
    exact ⟨HandleWebhook_malformed v parseRFC3339 payload signature now msg h hmsg, rfl⟩
  · intro data hdata
    obtain ⟨t, ht⟩ := HandleWebhook_decoded v parseRFC3339 payload signature now data h hdata
    exact ⟨_, ht, rfl,
      ⟨fun s hs => getString_of_string data "type" s hs,
        fun hs => getString_of_not_string data "type" hs⟩,
      ⟨fun s hs => getString_of_string data "callId" s hs,
        fun hs => getString_of_not_string data "callId" hs⟩,
      ⟨fun s hs => getString_of_string data "status" s hs,
        fun hs => getString_of_not_string data "status" hs⟩⟩

/-- C23 on payloads signed under the key `Jefe`: the payload `call.started`
for `v-99` gives the event of that type and session with an empty status; a
payload cut short is refused as invalid input with its signature and as
unauthorized with the signature `00`. -/
theorem HandleWebhook_signature_then_payload_witness :
    HandleWebhook sampleProvider noTimestamp startedPayload startedSignature 7
        = .ok { Type_ := "call.started", CallID := "v-99", Status := "", Timestamp := 7,
                Data := [("type", Any.str "call.started"), ("callId", Any.str "v-99")] } ∧
      HandleWebhook sampleProvider noTimestamp truncatedPayload truncatedSignature 7
        = .error (.domain (NewInvalidInputError "invalid webhook payload")) ∧
      HandleWebhook sampleProvider noTimestamp truncatedPayload (asciiBytes "00") 7
        = .error (.domain (NewUnauthorizedError "invalid webhook signature")) := by
  refine ⟨?_, ?_, ?_⟩
  · set_option maxRecDepth 100000 in decide
  · exact ((HandleWebhook_signature_then_payload sampleProvider noTimestamp truncatedPayload
      truncatedSignature 7).2.1 (by set_option maxRecDepth 100000 in decide)).1
      ⟨"invalid JSON", by set_option maxRecDepth 100000 in decide⟩ |>.1
  · exact ((HandleWebhook_signature_then_payload sampleProvider noTimestamp truncatedPayload
      (asciiBytes "00") 7).1 (by set_option maxRecDepth 100000 in decide)).1

/-- C23, the case that the claim leaves out: the payload `null`, with its
signature under the key `Jefe`, is not a JSON object, and yet it is decoded,
into an event with an empty `Type`, `CallID` and `Status`, not refused as
invalid input. -/
theorem HandleWebhook_null_payload_counterexample :
    ValidateWebhookSignature sampleProvider json.literalNull nullSignature = true ∧
      json.decode 1 .value 0 json.literalNull = some (.scalar Any.null, []) ∧
      HandleWebhook sampleProvider noTimestamp json.literalNull nullSignature 7
        = .ok { Type_ := "", CallID := "", Status := "", Timestamp := 7, Data := [] } := by
  refine ⟨?_, ?_, ?_⟩
  · set_option maxRecDepth 100000 in decide
  · set_option maxRecDepth 100000 in decide
  · set_option maxRecDepth 100000 in decide

end vapi

namespace services

open errors entities

/-- C25, as stated, fails on the `Duration`: in the sample scenario with the
`call.ended` webhook arriving `16777216.999999999` seconds after the
`call.started` webhook, the stored call is `completed` with `StartedAt` `1s`,
`EndedAt` `16777217.999999999s` and `Duration` `16777217`, while
`EndedAt - StartedAt` in whole seconds is `16777216`. -/
theorem end_to_end_Duration_counterexample :
    ∃ c3 : Call,
      storedCall longScenario.ended.1 "uuid-0" = some c3 ∧
      longScenario.ended.2 = none ∧
      c3.Status = CallStatusCompleted ∧ c3.ProviderCallID = "v-99" ∧
      c3.StartedAt = some 1000000000 ∧ c3.EndedAt = some 16777217999999999 ∧
      c3.Duration = 16777217 ∧
      (16777217999999999 - 1000000000 : Int) / 1000000000 = 16777216 ∧
      c3.Duration ≠ (16777217999999999 - 1000000000 : Int) / 1000000000 := by
  refine ⟨{ ID := "uuid-0", BusinessID := "biz-1", ProviderCallID := "v-99",
            CallerPhone := "+15551234567", Duration := 16777217,
            Status := CallStatusCompleted, Cost := 0, StartedAt := some 1000000000,
            EndedAt := some 16777217999999999, CreatedAt := 5 },
    ?_, ?_, rfl, rfl, rfl, rfl, rfl, by decide, by decide⟩
  · set_option maxRecDepth 100000 in decide
  · set_option maxRecDepth 100000 in decide

/-- C25, amended: the scenario over the database, started in a world where the
identifier drawn for the call is new and no call has the session `v-99`, with a
provider that accepts the call under the session `v-99`, reports `call.started`
and then `call.ended` for that session, and returns a transcript. `InitiateCall`
for `biz-1` to `+15551234567` stores a call with status `initiated` and
`ProviderCallID` `v-99`; the first webhook makes it `in_progress`, started at
the instant of the webhook; the second makes it `completed`, ended at the
instant of the webhook, with `int(EndedAt.Sub(StartedAt).Seconds())` computed in
`float64` as `Duration`, which is the whole seconds between the two instants
when they are in order and less than `2 ^ 24` seconds apart, and otherwise the
whole seconds of the saturating `Sub` or one more, and starts one transcript
fetch, for that call and session; once the fetch has run, `GetTranscript` for
`biz-1` and the call returns the messages fetched, sorted by timestamp. -/
theorem end_to_end_scenario {π : Type} (e : Scenario π)
    (session : providers.CallSession) (started ended : providers.CallEvent)
    (t : providers.Transcript)
    (hfreshID : ∀ row ∈ e.world.store.calls, row.ID ≠ e.uuid e.world.store.uuids)
    (hfreshSession : ∀ row ∈ e.world.store.calls, row.ProviderCallID ≠ "v-99")
    (hfreshTranscripts :
      ∀ row ∈ e.world.store.transcripts, row.CallID ≠ e.uuid e.world.store.uuids)
    (hsession : (e.voiceProvider.InitiateCall e.world.provider
      (providerRequest "biz-1" e.request (e.uuid e.world.store.uuids))).2 = .ok session)
    (hid : session.ID = "v-99")
    (hstarted : (e.voiceProvider.HandleWebhook e.initiated.1.provider e.startedPayload
      e.startedSignature).2 = .ok started)
    (hstartedType : started.Type_ = "call.started") (hstartedID : started.CallID = "v-99")
    (hended : (e.voiceProvider.HandleWebhook e.started.1.provider e.endedPayload
      e.endedSignature).2 = .ok ended)
    (hendedType : ended.Type_ = "call.ended") (hendedID : ended.CallID = "v-99")
    (htranscript : (e.voiceProvider.GetTranscript e.ended.1.provider "v-99").2 = .ok t) :
    ∃ (callID : String) (c1 c2 c3 : Call),
      callID = e.uuid e.world.store.uuids ∧
      (e.initiated.2 = .ok (mapCallToResponse c1) ∧
        storedCall e.initiated.1 callID = some c1 ∧
        c1.BusinessID = "biz-1" ∧ c1.CallerPhone = "+15551234567" ∧
        c1.Status = CallStatusInitiated ∧ c1.ProviderCallID = "v-99") ∧
      (e.started.2 = none ∧
        storedCall e.started.1 callID = some c2 ∧
        c2.Status = CallStatusInProgress ∧ c2.StartedAt = some e.startedAt) ∧
      (e.ended.2 = none ∧
        storedCall e.ended.1 callID = some c3 ∧
        c3.Status = CallStatusCompleted ∧ c3.StartedAt = some e.startedAt ∧
        c3.EndedAt = some e.endedAt ∧
        c3.Duration = float64.toInt (time.Seconds (time.Sub e.endedAt e.startedAt)) ∧
        (e.startedAt ≤ e.endedAt → e.endedAt - e.startedAt < 16777216000000000 →
          c3.Duration = (e.endedAt - e.startedAt) / 1000000000) ∧
        (e.startedAt ≤ e.endedAt →
          (time.Sub e.endedAt e.startedAt).tdiv 1000000000 ≤ c3.Duration ∧
            c3.Duration ≤ (time.Sub e.endedAt e.startedAt).tdiv 1000000000 + 1) ∧
        e.scheduled = [Op.goFetchAndStoreTranscript callID "v-99"]) ∧
      ((e.transcript callID).2
          = .ok { CallID := callID,
                  Messages := (t.Messages.insertionSort
                    (fun a b => a.Timestamp ≤ b.Timestamp)).map messageResponse } ∧
        (t.Messages.insertionSort (fun a b => a.Timestamp ≤ b.Timestamp)).Sorted
          (fun a b => a.Timestamp ≤ b.Timestamp) ∧
        (t.Messages.insertionSort (fun a b => a.Timestamp ≤ b.Timestamp)).Perm
          t.Messages) := by
  -- step 1
  obtain ⟨c1, hc1⟩ : ∃ c1 : Call, c1 =
      { ID := e.uuid e.world.store.uuids, BusinessID := "biz-1",
        ProviderCallID := session.ID, CallerPhone := e.request.PhoneNumber,
        Duration := 0, Status := CallStatusInitiated, Cost := 0,
        StartedAt := none, EndedAt := none, CreatedAt := e.createdAt } := ⟨_, rfl⟩
  obtain ⟨h1resp, h1calls, h1tr, h1prov⟩ :=
    sql_InitiateCall_fresh e.uuid e.voiceProvider e.world "biz-1" e.request e.createdAt
      e.failedAt session c1 (by decide) (by simp [Scenario.request]) hfreshID hsession hc1
  have c1ID : c1.ID = e.uuid e.world.store.uuids := by rw [hc1]
  have c1Session : c1.ProviderCallID = "v-99" := by rw [hc1]; exact hid
  have c1Started : c1.StartedAt = none := by rw [hc1]
  have c1Ended : c1.EndedAt = none := by rw [hc1]
  have c1Business : c1.BusinessID = "biz-1" := by rw [hc1]
  have c1Phone : c1.CallerPhone = "+15551234567" := by rw [hc1]; rfl
  have c1Status : c1.Status = CallStatusInitiated := by rw [hc1]
  have hrowsID : ∀ row ∈ e.world.store.calls, row.ID ≠ c1.ID := by
    intro row hrow
    rw [c1ID]
    exact hfreshID row hrow
  -- step 2
  obtain ⟨c2, hc2⟩ : ∃ c2 : Call, c2 = (UpdateStatus c1 CallStatusInProgress e.startedAt).1 :=
    ⟨_, rfl⟩
  have hc2v := UpdateStatus_valid c1 CallStatusInProgress e.startedAt (by decide)
  rw [← hc2] at hc2v
  have c2ID : c2.ID = c1.ID := by rw [hc2v]
  have c2Session : c2.ProviderCallID = "v-99" := by rw [hc2v]; exact c1Session
  have c2Business : c2.BusinessID = "biz-1" := by rw [hc2v]; exact c1Business
  have c2Status : c2.Status = CallStatusInProgress := by rw [hc2v]
  have c2Started : c2.StartedAt = some e.startedAt := by
    rw [hc2v]
    simp [c1Started]
  have c2Ended : c2.EndedAt = none := by
    rw [hc2v]
    simp [c1Ended, inProgress_not_terminal]
  obtain ⟨h2err, h2calls, h2tr, _, h2prov, h2ops⟩ :=
    sql_HandleWebhook_last_row e.uuid e.voiceProvider e.initiated.1 e.startedPayload
      e.startedSignature e.startedAt started e.world.store.calls c1 hstarted h1calls
      hrowsID (by rw [hstartedID]; exact hfreshSession)
      (by rw [hstartedID]; exact c1Session)
  rw [applyEvent_started c1 started e.startedAt hstartedType] at h2calls h2ops
  simp only at h2calls h2ops
  rw [← hc2] at h2calls h2ops
  -- step 3
  obtain ⟨c3, hc3⟩ : ∃ c3 : Call, c3 = (UpdateStatus c2 CallStatusCompleted e.endedAt).1 :=
    ⟨_, rfl⟩
  have hc3v := UpdateStatus_valid c2 CallStatusCompleted e.endedAt (by decide)
  rw [← hc3] at hc3v
  have hterm : isTerminalStatus CallStatusCompleted = true := by decide
  have c3ID : c3.ID = c1.ID := by rw [hc3v]; exact c2ID
  have c3Business : c3.BusinessID = "biz-1" := by rw [hc3v]; exact c2Business
  have c3Status : c3.Status = CallStatusCompleted := by rw [hc3v]
  have c3Started : c3.StartedAt = some e.startedAt := by
    rw [hc3v]
    have hne : CallStatusCompleted ≠ CallStatusInProgress := by decide
    simp [hne, c2Started]
  have c3Ended : c3.EndedAt = some e.endedAt := by
    rw [hc3v]
    simp [hterm, c2Ended]
  have c3Duration : c3.Duration = durationSeconds e.endedAt e.startedAt := by
    rw [hc3v]
    simp only [hterm, c2Ended, c2Started, and_self, if_true]
  have hrowsID2 : ∀ row ∈ e.world.store.calls, row.ID ≠ c2.ID := by
    intro row hrow
    rw [c2ID]
    exact hrowsID row hrow
  obtain ⟨h3err, h3calls, h3tr, _, h3prov, h3ops⟩ :=
    sql_HandleWebhook_last_row e.uuid e.voiceProvider e.started.1 e.endedPayload
      e.endedSignature e.endedAt ended e.world.store.calls c2 hended h2calls
      hrowsID2 (by rw [hendedID]; exact hfreshSession)
      (by rw [hendedID]; exact c2Session)
  rw [applyEvent_completed c2 ended e.endedAt (Or.inl hendedType)] at h3calls h3ops
  simp only at h3calls h3ops
  rw [← hc3, hendedID, c2ID, c1ID] at h3ops
  rw [← hc3] at h3calls
  have h3ops' : e.ended.1.ops
      = e.started.1.ops ++ ([Op.providerHandleWebhook e.endedPayload e.endedSignature,
          Op.callGetByProviderCallID "v-99"] ++
          [Op.goFetchAndStoreTranscript (e.uuid e.world.store.uuids) "v-99"] ++
          [Op.callUpdate c3]) := h3ops
  have hsched : e.scheduled
      = [Op.goFetchAndStoreTranscript (e.uuid e.world.store.uuids) "v-99"] := by
    unfold Scenario.scheduled
    rw [h3ops', List.drop_left]
    rfl
  -- step 4
  have hfetched : e.fetched
      = (sqlCallService e.uuid e.voiceProvider).fetchAndStoreTranscript e.ended.1
          (e.uuid e.world.store.uuids) "v-99" e.clock := by
    unfold Scenario.fetched
    rw [hsched]
    rfl
  obtain ⟨h4msgs, h4calls, _, _⟩ :=
    sql_fetchAndStoreTranscript e.uuid e.voiceProvider e.ended.1
      (e.uuid e.world.store.uuids) "v-99" e.clock t htranscript
  rw [← hfetched] at h4msgs h4calls
  have h3tr' : e.ended.1.store.transcripts = e.world.store.transcripts :=
    h3tr.trans (h2tr.trans h1tr)
  have hnone : database.storedMessages e.ended.1.store (e.uuid e.world.store.uuids) = [] := by
    unfold database.storedMessages
    rw [h3tr', List.map_eq_nil_iff, List.filter_eq_nil_iff]
    intro row hrow
    simpa using hfreshTranscripts row hrow
  rw [hnone, List.nil_append] at h4msgs
  -- step 5
  have h4find : e.fetched.store.calls.find?
      (fun row => row.ID == e.uuid e.world.store.uuids) = some c3 := by
    rw [h4calls]
    show (List.find? _ ((sqlCallService e.uuid e.voiceProvider).HandleWebhook e.started.1
      e.endedPayload e.endedSignature e.endedAt).1.store.calls) = _
    rw [h3calls]
    exact database.find_ID_append_last c3 _ _ hfreshID (c3ID.trans c1ID)
  have h5 := sql_GetTranscript_found e.uuid e.voiceProvider e.fetched "biz-1"
    (e.uuid e.world.store.uuids) c3 h4find c3Business
  rw [h4msgs] at h5
  haveI : IsTotal providers.TranscriptMessage (fun a b => a.Timestamp ≤ b.Timestamp) :=
    ⟨fun a b => le_total a.Timestamp b.Timestamp⟩
  haveI : IsTrans providers.TranscriptMessage (fun a b => a.Timestamp ≤ b.Timestamp) :=
    ⟨fun _ _ _ hab hbc => le_trans hab hbc⟩
  refine ⟨e.uuid e.world.store.uuids, c1, c2, c3, rfl,
    ⟨h1resp, ?_, c1Business, c1Phone, c1Status, c1Session⟩,
    ⟨h2err, ?_, c2Status, c2Started⟩,
    ⟨h3err, ?_, c3Status, c3Started, c3Ended, c3Duration, ?_, ?_, hsched⟩,
    ⟨h5, List.sorted_insertionSort _ _, List.perm_insertionSort _ _⟩⟩
  · show (List.find? _ ((sqlCallService e.uuid e.voiceProvider).InitiateCall e.world "biz-1"
      e.request e.createdAt e.failedAt).1.store.calls) = _
    rw [h1calls]
    exact database.find_ID_append_last c1 _ _ hfreshID c1ID
  · show (List.find? _ ((sqlCallService e.uuid e.voiceProvider).HandleWebhook e.initiated.1
      e.startedPayload e.startedSignature e.startedAt).1.store.calls) = _
    rw [h2calls]
    exact database.find_ID_append_last c2 _ _ hfreshID (c2ID.trans c1ID)
  · show (List.find? _ ((sqlCallService e.uuid e.voiceProvider).HandleWebhook e.started.1
      e.endedPayload e.endedSignature e.endedAt).1.store.calls) = _
    rw [h3calls]
    exact database.find_ID_append_last c3 _ _ hfreshID (c3ID.trans c1ID)
  · intro hle hfits
    have h0 : (0 : Int) ≤ e.endedAt - e.startedAt := sub_nonneg.mpr hle
    rw [c3Duration, durationSeconds_exact e.endedAt e.startedAt
      (lt_of_lt_of_le (by decide) h0) hfits, Int.tdiv_eq_ediv h0 (by decide)]
  · intro hle
    rw [c3Duration]
    exact durationSeconds_of_le e.endedAt e.startedAt hle

/-- C25 amended, on the sample scenario, from the empty database, with webhooks signed
under the key `Jefe`: the call `uuid-0` is stored as `initiated` with the
session `v-99`, is `in_progress` from `1s` after the first webhook, and
`completed` at `3.5s` with a `Duration` of 2 seconds after the second, which
starts one fetch; after the fetch `GetTranscript` returns the two messages. -/
theorem end_to_end_scenario_witness :
    ∃ c1 c2 c3 : Call,
      (sampleScenario.initiated.2 = .ok (mapCallToResponse c1) ∧
        storedCall sampleScenario.initiated.1 "uuid-0" = some c1 ∧
        c1.Status = CallStatusInitiated ∧ c1.ProviderCallID = "v-99") ∧
      (storedCall sampleScenario.started.1 "uuid-0" = some c2 ∧
        c2.Status = CallStatusInProgress ∧ c2.StartedAt = some 1000000000) ∧
      (storedCall sampleScenario.ended.1 "uuid-0" = some c3 ∧
        c3.Status = CallStatusCompleted ∧ c3.EndedAt = some 3500000000 ∧
        c3.Duration = 2 ∧
        sampleScenario.scheduled = [Op.goFetchAndStoreTranscript "uuid-0" "v-99"]) ∧
      (sampleScenario.transcript "uuid-0").2
        = .ok { CallID := "uuid-0",
                Messages :=
                  [{ Role := "assistant", Message := "Hello", Timestamp := 1100000000 },
                   { Role := "user", Message := "Hi", Timestamp := 1200000000 }] } := by
  obtain ⟨callID, c1, c2, c3, hid, ⟨h1, h1s, _, _, h1st, h1p⟩, ⟨_, h2s, h2st, h2a⟩,
      ⟨_, h3s, h3st, _, h3e, _, h3d, _, h3f⟩, ⟨h5, _, _⟩⟩ :=
    end_to_end_scenario sampleScenario sampleSession
      { Type_ := "call.started", CallID := "v-99", Status := "", Timestamp := 1,
        Data := [("type", Any.str "call.started"), ("callId", Any.str "v-99")] }
      { Type_ := "call.ended", CallID := "v-99", Status := "", Timestamp := 2,
        Data := [("type", Any.str "call.ended"), ("callId", Any.str "v-99")] }
      sampleTranscript
      (by decide) (by decide) (by decide) (by decide) (by decide)
      (by set_option maxRecDepth 100000 in decide) (by decide) (by decide)
      (by set_option maxRecDepth 100000 in decide) (by decide) (by decide)
      (by set_option maxRecDepth 100000 in decide)
  subst hid
  exact ⟨c1, c2, c3, ⟨h1, h1s, h1st, h1p⟩, ⟨h2s, h2st, h2a⟩,
    ⟨h3s, h3st, h3e, h3d (by decide) (by decide), h3f⟩, h5⟩

end services
